import Mathlib

/-!
# fluid-ai-diagnoser: rule evaluation and ranking engine

A shallow embedding of `pkg/types`, `pkg/rules` and `pkg/engine`.

Modelling conventions.

* A Go map is represented by the list of its entries in the order in which a
  `range` loop visits them.  Go fixes no such order: another evaluation, or
  another loop of the same evaluation, may visit the entries in another order,
  which is a permutation of the list.  A value of `DiagnosticContext` fixes one
  order for each map.  Where two evaluations of one snapshot are compared, they
  are two values whose maps are permutations of each other, such as `lostFirst`
  and `pendingFirst`.  A map that is only looked up (`Labels`) is an
  association list read with `List.lookup`.
* A loop that returns `true` from its body and `false` after it is `List.any`;
  a loop that updates local variables is `List.foldl` over the loop body.
* Strings are sequences of code points: `==`, `<` and `strings.Contains` on
  valid UTF-8 agree with their byte-wise Go counterparts.  `strings.ToLower`
  is followed for every rune whose lower case is an ASCII character, which is
  all that a search for an ASCII word in the lowered text can see.
* A run-time panic is the value `Except.error`.  Only an index expression can
  panic among the operations the code performs; `AnalyzeChecked` is `Analyze`
  with each of them checked.
* Input slices are only ranged over, so a nil and an empty input slice behave
  alike and both are `[]`.  The slices the code builds (`Evidence`,
  `Hypotheses`) are values of `Slice`, which keeps the nil slice apart from an
  allocated one.
* `float64` confidences are the exact rationals of the decimal constants of
  `scoring.go`; the code only copies and compares them.
* `int32` and `int` fields are `Int`; the code only compares and prints them,
  and `i + 1` stays far below the word size.
* `time.Now().UTC()` is the `now` argument of `Analyze`.
-/

namespace FluidDiagnoser

/-! ## Go slices and string helpers -/

/-- A Go slice value built by the code: `nil` is the nil slice (a declared but
never allocated slice), `mk l` an allocated slice holding `l`. -/
inductive Slice (α : Type) where
  | nil : Slice α
  | mk : List α → Slice α
deriving DecidableEq, Repr

namespace Slice

/-- The elements of a slice, in order. -/
def toList {α : Type} : Slice α → List α
  | nil => []
  | mk l => l

/-- Go's `len(s)`. -/
def len {α : Type} (s : Slice α) : Nat := s.toList.length

/-- Go's `s == nil`. -/
def isNil {α : Type} : Slice α → Bool
  | nil => true
  | mk _ => false

/-- Go's `append(s, x)`: the result is always allocated. -/
def append {α : Type} (s : Slice α) (x : α) : Slice α := mk (s.toList ++ [x])

/-- Apply an in-place, length-preserving update to the elements; a nil slice
stays nil. -/
def update {α : Type} (f : List α → List α) : Slice α → Slice α
  | nil => nil
  | mk l => mk (f l)

end Slice

/-- Go's `strings.Contains(s, substr)`. -/
def strContains (s substr : String) : Bool := decide (substr.data <:+: s.data)

/-- Go's `unicode.ToLower(r)` wherever its value is an ASCII character.  The
runes with an ASCII lower case are `A` to `Z`, U+0130 (capital I with dot
above, lowered to `i`) and U+212A (the Kelvin sign, lowered to `k`).  Every
other ASCII character is its own lower case.  A rune outside ASCII other than
those two is lowered by Go to a rune outside ASCII; it is kept as it is here. -/
def toLowerRune (c : Char) : Char :=
  if c.toNat = 304 then 'i'
  else if c.toNat = 8490 then 'k'
  else c.toLower

/-- Go's `strings.ToLower(s)`, rune by rune through `toLowerRune`.  The result
has the ASCII characters of Go's result at the same positions and a rune
outside ASCII wherever Go's result has one.  The rules only search the lowered
text for the ASCII words `fuse`, `worker`, `memory` and `insufficient`, and
such a search cannot tell the two results apart. -/
def strToLower (s : String) : String := String.mk (s.data.map toLowerRune)

/-- Go's `fmt.Sprintf("%d", n)`. -/
def fmtInt (n : Int) : String := toString n

/-! ## pkg/types/context.go -/

structure Summary where
  ClusterVersion : String
  Namespace : String
deriving DecidableEq, Repr

structure Taint where
  Key : String
  Value : String
  Effect : String
deriving DecidableEq, Repr

structure NodeInfo where
  Name : String
  Taints : List Taint
  Allocatable : List (String × String)
  Capacity : List (String × String)
  Unschedulable : Bool
deriving DecidableEq, Repr

/-- The Go field `Type` is spelled `Typ`. -/
structure Condition where
  Typ : String
  Status : String
  Reason : String
  Message : String
deriving DecidableEq, Repr

structure OwnerReference where
  Kind : String
  Name : String
deriving DecidableEq, Repr

structure ObjectReference where
  Kind : String
  Namespace : String
  Name : String
deriving DecidableEq, Repr

/-- The Go field `Type` is spelled `Typ`. -/
structure Event where
  Reason : String
  Message : String
  Typ : String
  Count : Int
  LastTimestamp : String
  InvolvedObject : ObjectReference
deriving DecidableEq, Repr

structure PodInfo where
  Name : String
  Namespace : String
  Status : String
  Conditions : List Condition
  Events : List Event
  OwnerReferences : List OwnerReference
  Labels : List (String × String)
deriving DecidableEq, Repr

structure PVCInfo where
  Name : String
  Namespace : String
  Status : String
  VolumeName : String
  Conditions : List Condition
deriving DecidableEq, Repr

structure DatasetInfo where
  Name : String
  Namespace : String
  Status : String
  Conditions : List Condition
deriving DecidableEq, Repr

/-- The Go field `Type` is spelled `Typ`. -/
structure RuntimeInfo where
  Name : String
  Namespace : String
  Typ : String
  MasterReplicas : Int
  WorkerReplicas : Int
  MasterReady : Int
  WorkerReady : Int
  Phase : String
  Conditions : List Condition
  FusePhase : String
  FuseReady : Int
  FuseUnavailable : Int
deriving DecidableEq, Repr

structure FailureHint where
  Name : String
  Message : String
  Source : String
deriving DecidableEq, Repr

structure Metadata where
  CreationTimestamp : String
  CollectorVersion : String
deriving DecidableEq, Repr

structure ResourceGraph where
  Nodes : List (String × NodeInfo)
  Pods : List (String × PodInfo)
  PVCs : List (String × PVCInfo)
  Datasets : List (String × DatasetInfo)
  Runtimes : List (String × RuntimeInfo)
deriving DecidableEq, Repr

structure DiagnosticContext where
  Summary : Summary
  Graph : ResourceGraph
  Findings : List FailureHint
  Events : List Event
  Logs : List (String × String)
  Metadata : Metadata
deriving DecidableEq, Repr

/-! ## pkg/types/hypothesis.go, result.go, scoring.go -/

structure Hypothesis where
  Rank : Int
  Confidence : ℚ
  Component : String
  Issue : String
  Evidence : Slice String
  Suggestion : String
deriving DecidableEq

structure DiagnosisResult where
  Hypotheses : Slice Hypothesis
  GeneratedAt : Nat
  Engine : String
deriving DecidableEq

def ConfidenceEventAndStatus : ℚ := 8 / 10
def ConfidencePodStatusOnly : ℚ := 6 / 10
def ConfidenceConditionOnly : ℚ := 5 / 10
def ConfidenceLogMatch : ℚ := 55 / 100
def ConfidenceEventOnly : ℚ := 5 / 10
def ConfidenceLow : ℚ := 3 / 10

/-! ## pkg/rules: shared accumulator -/

/-- The two local variables `evidence` and `confidence` of a rule's
`Hypothesis` method. -/
structure Acc where
  evidence : Slice String
  confidence : ℚ
deriving DecidableEq

/-- State at method entry: `var evidence []string` and
`confidence := types.ConfidenceConditionOnly`. -/
def Acc.init : Acc := ⟨Slice.nil, ConfidenceConditionOnly⟩

/-! ## pkg/rules/fuse.go -/

def isFusePod (pod : PodInfo) : Bool :=
  if (match pod.Labels.lookup "role" with
      | some role => role == "fuse"
      | none => false) then true
  else if (pod.Labels.lookup "fluid.io/fuse").isSome then true
  else if pod.OwnerReferences.any
      (fun owner => strContains (strToLower owner.Name) "fuse") then true
  else strContains (strToLower pod.Name) "fuse"

def isFuseRelatedEvent (event : Event) : Bool :=
  strContains (strToLower event.InvolvedObject.Name) "fuse"

namespace FuseUnschedulableRule

def ID : String := "fuse-unschedulable"

def Match (ctx : DiagnosticContext) : Bool :=
  if ctx.Graph.Pods.any (fun entry =>
      isFusePod entry.2 && entry.2.Status == "Pending"
        && entry.2.Conditions.any
            (fun cond => cond.Typ == "PodScheduled" && cond.Status == "False")) then true
  else if ctx.Events.any (fun event =>
      event.Typ == "Warning" && strContains event.Reason "FailedScheduling"
        && isFuseRelatedEvent event) then true
  else false

/-- Body of the inner loop over `pod.Conditions`. -/
def condStep (name : String) (pod : PodInfo) (acc : Acc) (cond : Condition) : Acc :=
  if cond.Typ == "PodScheduled" && cond.Status == "False" then
    let line := "Pod " ++ pod.Namespace ++ "/" ++ name ++ ": PodScheduled=False, reason="
      ++ cond.Reason
    let acc1 : Acc := { acc with evidence := acc.evidence.append line }
    if cond.Reason ≠ "" then { acc1 with confidence := ConfidenceEventAndStatus } else acc1
  else acc

/-- Body of the loop over `ctx.Graph.Pods`. -/
def podStep (acc : Acc) (entry : String × PodInfo) : Acc :=
  if !isFusePod entry.2 then acc
  else if entry.2.Status == "Pending" then
    entry.2.Conditions.foldl (condStep entry.1 entry.2) acc
  else acc

/-- Body of the loop over `ctx.Events`. -/
def eventStep (acc : Acc) (event : Event) : Acc :=
  if event.Typ == "Warning" && strContains event.Reason "FailedScheduling" then
    if isFuseRelatedEvent event then
      let line := "Event: " ++ event.Reason ++ " - " ++ event.Message
      { evidence := acc.evidence.append line, confidence := ConfidenceEventAndStatus }
    else acc
  else acc

/-- The two local variables after both loops. -/
def scan (ctx : DiagnosticContext) : Acc :=
  ctx.Events.foldl eventStep (ctx.Graph.Pods.foldl podStep Acc.init)

def Hypothesis (ctx : DiagnosticContext) : FluidDiagnoser.Hypothesis :=
  { Rank := 0,
    Confidence := (scan ctx).confidence,
    Component := "Fuse",
    Issue := "Fuse pod cannot be scheduled due to node taints or missing tolerations",
    Evidence := (scan ctx).evidence,
    Suggestion := "Check node taints and ensure Fuse pods have appropriate tolerations. Verify node selectors match available nodes." }

end FuseUnschedulableRule

/-! ## pkg/rules/worker.go -/

def isWorkerPod (pod : PodInfo) : Bool :=
  if (match pod.Labels.lookup "role" with
      | some role => role == "worker"
      | none => false) then true
  else if (pod.Labels.lookup "fluid.io/worker").isSome then true
  else if pod.OwnerReferences.any
      (fun owner => strContains (strToLower owner.Name) "worker") then true
  else strContains (strToLower pod.Name) "worker"

def isWorkerRelatedEvent (event : Event) : Bool :=
  strContains (strToLower event.InvolvedObject.Name) "worker"

namespace WorkerPendingMemoryRule

def ID : String := "worker-pending-memory"

def Match (ctx : DiagnosticContext) : Bool :=
  if ctx.Graph.Pods.any (fun entry =>
      isWorkerPod entry.2 && entry.2.Status == "Pending"
        && entry.2.Conditions.any (fun cond =>
            cond.Typ == "PodScheduled" && cond.Status == "False"
              && (strContains (strToLower cond.Message) "memory"
                  || strContains (strToLower cond.Message) "insufficient"))) then true
  else if ctx.Events.any (fun event =>
      event.Typ == "Warning" && event.Reason == "FailedScheduling"
        && (isWorkerRelatedEvent event
            && strContains (strToLower event.Message) "memory")) then true
  else false

/-- Body of the inner loop over `pod.Conditions`. -/
def condStep (name : String) (pod : PodInfo) (acc : Acc) (cond : Condition) : Acc :=
  if cond.Typ == "PodScheduled" && cond.Status == "False" then
    if strContains (strToLower cond.Message) "memory"
        || strContains (strToLower cond.Message) "insufficient" then
      let line := "Pod " ++ pod.Namespace ++ "/" ++ name ++ ": " ++ cond.Message
      { evidence := acc.evidence.append line, confidence := ConfidenceEventAndStatus }
    else acc
  else acc

/-- Body of the loop over `ctx.Graph.Pods`. -/
def podStep (acc : Acc) (entry : String × PodInfo) : Acc :=
  if !isWorkerPod entry.2 then acc
  else if entry.2.Status == "Pending" then
    entry.2.Conditions.foldl (condStep entry.1 entry.2) acc
  else acc

/-- Body of the loop over `ctx.Events`. -/
def eventStep (acc : Acc) (event : Event) : Acc :=
  if event.Typ == "Warning" && event.Reason == "FailedScheduling" then
    if isWorkerRelatedEvent event && strContains (strToLower event.Message) "memory" then
      let line := "Event: " ++ event.Reason ++ " - " ++ event.Message
      { evidence := acc.evidence.append line, confidence := ConfidenceEventAndStatus }
    else acc
  else acc

/-- The two local variables after both loops. -/
def scan (ctx : DiagnosticContext) : Acc :=
  ctx.Events.foldl eventStep (ctx.Graph.Pods.foldl podStep Acc.init)

def Hypothesis (ctx : DiagnosticContext) : FluidDiagnoser.Hypothesis :=
  { Rank := 0,
    Confidence := (scan ctx).confidence,
    Component := "Worker",
    Issue := "Worker pod cannot be scheduled due to insufficient memory",
    Evidence := (scan ctx).evidence,
    Suggestion := "Reduce worker memory requests, add nodes with more memory, or scale down other workloads to free resources." }

end WorkerPendingMemoryRule

/-! ## pkg/rules/runtime.go -/

namespace RuntimePartiallyReadyRule

def ID : String := "runtime-partially-ready"

def Match (ctx : DiagnosticContext) : Bool :=
  ctx.Graph.Runtimes.any (fun entry =>
    if decide (entry.2.MasterReplicas > 0)
        && decide (entry.2.MasterReady < entry.2.MasterReplicas) then true
    else if decide (entry.2.WorkerReplicas > 0)
        && decide (entry.2.WorkerReady < entry.2.WorkerReplicas) then true
    else entry.2.Conditions.any (fun cond => cond.Status == "False" && cond.Typ == "Ready"))

/-- Body of the inner loop over `runtime.Conditions`. -/
def condStep (name : String) (runtime : RuntimeInfo) (acc : Acc) (cond : Condition) : Acc :=
  if cond.Status == "False" then
    let line := "Runtime " ++ runtime.Namespace ++ "/" ++ name ++ ": Condition " ++ cond.Typ
      ++ "=" ++ cond.Status ++ ", reason=" ++ cond.Reason
    let acc1 : Acc := { acc with evidence := acc.evidence.append line }
    if cond.Reason ≠ "" then { acc1 with confidence := ConfidenceEventAndStatus } else acc1
  else acc

/-- The `Master` replica check at the head of the loop body. -/
def masterStep (name : String) (runtime : RuntimeInfo) (acc : Acc) : Acc :=
  if decide (runtime.MasterReplicas > 0)
      && decide (runtime.MasterReady < runtime.MasterReplicas) then
    let line := "Runtime " ++ runtime.Namespace ++ "/" ++ name ++ ": Master "
      ++ fmtInt runtime.MasterReady ++ "/" ++ fmtInt runtime.MasterReplicas ++ " ready"
    { evidence := acc.evidence.append line, confidence := ConfidencePodStatusOnly }
  else acc

/-- The `Worker` replica check that follows it. -/
def workerStep (name : String) (runtime : RuntimeInfo) (acc : Acc) : Acc :=
  if decide (runtime.WorkerReplicas > 0)
      && decide (runtime.WorkerReady < runtime.WorkerReplicas) then
    let line := "Runtime " ++ runtime.Namespace ++ "/" ++ name ++ ": Worker "
      ++ fmtInt runtime.WorkerReady ++ "/" ++ fmtInt runtime.WorkerReplicas ++ " ready"
    { evidence := acc.evidence.append line, confidence := ConfidencePodStatusOnly }
  else acc

/-- Body of the loop over `ctx.Graph.Runtimes`. -/
def runtimeStep (acc : Acc) (entry : String × RuntimeInfo) : Acc :=
  entry.2.Conditions.foldl (condStep entry.1 entry.2)
    (workerStep entry.1 entry.2 (masterStep entry.1 entry.2 acc))

/-- The two local variables after the loop. -/
def scan (ctx : DiagnosticContext) : Acc :=
  ctx.Graph.Runtimes.foldl runtimeStep Acc.init

def Hypothesis (ctx : DiagnosticContext) : FluidDiagnoser.Hypothesis :=
  { Rank := 0,
    Confidence := (scan ctx).confidence,
    Component := "Runtime",
    Issue := "Runtime is only partially ready, indicating dependency or configuration failure",
    Evidence := (scan ctx).evidence,
    Suggestion := "Check runtime pod logs for errors. Verify storage backend connectivity and credentials. Ensure all required dependencies are available." }

end RuntimePartiallyReadyRule

/-! ## pkg/rules/storage.go -/

namespace PVCUnboundRule

def ID : String := "pvc-unbound"

def Match (ctx : DiagnosticContext) : Bool :=
  if ctx.Graph.PVCs.any (fun entry =>
      entry.2.Status == "Pending" || entry.2.Status == "Lost") then true
  else if ctx.Events.any (fun event =>
      event.Typ == "Warning" && event.InvolvedObject.Kind == "PersistentVolumeClaim"
        && (strContains event.Reason "ProvisioningFailed"
            || strContains event.Reason "FailedBinding")) then true
  else false

/-- The `Pending` check at the head of the loop body. -/
def pendingStep (name : String) (pvc : PVCInfo) (acc : Acc) : Acc :=
  if pvc.Status == "Pending" then
    let line := "PVC " ++ pvc.Namespace ++ "/" ++ name ++ ": Status=Pending"
    { evidence := acc.evidence.append line, confidence := ConfidencePodStatusOnly }
  else acc

/-- The `Lost` check that follows it. -/
def lostStep (name : String) (pvc : PVCInfo) (acc : Acc) : Acc :=
  if pvc.Status == "Lost" then
    let line := "PVC " ++ pvc.Namespace ++ "/" ++ name ++ ": Status=Lost"
    { evidence := acc.evidence.append line, confidence := ConfidenceEventAndStatus }
  else acc

/-- Body of the loop over `ctx.Graph.PVCs`. -/
def pvcStep (acc : Acc) (entry : String × PVCInfo) : Acc :=
  lostStep entry.1 entry.2 (pendingStep entry.1 entry.2 acc)

/-- Body of the loop over `ctx.Events`. -/
def eventStep (acc : Acc) (event : Event) : Acc :=
  if event.Typ == "Warning" && event.InvolvedObject.Kind == "PersistentVolumeClaim" then
    if strContains event.Reason "ProvisioningFailed"
        || strContains event.Reason "FailedBinding" then
      let line := "Event on PVC " ++ event.InvolvedObject.Name ++ ": " ++ event.Reason
        ++ " - " ++ event.Message
      { evidence := acc.evidence.append line, confidence := ConfidenceEventAndStatus }
    else acc
  else acc

/-- The two local variables after both loops. -/
def scan (ctx : DiagnosticContext) : Acc :=
  ctx.Events.foldl eventStep (ctx.Graph.PVCs.foldl pvcStep Acc.init)

def Hypothesis (ctx : DiagnosticContext) : FluidDiagnoser.Hypothesis :=
  { Rank := 0,
    Confidence := (scan ctx).confidence,
    Component := "Storage",
    Issue := "PVC is not bound due to storage provisioning failure",
    Evidence := (scan ctx).evidence,
    Suggestion := "Check storage class configuration and provisioner status. Verify storage backend has available capacity." }

end PVCUnboundRule

namespace DatasetNotBoundRule

def ID : String := "dataset-not-bound"

def Match (ctx : DiagnosticContext) : Bool :=
  ctx.Graph.Datasets.any (fun entry =>
    if entry.2.Status == "NotBound" || entry.2.Status == "" then true
    else entry.2.Conditions.any (fun cond => cond.Typ == "Ready" && cond.Status == "False"))

/-- The status check at the head of the loop body. -/
def statusStep (name : String) (dataset : DatasetInfo) (acc : Acc) : Acc :=
  if dataset.Status == "NotBound" || dataset.Status == "" then
    let statusStr := if dataset.Status == "" then "<empty>" else dataset.Status
    let line := "Dataset " ++ dataset.Namespace ++ "/" ++ name ++ ": Status=" ++ statusStr
    { evidence := acc.evidence.append line, confidence := ConfidencePodStatusOnly }
  else acc

/-- Body of the inner loop over `dataset.Conditions`. -/
def condStep (name : String) (dataset : DatasetInfo) (acc : Acc) (cond : Condition) : Acc :=
  if cond.Typ == "Ready" && cond.Status == "False" then
    let line := "Dataset " ++ dataset.Namespace ++ "/" ++ name ++ ": Condition Ready="
      ++ cond.Status ++ ", reason=" ++ cond.Reason
    let acc1 : Acc := { acc with evidence := acc.evidence.append line }
    if cond.Reason ≠ "" then { acc1 with confidence := ConfidenceEventAndStatus } else acc1
  else acc

/-- Body of the loop over `ctx.Graph.Datasets`. -/
def datasetStep (acc : Acc) (entry : String × DatasetInfo) : Acc :=
  entry.2.Conditions.foldl (condStep entry.1 entry.2) (statusStep entry.1 entry.2 acc)

/-- The two local variables after the loop. -/
def scan (ctx : DiagnosticContext) : Acc :=
  ctx.Graph.Datasets.foldl datasetStep Acc.init

def Hypothesis (ctx : DiagnosticContext) : FluidDiagnoser.Hypothesis :=
  { Rank := 0,
    Confidence := (scan ctx).confidence,
    Component := "Dataset",
    Issue := "Dataset is not bound, likely due to missing or failed Runtime",
    Evidence := (scan ctx).evidence,
    Suggestion := "Ensure a Runtime (e.g., AlluxioRuntime, JuiceFSRuntime) is created for this Dataset. Check Runtime status for failures." }

end DatasetNotBoundRule

/-! ## pkg/engine -/

/-- The `Rule` interface of `pkg/engine/rules.go`. -/
structure Rule where
  ID : String
  Match : DiagnosticContext → Bool
  Hypothesis : DiagnosticContext → FluidDiagnoser.Hypothesis

/-- The registry built at the top of `Analyze`. -/
def allRules : List Rule :=
  [ ⟨FuseUnschedulableRule.ID, FuseUnschedulableRule.Match, FuseUnschedulableRule.Hypothesis⟩,
    ⟨WorkerPendingMemoryRule.ID, WorkerPendingMemoryRule.Match, WorkerPendingMemoryRule.Hypothesis⟩,
    ⟨RuntimePartiallyReadyRule.ID, RuntimePartiallyReadyRule.Match,
      RuntimePartiallyReadyRule.Hypothesis⟩,
    ⟨PVCUnboundRule.ID, PVCUnboundRule.Match, PVCUnboundRule.Hypothesis⟩,
    ⟨DatasetNotBoundRule.ID, DatasetNotBoundRule.Match, DatasetNotBoundRule.Hypothesis⟩ ]

/-- Body of the loop over `allRules`. -/
def applyRule (ctx : DiagnosticContext) (hypotheses : Slice FluidDiagnoser.Hypothesis)
    (rule : Rule) : Slice FluidDiagnoser.Hypothesis :=
  if rule.Match ctx then hypotheses.append (rule.Hypothesis ctx) else hypotheses

/-- The `less` closure handed to `sort.SliceStable`. -/
def less (a b : FluidDiagnoser.Hypothesis) : Bool :=
  if a.Confidence ≠ b.Confidence then decide (a.Confidence > b.Confidence)
  else if a.Component ≠ b.Component then decide (a.Component < b.Component)
  else decide (a.Issue < b.Issue)

/-- Inner loop of the insertion sort of Go's `sort` package: the new element
`x` moves left past every element it is `less` than.  The sorted prefix is
passed reversed, its last element first. -/
def bubbleLeft {α : Type} (lt : α → α → Bool) (x : α) : List α → List α
  | [] => [x]
  | y :: ys => if lt x y then y :: bubbleLeft lt x ys else x :: y :: ys

/-- Go's `sort.SliceStable` on a slice shorter than its block size of 20, where
it is a plain insertion sort. -/
def sliceStable {α : Type} (lt : α → α → Bool) (data : List α) : List α :=
  (data.foldl (fun sortedRev x => bubbleLeft lt x sortedRev) []).reverse

/-- The loop that sets `hypotheses[i].Rank = i + 1` for every index, started
at index `i`. -/
def assignRanksFrom (i : Nat) : List FluidDiagnoser.Hypothesis → List FluidDiagnoser.Hypothesis
  | [] => []
  | h :: rest => { h with Rank := (i : Int) + 1 } :: assignRanksFrom (i + 1) rest

/-- The hypotheses collected by the loop over the registry. -/
def collect (ctx : DiagnosticContext) : Slice FluidDiagnoser.Hypothesis :=
  allRules.foldl (applyRule ctx) Slice.nil

/-- The function `Analyze`; `now` is the value of `time.Now().UTC()`, and the
second component is the returned `error` (`none` for nil). -/
def Analyze (now : Nat) (ctx : DiagnosticContext) : DiagnosisResult × Option String :=
  let hypotheses := collect ctx
  let hypotheses := hypotheses.update (sliceStable less)
  let hypotheses := hypotheses.update (assignRanksFrom 0)
  ({ Hypotheses := hypotheses, GeneratedAt := now, Engine := "rule-based" }, none)

/-- The zero value of `types.DiagnosticContext`. -/
def emptyContext : DiagnosticContext :=
  { Summary := ⟨"", ""⟩, Graph := ⟨[], [], [], [], []⟩, Findings := [], Events := [],
    Logs := [], Metadata := ⟨"", ""⟩ }

/-! ## pkg/engine: index expressions and run-time panics -/

/-- A run-time panic of the Go code.  Of the operations the embedded code
performs only an index expression can raise one: a `range` over a nil map or
slice runs no iteration, a comma-ok lookup in a nil map reports absence,
`append` to a nil slice allocates, and the calls into `strings` and `fmt` are
total.  The rules perform no index expression; `Analyze` does, in the `less`
closure, in the swaps of the sort and in the rank loop. -/
inductive Panic where
  | indexOutOfRange (index length : Nat)
deriving DecidableEq, Repr

/-- The index expression `s[i]`. -/
def indexAt {α : Type} (s : List α) (i : Nat) : Except Panic α :=
  match s[i]? with
  | some x => Except.ok x
  | none => Except.error (Panic.indexOutOfRange i s.length)

/-- The `less` closure as `sort.SliceStable` calls it, on two indices of the
slice `hypotheses`. -/
def lessAt (hypotheses : List Hypothesis) (i j : Nat) : Except Panic Bool :=
  match indexAt hypotheses i with
  | Except.error p => Except.error p
  | Except.ok a =>
    match indexAt hypotheses j with
    | Except.error p => Except.error p
    | Except.ok b => Except.ok (less a b)

/-- The swap function `sort.SliceStable` builds for the slice:
`s[i], s[j] = s[j], s[i]`. -/
def swapAt (hypotheses : List Hypothesis) (i j : Nat) : Except Panic (List Hypothesis) :=
  match indexAt hypotheses i with
  | Except.error p => Except.error p
  | Except.ok a =>
    match indexAt hypotheses j with
    | Except.error p => Except.error p
    | Except.ok b => Except.ok ((hypotheses.set i b).set j a)

/-- Inner loop of `insertionSort(data, 0, n)`, started at `j`:
`for ; j > 0 && data.Less(j, j-1); j-- { data.Swap(j, j-1) }`. -/
def insertAt (hypotheses : List Hypothesis) : Nat → Except Panic (List Hypothesis)
  | 0 => Except.ok hypotheses
  | j + 1 =>
    match lessAt hypotheses (j + 1) j with
    | Except.error p => Except.error p
    | Except.ok false => Except.ok hypotheses
    | Except.ok true =>
      match swapAt hypotheses (j + 1) j with
      | Except.error p => Except.error p
      | Except.ok swapped => insertAt swapped j

/-- Outer loop of `insertionSort(data, 0, n)`, `for i := 1; i < n; i++`, at
index `i` with `remaining = n - i` iterations to go. -/
def insertionSortFrom (hypotheses : List Hypothesis) (i : Nat) :
    Nat → Except Panic (List Hypothesis)
  | 0 => Except.ok hypotheses
  | remaining + 1 =>
    match insertAt hypotheses i with
    | Except.error p => Except.error p
    | Except.ok next => insertionSortFrom next (i + 1) remaining

/-- Go's `sort.SliceStable(hypotheses, less)` on a slice shorter than its block
size of 20: the single call `insertionSort(data, 0, n)`. -/
def sliceStableChecked (hypotheses : List Hypothesis) : Except Panic (List Hypothesis) :=
  insertionSortFrom hypotheses 1 (hypotheses.length - 1)

/-- The statement `hypotheses[i].Rank = i + 1`. -/
def setRankAt (hypotheses : List Hypothesis) (i : Nat) : Except Panic (List Hypothesis) :=
  match indexAt hypotheses i with
  | Except.error p => Except.error p
  | Except.ok h => Except.ok (hypotheses.set i { h with Rank := (i : Int) + 1 })

/-- The loop `for i := range hypotheses { hypotheses[i].Rank = i + 1 }`, at
index `i` with `remaining = len(hypotheses) - i` iterations to go. -/
def assignRanksChecked (hypotheses : List Hypothesis) (i : Nat) :
    Nat → Except Panic (List Hypothesis)
  | 0 => Except.ok hypotheses
  | remaining + 1 =>
    match setRankAt hypotheses i with
    | Except.error p => Except.error p
    | Except.ok next => assignRanksChecked next (i + 1) remaining

/-- Apply an in-place update that may panic to the elements of a slice; a nil
slice has no element and stays nil. -/
def Slice.updateChecked {α : Type} (f : List α → Except Panic (List α)) :
    Slice α → Except Panic (Slice α)
  | Slice.nil => Except.ok Slice.nil
  | Slice.mk l =>
    match f l with
    | Except.error p => Except.error p
    | Except.ok updated => Except.ok (Slice.mk updated)

/-- The function `Analyze` with every index expression checked: the value is
`Except.error` when the run panics and `Except.ok` of the returned pair when
it returns. -/
def AnalyzeChecked (now : Nat) (ctx : DiagnosticContext) :
    Except Panic (DiagnosisResult × Option String) :=
  match (collect ctx).updateChecked sliceStableChecked with
  | Except.error p => Except.error p
  | Except.ok sorted =>
    match sorted.updateChecked (fun l => assignRanksChecked l 0 l.length) with
    | Except.error p => Except.error p
    | Except.ok ranked =>
      Except.ok ({ Hypotheses := ranked, GeneratedAt := now, Engine := "rule-based" }, none)

/-! ## Specification vocabulary -/

/-- The key the comparator `less` orders by: confidence descending, then
component, then issue. -/
def sortKey (h : Hypothesis) : ℚᵒᵈ ×ₗ (String ×ₗ String) :=
  toLex (OrderDual.toDual h.Confidence, toLex (h.Component, h.Issue))

/-- A hypothesis with its rank field cleared. -/
def withoutRank (h : Hypothesis) : Hypothesis := { h with Rank := 0 }

/-- The loop over the registry, for a registry `rules`. -/
def collectWith (rules : List Rule) (ctx : DiagnosticContext) : Slice Hypothesis :=
  rules.foldl (applyRule ctx) Slice.nil

/-- The body of `Analyze` with the registry taken as a parameter: `Analyze` is
`AnalyzeWith allRules`. -/
def AnalyzeWith (rules : List Rule) (now : Nat) (ctx : DiagnosticContext) :
    DiagnosisResult × Option String :=
  let hypotheses := collectWith rules ctx
  let hypotheses := hypotheses.update (sliceStable less)
  let hypotheses := hypotheses.update (assignRanksFrom 0)
  ({ Hypotheses := hypotheses, GeneratedAt := now, Engine := "rule-based" }, none)

/-- A snapshot with its dataset map replaced. -/
def withDatasets (ctx : DiagnosticContext) (datasets : List (String × DatasetInfo)) :
    DiagnosticContext :=
  { ctx with Graph := { ctx.Graph with Datasets := datasets } }

/-- The test `FuseUnschedulableRule` applies to an event, in `Match` and in
`Hypothesis`. -/
def FuseUnschedulableRule.eventMatches (event : Event) : Bool :=
  event.Typ == "Warning" && strContains event.Reason "FailedScheduling"
    && isFuseRelatedEvent event

/-- Every `PodScheduled=False` condition of a `Pending` fuse pod has an empty
`Reason`. -/
def FuseUnschedulableRule.reasonsEmpty (ctx : DiagnosticContext) : Bool :=
  ctx.Graph.Pods.all (fun entry =>
    !(isFusePod entry.2 && entry.2.Status == "Pending")
      || entry.2.Conditions.all (fun cond =>
          !(cond.Typ == "PodScheduled" && cond.Status == "False") || cond.Reason == ""))

/-- The test `WorkerPendingMemoryRule` applies to an event, in `Match` and in
`Hypothesis`. -/
def WorkerPendingMemoryRule.eventMatches (event : Event) : Bool :=
  event.Typ == "Warning" && event.Reason == "FailedScheduling"
    && (isWorkerRelatedEvent event && strContains (strToLower event.Message) "memory")

/-- No `PodScheduled=False` condition of a `Pending` worker pod has a message
that mentions `memory` or `insufficient`. -/
def WorkerPendingMemoryRule.noMemoryCondition (ctx : DiagnosticContext) : Bool :=
  ctx.Graph.Pods.all (fun entry =>
    !(isWorkerPod entry.2 && entry.2.Status == "Pending")
      || entry.2.Conditions.all (fun cond =>
          !(cond.Typ == "PodScheduled" && cond.Status == "False")
            || !(strContains (strToLower cond.Message) "memory"
                || strContains (strToLower cond.Message) "insufficient")))

/-- No runtime has a replica shortfall as the rule tests it: neither
`MasterReplicas > 0` with `MasterReady < MasterReplicas` nor the same for the
workers.  It holds when all replicas are ready. -/
def RuntimePartiallyReadyRule.replicasReady (ctx : DiagnosticContext) : Bool :=
  ctx.Graph.Runtimes.all (fun entry =>
    !(decide (entry.2.MasterReplicas > 0)
        && decide (entry.2.MasterReady < entry.2.MasterReplicas))
      && !(decide (entry.2.WorkerReplicas > 0)
        && decide (entry.2.WorkerReady < entry.2.WorkerReplicas)))

/-- Every runtime condition with status `False` has an empty `Reason`. -/
def RuntimePartiallyReadyRule.reasonsEmpty (ctx : DiagnosticContext) : Bool :=
  ctx.Graph.Runtimes.all (fun entry =>
    entry.2.Conditions.all (fun cond => !(cond.Status == "False") || cond.Reason == ""))

/-- Every runtime condition with status `False` has type `Ready`. -/
def RuntimePartiallyReadyRule.falseOnlyReady (ctx : DiagnosticContext) : Bool :=
  ctx.Graph.Runtimes.all (fun entry =>
    entry.2.Conditions.all (fun cond => !(cond.Status == "False") || cond.Typ == "Ready"))

/-- The test `PVCUnboundRule` applies to a storage claim in `Match`. -/
def PVCUnboundRule.claimMatches (entry : String × PVCInfo) : Bool :=
  entry.2.Status == "Pending" || entry.2.Status == "Lost"

/-- The evidence lines the body of the loop over `ctx.Graph.PVCs` appends for
one entry. -/
def PVCUnboundRule.claimLines (entry : String × PVCInfo) : List String :=
  (if entry.2.Status == "Pending" then
      ["PVC " ++ entry.2.Namespace ++ "/" ++ entry.1 ++ ": Status=Pending"]
    else [])
  ++ (if entry.2.Status == "Lost" then
      ["PVC " ++ entry.2.Namespace ++ "/" ++ entry.1 ++ ": Status=Lost"]
    else [])

/-- The test `PVCUnboundRule` applies to an event, in `Match` and in
`Hypothesis`: a `Warning` on a `PersistentVolumeClaim` whose reason contains
`ProvisioningFailed` or `FailedBinding`. -/
def PVCUnboundRule.eventMatches (event : Event) : Bool :=
  event.Typ == "Warning" && event.InvolvedObject.Kind == "PersistentVolumeClaim"
    && (strContains event.Reason "ProvisioningFailed"
        || strContains event.Reason "FailedBinding")

/-- The evidence line `PVCUnboundRule.Hypothesis` appends for a matching event. -/
def PVCUnboundRule.eventLine (event : Event) : String :=
  "Event on PVC " ++ event.InvolvedObject.Name ++ ": " ++ event.Reason
    ++ " - " ++ event.Message

/-- No storage claim has status `Lost`. -/
def PVCUnboundRule.noneLost (ctx : DiagnosticContext) : Bool :=
  ctx.Graph.PVCs.all (fun entry => !(entry.2.Status == "Lost"))

/-- No dataset has status `NotBound` or the empty status. -/
def DatasetNotBoundRule.noneUnbound (ctx : DiagnosticContext) : Bool :=
  ctx.Graph.Datasets.all (fun entry =>
    !(entry.2.Status == "NotBound" || entry.2.Status == ""))

/-- Every `Ready=False` dataset condition has an empty `Reason`. -/
def DatasetNotBoundRule.reasonsEmpty (ctx : DiagnosticContext) : Bool :=
  ctx.Graph.Datasets.all (fun entry =>
    entry.2.Conditions.all (fun cond =>
      !(cond.Typ == "Ready" && cond.Status == "False") || cond.Reason == ""))

/-- No resource carries a signal to which a rule assigns the top tier without
any event: a named fuse, runtime or dataset condition, a memory-related worker
condition, or a `Lost` storage claim. -/
def namedSignalFree (ctx : DiagnosticContext) : Bool :=
  FuseUnschedulableRule.reasonsEmpty ctx && WorkerPendingMemoryRule.noMemoryCondition ctx
    && RuntimePartiallyReadyRule.reasonsEmpty ctx && PVCUnboundRule.noneLost ctx
    && DatasetNotBoundRule.reasonsEmpty ctx

/-- The test the fuse rule applies to a pod, in `Match` and in `Hypothesis`: a
fuse pod of status `Pending`. -/
def FuseUnschedulableRule.podMatches (entry : String × PodInfo) : Bool :=
  isFusePod entry.2 && entry.2.Status == "Pending"

/-- The test the fuse rule applies to a condition of such a pod, in `Match` and
in `Hypothesis`. -/
def FuseUnschedulableRule.condMatches (cond : Condition) : Bool :=
  cond.Typ == "PodScheduled" && cond.Status == "False"

/-- The evidence line the fuse rule writes for a condition. -/
def FuseUnschedulableRule.condLine (name : String) (pod : PodInfo) (cond : Condition) :
    String :=
  "Pod " ++ pod.Namespace ++ "/" ++ name ++ ": PodScheduled=False, reason=" ++ cond.Reason

/-- One line for each condition of the pod that passes `condMatches`, when the
pod passes `podMatches`. -/
def FuseUnschedulableRule.podLines (entry : String × PodInfo) : List String :=
  if podMatches entry then
    (entry.2.Conditions.filter condMatches).map (condLine entry.1 entry.2)
  else []

/-- The evidence line the fuse rule writes for an event. -/
def FuseUnschedulableRule.eventLine (event : Event) : String :=
  "Event: " ++ event.Reason ++ " - " ++ event.Message

/-- The test the worker rule applies to a pod, in `Match` and in `Hypothesis`:
a worker pod of status `Pending`. -/
def WorkerPendingMemoryRule.podMatches (entry : String × PodInfo) : Bool :=
  isWorkerPod entry.2 && entry.2.Status == "Pending"

/-- The test the worker rule applies to a condition of such a pod, in `Match`
and in `Hypothesis`. -/
def WorkerPendingMemoryRule.condMatches (cond : Condition) : Bool :=
  cond.Typ == "PodScheduled" && cond.Status == "False"
    && (strContains (strToLower cond.Message) "memory"
        || strContains (strToLower cond.Message) "insufficient")

/-- The evidence line the worker rule writes for a condition. -/
def WorkerPendingMemoryRule.condLine (name : String) (pod : PodInfo) (cond : Condition) :
    String :=
  "Pod " ++ pod.Namespace ++ "/" ++ name ++ ": " ++ cond.Message

/-- One line for each condition of the pod that passes `condMatches`, when the
pod passes `podMatches`. -/
def WorkerPendingMemoryRule.podLines (entry : String × PodInfo) : List String :=
  if podMatches entry then
    (entry.2.Conditions.filter condMatches).map (condLine entry.1 entry.2)
  else []

/-- The evidence line the worker rule writes for an event. -/
def WorkerPendingMemoryRule.eventLine (event : Event) : String :=
  "Event: " ++ event.Reason ++ " - " ++ event.Message

/-- The master replica test of the runtime rule, in `Match` and in
`Hypothesis`. -/
def RuntimePartiallyReadyRule.masterShort (entry : String × RuntimeInfo) : Bool :=
  decide (entry.2.MasterReplicas > 0) && decide (entry.2.MasterReady < entry.2.MasterReplicas)

/-- The worker replica test of the runtime rule, in `Match` and in
`Hypothesis`. -/
def RuntimePartiallyReadyRule.workerShort (entry : String × RuntimeInfo) : Bool :=
  decide (entry.2.WorkerReplicas > 0) && decide (entry.2.WorkerReady < entry.2.WorkerReplicas)

/-- The test `Match` of the runtime rule applies to a condition. -/
def RuntimePartiallyReadyRule.condAccepted (cond : Condition) : Bool :=
  cond.Status == "False" && cond.Typ == "Ready"

/-- The test `Hypothesis` of the runtime rule applies to a condition: the type
is not looked at. -/
def RuntimePartiallyReadyRule.condListed (cond : Condition) : Bool :=
  cond.Status == "False"

/-- The evidence line the runtime rule writes for a master shortfall. -/
def RuntimePartiallyReadyRule.masterLine (entry : String × RuntimeInfo) : String :=
  "Runtime " ++ entry.2.Namespace ++ "/" ++ entry.1 ++ ": Master "
    ++ fmtInt entry.2.MasterReady ++ "/" ++ fmtInt entry.2.MasterReplicas ++ " ready"

/-- The evidence line the runtime rule writes for a worker shortfall. -/
def RuntimePartiallyReadyRule.workerLine (entry : String × RuntimeInfo) : String :=
  "Runtime " ++ entry.2.Namespace ++ "/" ++ entry.1 ++ ": Worker "
    ++ fmtInt entry.2.WorkerReady ++ "/" ++ fmtInt entry.2.WorkerReplicas ++ " ready"

/-- The evidence line the runtime rule writes for a condition. -/
def RuntimePartiallyReadyRule.condLine (name : String) (runtime : RuntimeInfo)
    (cond : Condition) : String :=
  "Runtime " ++ runtime.Namespace ++ "/" ++ name ++ ": Condition " ++ cond.Typ
    ++ "=" ++ cond.Status ++ ", reason=" ++ cond.Reason

/-- The lines of one runtime: the master line and the worker line when the
shortfall tests pass, then one line for each condition that passes
`condListed`. -/
def RuntimePartiallyReadyRule.runtimeLines (entry : String × RuntimeInfo) : List String :=
  (if masterShort entry then [masterLine entry] else [])
    ++ (if workerShort entry then [workerLine entry] else [])
    ++ (entry.2.Conditions.filter condListed).map (condLine entry.1 entry.2)

/-- The evidence line the claim rule writes for a storage claim that passes
`claimMatches`. -/
def PVCUnboundRule.claimLine (entry : String × PVCInfo) : String :=
  "PVC " ++ entry.2.Namespace ++ "/" ++ entry.1 ++ ": Status=" ++ entry.2.Status

/-- The status test of the dataset rule, in `Match` and in `Hypothesis`. -/
def DatasetNotBoundRule.statusMatches (entry : String × DatasetInfo) : Bool :=
  entry.2.Status == "NotBound" || entry.2.Status == ""

/-- The test the dataset rule applies to a condition, in `Match` and in
`Hypothesis`. -/
def DatasetNotBoundRule.condMatches (cond : Condition) : Bool :=
  cond.Typ == "Ready" && cond.Status == "False"

/-- The evidence line the dataset rule writes for a status. -/
def DatasetNotBoundRule.statusLine (entry : String × DatasetInfo) : String :=
  "Dataset " ++ entry.2.Namespace ++ "/" ++ entry.1 ++ ": Status="
    ++ (if entry.2.Status == "" then "<empty>" else entry.2.Status)

/-- The evidence line the dataset rule writes for a condition. -/
def DatasetNotBoundRule.condLine (name : String) (dataset : DatasetInfo) (cond : Condition) :
    String :=
  "Dataset " ++ dataset.Namespace ++ "/" ++ name ++ ": Condition Ready="
    ++ cond.Status ++ ", reason=" ++ cond.Reason

/-- The lines of one dataset: the status line when the status test passes,
then one line for each condition that passes `condMatches`. -/
def DatasetNotBoundRule.datasetLines (entry : String × DatasetInfo) : List String :=
  (if statusMatches entry then [statusLine entry] else [])
    ++ (entry.2.Conditions.filter condMatches).map (condLine entry.1 entry.2)

/-- A pod map entry with the pod's embedded `Events` field cleared. -/
def withoutPodEvents (entry : String × PodInfo) : String × PodInfo :=
  (entry.1, { entry.2 with Events := [] })

/-- The (component, issue, rank) triples of a result, in order. -/
def triples (r : DiagnosisResult) : List (String × String × Int) :=
  r.Hypotheses.toList.map (fun h => (h.Component, h.Issue, h.Rank))

/-! ## Concrete snapshots -/

/-- The snapshot of `TestAnalyze_PVCUnbound`: one storage claim, `Pending`. -/
def pendingClaim : DiagnosticContext :=
  { emptyContext with
    Graph := { emptyContext.Graph with
      PVCs := [("mydata", ⟨"mydata", "default", "Pending", "", []⟩)] } }

/-- Two storage claims and one unbound dataset; the claim map is traversed
`Lost` claim first. -/
def lostFirst : DiagnosticContext :=
  { emptyContext with
    Graph := { emptyContext.Graph with
      PVCs := [("a", ⟨"a", "ns", "Lost", "", []⟩), ("b", ⟨"b", "ns", "Pending", "", []⟩)],
      Datasets := [("d", ⟨"d", "ns", "NotBound", []⟩)] } }

/-- The snapshot `lostFirst` with its claim map traversed in the other order. -/
def pendingFirst : DiagnosticContext :=
  { lostFirst with
    Graph := { lostFirst.Graph with PVCs := lostFirst.Graph.PVCs.reverse } }

/-- Two runtimes: `r1` is fully ready and has a `Ready=False` condition with a
reason, `r2` has no conditions and a worker shortfall; `r1` is traversed first. -/
def conditionRuntimeFirst : DiagnosticContext :=
  { emptyContext with
    Graph := { emptyContext.Graph with
      Runtimes :=
        [("r1", ⟨"r1", "ns", "Alluxio", 1, 1, 1, 1, "", [⟨"Ready", "False", "MasterNotReady", ""⟩],
            "", 0, 0⟩),
         ("r2", ⟨"r2", "ns", "Alluxio", 1, 2, 1, 0, "", [], "", 0, 0⟩)] } }

/-- The snapshot `conditionRuntimeFirst` with its runtime map traversed in the
other order. -/
def shortfallRuntimeFirst : DiagnosticContext :=
  { conditionRuntimeFirst with
    Graph := { conditionRuntimeFirst.Graph with
      Runtimes := conditionRuntimeFirst.Graph.Runtimes.reverse } }

/-- Two datasets: `d1` is `Bound` and has a `Ready=False` condition with a
reason, `d2` is `NotBound` without conditions; `d1` is traversed first. -/
def conditionDatasetFirst : DiagnosticContext :=
  { emptyContext with
    Graph := { emptyContext.Graph with
      Datasets :=
        [("d1", ⟨"d1", "ns", "Bound", [⟨"Ready", "False", "RuntimeMissing", ""⟩]⟩),
         ("d2", ⟨"d2", "ns", "NotBound", []⟩)] } }

/-- The snapshot `conditionDatasetFirst` with its dataset map traversed in the
other order. -/
def statusDatasetFirst : DiagnosticContext :=
  { conditionDatasetFirst with
    Graph := { conditionDatasetFirst.Graph with
      Datasets := conditionDatasetFirst.Graph.Datasets.reverse } }

/-- The snapshot of `TestAnalyze_FuseUnschedulable`: a `Pending` pod labelled
`role=fuse` with a `PodScheduled=False` condition of reason `Unschedulable`, and
no events. -/
def fuseScheduling : DiagnosticContext :=
  { emptyContext with
    Graph := { emptyContext.Graph with
      Pods := [("mydata-fuse-abc123",
        ⟨"mydata-fuse-abc123", "default", "Pending",
          [⟨"PodScheduled", "False", "Unschedulable", "node taints"⟩], [], [],
          [("role", "fuse")]⟩)] } }

/-- The snapshot of `TestAnalyze_RuntimePartiallyReady`: one runtime with its
master ready and none of two workers ready. -/
def workerShortfall : DiagnosticContext :=
  { emptyContext with
    Graph := { emptyContext.Graph with
      Runtimes := [("mydata", ⟨"mydata", "default", "", 1, 2, 1, 0, "", [], "", 0, 0⟩)] } }

/-- The snapshot `pendingClaim` with a `ProvisioningFailed` warning on the
claim. -/
def pendingClaimWithEvent : DiagnosticContext :=
  { pendingClaim with
    Events := [⟨"ProvisioningFailed", "no volume plugin matched", "Warning", 1, "",
      ⟨"PersistentVolumeClaim", "default", "mydata"⟩⟩] }

/-- No resources and one scheduling warning on an object named like a fuse pod. -/
def fuseEventOnly : DiagnosticContext :=
  { emptyContext with
    Events := [⟨"FailedScheduling", "0/3 nodes are available", "Warning", 1, "",
      ⟨"Pod", "default", "mydata-fuse-abc123"⟩⟩] }

/-- No resources and one memory-related scheduling warning on an object named
like a worker pod. -/
def workerEventOnly : DiagnosticContext :=
  { emptyContext with
    Events := [⟨"FailedScheduling", "Insufficient memory", "Warning", 1, "",
      ⟨"Pod", "default", "mydata-worker-0"⟩⟩] }

/-- No resources and one provisioning warning on a storage claim. -/
def claimEventOnly : DiagnosticContext :=
  { emptyContext with
    Events := [⟨"ProvisioningFailed", "no volume plugin matched", "Warning", 1, "",
      ⟨"PersistentVolumeClaim", "default", "mydata"⟩⟩] }

/-- A `Pending` fuse pod whose `PodScheduled=False` condition has no reason, a
fully ready runtime and a `Bound` dataset each with a `Ready=False` condition
without reason; no events. -/
def bareConditions : DiagnosticContext :=
  { emptyContext with
    Graph := { emptyContext.Graph with
      Pods := [("mydata-fuse-abc123",
        ⟨"mydata-fuse-abc123", "default", "Pending", [⟨"PodScheduled", "False", "", ""⟩], [], [],
          [("role", "fuse")]⟩)],
      Runtimes := [("mydata",
        ⟨"mydata", "default", "", 1, 2, 1, 2, "", [⟨"Ready", "False", "", ""⟩], "", 0, 0⟩)],
      Datasets := [("mydata", ⟨"mydata", "default", "Bound", [⟨"Ready", "False", "", ""⟩]⟩)] } }

/-- One fully ready runtime with a `False` condition of type `Initialized`. -/
def nonReadyCondition : DiagnosticContext :=
  { emptyContext with
    Graph := { emptyContext.Graph with
      Runtimes := [("mydata",
        ⟨"mydata", "default", "", 1, 2, 1, 2, "", [⟨"Initialized", "False", "", ""⟩],
          "", 0, 0⟩)] } }

/-- The snapshot of `TestAnalyze_WorkerPendingMemory` with the message of the
scheduling condition changed to `Insufficient cpu`; no events. -/
def cpuShortage : DiagnosticContext :=
  { emptyContext with
    Graph := { emptyContext.Graph with
      Pods := [("mydata-worker-0",
        ⟨"mydata-worker-0", "default", "Pending",
          [⟨"PodScheduled", "False", "Unschedulable", "Insufficient cpu"⟩], [], [],
          [("role", "worker")]⟩)] } }

/-- The maps and the event list of `lostFirst`, the claim map traversed in the
other order, with the fields the rules do not read filled in: summary, nodes,
findings, logs and metadata. -/
def pendingFirstDecorated : DiagnosticContext :=
  { Summary := ⟨"v1.28.3", "fluid-system"⟩,
    Graph :=
      { Nodes := [("node-1", ⟨"node-1", [⟨"dedicated", "gpu", "NoSchedule"⟩],
          [("memory", "8Gi")], [("memory", "16Gi")], true⟩)],
        Pods := [],
        PVCs := [("b", ⟨"b", "ns", "Pending", "", []⟩), ("a", ⟨"a", "ns", "Lost", "", []⟩)],
        Datasets := [("d", ⟨"d", "ns", "NotBound", []⟩)],
        Runtimes := [] },
    Findings := [⟨"storage", "claim a lost its volume", "Storage"⟩],
    Events := [],
    Logs := [("csi", "provisioning failed")],
    Metadata := ⟨"2026-01-01T00:00:00Z", "0.1.0"⟩ }

/-- Two datasets: `d2` has the empty status and no conditions, `d1` is `Bound`
and has a `Ready=False` condition with a reason; `d2` is traversed first.
Replacing the status of `d2` by `NotBound` gives `statusDatasetFirst`. -/
def emptyStatusDatasetFirst : DiagnosticContext :=
  { emptyContext with
    Graph := { emptyContext.Graph with
      Datasets :=
        [("d2", ⟨"d2", "ns", "", []⟩),
         ("d1", ⟨"d1", "ns", "Bound", [⟨"Ready", "False", "RuntimeMissing", ""⟩]⟩)] } }

/-- One runtime with none of two workers ready and a `False` condition of type
`Initialized` that carries a reason. -/
def shortfallOtherCondition : DiagnosticContext :=
  { emptyContext with
    Graph := { emptyContext.Graph with
      Runtimes := [("mydata",
        ⟨"mydata", "default", "", 1, 2, 1, 0, "",
          [⟨"Initialized", "False", "MasterNotInitialized", ""⟩], "", 0, 0⟩)] } }

/-- One `Pending` pod named like a fuse and a worker pod that carries no
condition list, no owner references and no labels; no events. -/
def podWithoutConditions : DiagnosticContext :=
  { emptyContext with
    Graph := { emptyContext.Graph with
      Pods := [("mydata-fuse-worker-0",
        ⟨"mydata-fuse-worker-0", "default", "Pending", [], [], [], []⟩)] } }

/-- The confidences a rule can hold in its local variable. -/
def ruleTier (q : ℚ) : Prop :=
  q = ConfidenceEventAndStatus ∨ q = ConfidencePodStatusOnly ∨ q = ConfidenceConditionOnly

instance ruleTierDecidable (q : ℚ) : Decidable (ruleTier q) := by
  unfold ruleTier
  infer_instance

/-! # Theorems -/

/-! ## Slices -/

theorem Slice.toList_append {α : Type} (s : Slice α) (x : α) :
    (s.append x).toList = s.toList ++ [x] := rfl

theorem Slice.len_append {α : Type} (s : Slice α) (x : α) :
    (s.append x).len = s.len + 1 := by
  simp [Slice.len, Slice.toList_append]

theorem Slice.toList_update {α : Type} (f : List α → List α) (hf : f [] = [])
    (s : Slice α) : (s.update f).toList = f s.toList := by
  cases s with
  | nil => simp [Slice.update, Slice.toList, hf]
  | mk l => rfl

/-! ## The comparator -/

theorem less_iff_sortKey_lt (a b : Hypothesis) :
    less a b = true ↔ sortKey a < sortKey b := by
  unfold less sortKey
  rw [Prod.Lex.lt_iff]
  simp only [Prod.Lex.lt_iff, OrderDual.toDual_lt_toDual, OrderDual.toDual_inj]
  by_cases h1 : a.Confidence = b.Confidence
  · by_cases h2 : a.Component = b.Component
    · simp [h1, h2]
    · simp [h1, h2]
  · simp [h1]

theorem sortKey_le_iff (a b : Hypothesis) :
    sortKey a ≤ sortKey b ↔
      b.Confidence < a.Confidence ∨ (a.Confidence = b.Confidence ∧
        (a.Component < b.Component ∨ (a.Component = b.Component ∧ a.Issue ≤ b.Issue))) := by
  unfold sortKey
  rw [Prod.Lex.le_iff]
  simp only [Prod.Lex.le_iff, OrderDual.toDual_lt_toDual, OrderDual.toDual_inj]

/-! ## Insertion sort -/

theorem bubbleLeft_perm {α : Type} (lt : α → α → Bool) (x : α) (l : List α) :
    (bubbleLeft lt x l).Perm (x :: l) := by
  induction l with
  | nil => exact List.Perm.refl _
  | cons y ys ih =>
    unfold bubbleLeft
    split
    · exact ((List.Perm.cons y ih).trans (List.Perm.swap x y ys))
    · exact List.Perm.refl _

theorem sliceStable_perm {α : Type} (lt : α → α → Bool) (data : List α) :
    (sliceStable lt data).Perm data := by
  unfold sliceStable
  have key : ∀ (xs acc : List α),
      (xs.foldl (fun sortedRev x => bubbleLeft lt x sortedRev) acc).Perm (xs.reverse ++ acc) := by
    intro xs
    induction xs with
    | nil => intro acc; exact List.Perm.refl _
    | cons x xs ih =>
      intro acc
      simp only [List.foldl_cons, List.reverse_cons, List.append_assoc, List.singleton_append]
      exact (ih _).trans (List.Perm.append_left _ (bubbleLeft_perm lt x acc))
  have h := key data []
  rw [List.append_nil] at h
  exact (List.reverse_perm _).trans (h.trans (List.reverse_perm _))

theorem bubbleLeft_sorted {α κ : Type} [LinearOrder κ] (lt : α → α → Bool) (key : α → κ)
    (hlt : ∀ a b, lt a b = true ↔ key a < key b) (x : α) (l : List α)
    (hl : l.Pairwise (fun a b => key b ≤ key a)) :
    (bubbleLeft lt x l).Pairwise (fun a b => key b ≤ key a) := by
  induction l with
  | nil => simp [bubbleLeft]
  | cons y ys ih =>
    rw [List.pairwise_cons] at hl
    unfold bubbleLeft
    split
    · rename_i hxy
      rw [List.pairwise_cons]
      refine ⟨?_, ih hl.2⟩
      intro z hz
      have hz2 : z ∈ x :: ys := (bubbleLeft_perm lt x ys).mem_iff.mp hz
      rcases List.mem_cons.mp hz2 with rfl | hz3
      · exact le_of_lt ((hlt _ _).mp hxy)
      · exact hl.1 z hz3
    · rename_i hxy
      have hyx : key y ≤ key x := not_lt.mp (fun h => hxy ((hlt _ _).mpr h))
      rw [List.pairwise_cons]
      refine ⟨?_, List.pairwise_cons.mpr hl⟩
      intro z hz
      rcases List.mem_cons.mp hz with rfl | hz3
      · exact hyx
      · exact le_trans (hl.1 z hz3) hyx

theorem sliceStable_sorted {α κ : Type} [LinearOrder κ] (lt : α → α → Bool) (key : α → κ)
    (hlt : ∀ a b, lt a b = true ↔ key a < key b) (data : List α) :
    (sliceStable lt data).Pairwise (fun a b => key a ≤ key b) := by
  unfold sliceStable
  rw [List.pairwise_reverse]
  have inv : ∀ (xs acc : List α), acc.Pairwise (fun a b => key b ≤ key a) →
      (xs.foldl (fun sortedRev x => bubbleLeft lt x sortedRev) acc).Pairwise
        (fun a b => key b ≤ key a) := by
    intro xs
    induction xs with
    | nil => intro acc h; exact h
    | cons x xs ih => intro acc h; exact ih _ (bubbleLeft_sorted lt key hlt x acc h)
  exact inv data [] List.Pairwise.nil

/-! ## Rank assignment -/

theorem assignRanksFrom_length (i : Nat) (l : List Hypothesis) :
    (assignRanksFrom i l).length = l.length := by
  induction l generalizing i with
  | nil => rfl
  | cons h t ih => simp [assignRanksFrom, ih]

theorem assignRanksFrom_ranks (i : Nat) (l : List Hypothesis) :
    (assignRanksFrom i l).map (fun h => h.Rank)
      = (List.range l.length).map (fun k => ((i + k : Nat) : Int) + 1) := by
  induction l generalizing i with
  | nil => rfl
  | cons h t ih =>
    simp only [assignRanksFrom, List.map_cons, List.length_cons, List.range_succ_eq_map,
      List.map_map, ih]
    simp only [Nat.add_zero, List.cons.injEq, true_and]
    apply List.map_congr_left
    intro k _
    simp only [Function.comp]
    congr 2
    omega

theorem assignRanksFrom_withoutRank (i : Nat) (l : List Hypothesis) :
    (assignRanksFrom i l).map withoutRank = l.map withoutRank := by
  induction l generalizing i with
  | nil => rfl
  | cons h t ih => simp [assignRanksFrom, ih, withoutRank]

theorem assignRanksFrom_map {β : Type} (f : Hypothesis → β)
    (hf : ∀ h r, f { h with Rank := r } = f h) (i : Nat) (l : List Hypothesis) :
    (assignRanksFrom i l).map f = l.map f := by
  induction l generalizing i with
  | nil => rfl
  | cons h t ih => simp [assignRanksFrom, ih, hf]

/-! ## Loop invariants -/

theorem foldl_preserves {β σ : Type} (P : σ → Prop) (step : σ → β → σ)
    (hstep : ∀ s x, P s → P (step s x)) (xs : List β) (s : σ) (hs : P s) :
    P (xs.foldl step s) := by
  induction xs generalizing s with
  | nil => exact hs
  | cons x xs ih => exact ih _ (hstep s x hs)

theorem foldl_len_mono {β : Type} (step : Acc → β → Acc)
    (hmono : ∀ s x, s.evidence.len ≤ (step s x).evidence.len) (xs : List β) (s : Acc) :
    s.evidence.len ≤ (xs.foldl step s).evidence.len :=
  foldl_preserves (fun (t : Acc) => s.evidence.len ≤ t.evidence.len) step
    (fun t x ht => le_trans ht (hmono t x)) xs s (le_refl _)

theorem foldl_len_lt {β : Type} (step : Acc → β → Acc) (p : β → Bool)
    (hmono : ∀ s x, s.evidence.len ≤ (step s x).evidence.len)
    (hp : ∀ s x, p x = true → s.evidence.len < (step s x).evidence.len)
    (xs : List β) (s : Acc) (hany : xs.any p = true) :
    s.evidence.len < (xs.foldl step s).evidence.len := by
  induction xs generalizing s with
  | nil => simp at hany
  | cons x xs ih =>
    rw [List.foldl_cons]
    by_cases hx : p x = true
    · exact lt_of_lt_of_le (hp s x hx) (foldl_len_mono step hmono xs _)
    · have hrest : xs.any p = true := by
        rw [List.any_cons] at hany
        simpa [hx] using hany
      exact lt_of_le_of_lt (hmono s x) (ih _ hrest)

theorem ruleTier_init : ruleTier Acc.init.confidence := Or.inr (Or.inr rfl)

/-! ## fuse.go -/

namespace FuseUnschedulableRule

theorem fuse_condStep_mono (name : String) (pod : PodInfo) (s : Acc) (c : Condition) :
    s.evidence.len ≤ (condStep name pod s c).evidence.len := by
  unfold condStep
  split_ifs <;> simp [Slice.len_append]

theorem fuse_condStep_lt (name : String) (pod : PodInfo) (s : Acc) (c : Condition)
    (hc : (c.Typ == "PodScheduled" && c.Status == "False") = true) :
    s.evidence.len < (condStep name pod s c).evidence.len := by
  unfold condStep
  rw [if_pos hc]
  split_ifs <;> simp [Slice.len_append]

theorem fuse_condStep_tier (name : String) (pod : PodInfo) (s : Acc) (c : Condition)
    (hs : ruleTier s.confidence) : ruleTier (condStep name pod s c).confidence := by
  unfold condStep
  split_ifs
  · exact Or.inl rfl
  · exact hs
  · exact hs

theorem fuse_podStep_mono (s : Acc) (e : String × PodInfo) :
    s.evidence.len ≤ (podStep s e).evidence.len := by
  unfold podStep
  split_ifs
  · exact le_refl _
  · exact foldl_len_mono _ (fuse_condStep_mono e.1 e.2) _ _
  · exact le_refl _

theorem fuse_podStep_lt (s : Acc) (e : String × PodInfo)
    (he : (isFusePod e.2 && e.2.Status == "Pending" && e.2.Conditions.any
      (fun cond => cond.Typ == "PodScheduled" && cond.Status == "False")) = true) :
    s.evidence.len < (podStep s e).evidence.len := by
  simp only [Bool.and_eq_true] at he
  unfold podStep
  rw [if_neg (by simp [he.1.1]), if_pos he.1.2]
  exact foldl_len_lt _ _ (fuse_condStep_mono e.1 e.2) (fuse_condStep_lt e.1 e.2) _ _ he.2

theorem fuse_podStep_tier (s : Acc) (e : String × PodInfo) (hs : ruleTier s.confidence) :
    ruleTier (podStep s e).confidence := by
  unfold podStep
  split_ifs
  · exact hs
  · exact foldl_preserves (fun (t : Acc) => ruleTier t.confidence) _ (fuse_condStep_tier e.1 e.2) _ _ hs
  · exact hs

theorem fuse_eventStep_mono (s : Acc) (e : Event) :
    s.evidence.len ≤ (eventStep s e).evidence.len := by
  unfold eventStep
  split_ifs <;> simp [Slice.len_append]

theorem fuse_eventStep_lt (s : Acc) (e : Event)
    (he : (e.Typ == "Warning" && strContains e.Reason "FailedScheduling"
      && isFuseRelatedEvent e) = true) :
    s.evidence.len < (eventStep s e).evidence.len := by
  rw [Bool.and_eq_true] at he
  unfold eventStep
  rw [if_pos he.1, if_pos he.2]
  simp [Slice.len_append]

theorem fuse_eventStep_tier (s : Acc) (e : Event) (hs : ruleTier s.confidence) :
    ruleTier (eventStep s e).confidence := by
  unfold eventStep
  split_ifs
  · exact Or.inl rfl
  · exact hs
  · exact hs

theorem fuse_scan_tier (ctx : DiagnosticContext) : ruleTier (scan ctx).confidence :=
  foldl_preserves (fun (t : Acc) => ruleTier t.confidence) _ fuse_eventStep_tier _ _
    (foldl_preserves (fun (t : Acc) => ruleTier t.confidence) _ fuse_podStep_tier _ _ ruleTier_init)

theorem fuse_scan_evidence (ctx : DiagnosticContext) (hm : Match ctx = true) :
    0 < (scan ctx).evidence.len := by
  unfold Match at hm
  unfold scan
  by_cases hp : ctx.Graph.Pods.any (fun entry =>
      isFusePod entry.2 && entry.2.Status == "Pending"
        && entry.2.Conditions.any
            (fun cond => cond.Typ == "PodScheduled" && cond.Status == "False")) = true
  · have h := foldl_len_lt _ _ fuse_podStep_mono fuse_podStep_lt ctx.Graph.Pods Acc.init hp
    exact lt_of_lt_of_le h (foldl_len_mono _ fuse_eventStep_mono _ _)
  · rw [if_neg hp] at hm
    have he : ctx.Events.any (fun event =>
        event.Typ == "Warning" && strContains event.Reason "FailedScheduling"
          && isFuseRelatedEvent event) = true := by
      by_contra hne
      rw [if_neg hne] at hm
      exact Bool.false_ne_true hm
    exact lt_of_le_of_lt (Nat.zero_le _) (foldl_len_lt _ _ fuse_eventStep_mono fuse_eventStep_lt _ _ he)

end FuseUnschedulableRule

/-! ## worker.go -/

namespace WorkerPendingMemoryRule

theorem worker_condStep_mono (name : String) (pod : PodInfo) (s : Acc) (c : Condition) :
    s.evidence.len ≤ (condStep name pod s c).evidence.len := by
  unfold condStep
  split_ifs <;> simp [Slice.len_append]

theorem worker_condStep_lt (name : String) (pod : PodInfo) (s : Acc) (c : Condition)
    (hc : (c.Typ == "PodScheduled" && c.Status == "False"
      && (strContains (strToLower c.Message) "memory"
          || strContains (strToLower c.Message) "insufficient")) = true) :
    s.evidence.len < (condStep name pod s c).evidence.len := by
  rw [Bool.and_eq_true] at hc
  unfold condStep
  rw [if_pos hc.1, if_pos hc.2]
  simp [Slice.len_append]

theorem worker_condStep_tier (name : String) (pod : PodInfo) (s : Acc) (c : Condition)
    (hs : ruleTier s.confidence) : ruleTier (condStep name pod s c).confidence := by
  unfold condStep
  split_ifs
  · exact Or.inl rfl
  · exact hs
  · exact hs

theorem worker_podStep_mono (s : Acc) (e : String × PodInfo) :
    s.evidence.len ≤ (podStep s e).evidence.len := by
  unfold podStep
  split_ifs
  · exact le_refl _
  · exact foldl_len_mono _ (worker_condStep_mono e.1 e.2) _ _
  · exact le_refl _

theorem worker_podStep_lt (s : Acc) (e : String × PodInfo)
    (he : (isWorkerPod e.2 && e.2.Status == "Pending" && e.2.Conditions.any
      (fun cond => cond.Typ == "PodScheduled" && cond.Status == "False"
        && (strContains (strToLower cond.Message) "memory"
            || strContains (strToLower cond.Message) "insufficient"))) = true) :
    s.evidence.len < (podStep s e).evidence.len := by
  simp only [Bool.and_eq_true] at he
  unfold podStep
  rw [if_neg (by simp [he.1.1]), if_pos he.1.2]
  refine foldl_len_lt _ _ (worker_condStep_mono e.1 e.2) (worker_condStep_lt e.1 e.2) _ _ ?_
  simpa only [Bool.and_eq_true] using he.2

theorem worker_podStep_tier (s : Acc) (e : String × PodInfo) (hs : ruleTier s.confidence) :
    ruleTier (podStep s e).confidence := by
  unfold podStep
  split_ifs
  · exact hs
  · exact foldl_preserves (fun (t : Acc) => ruleTier t.confidence) _
      (worker_condStep_tier e.1 e.2) _ _ hs
  · exact hs

theorem worker_eventStep_mono (s : Acc) (e : Event) :
    s.evidence.len ≤ (eventStep s e).evidence.len := by
  unfold eventStep
  split_ifs <;> simp [Slice.len_append]

theorem worker_eventStep_lt (s : Acc) (e : Event)
    (he : (e.Typ == "Warning" && e.Reason == "FailedScheduling"
      && (isWorkerRelatedEvent e && strContains (strToLower e.Message) "memory")) = true) :
    s.evidence.len < (eventStep s e).evidence.len := by
  rw [Bool.and_eq_true] at he
  unfold eventStep
  rw [if_pos he.1, if_pos he.2]
  simp [Slice.len_append]

theorem worker_eventStep_tier (s : Acc) (e : Event) (hs : ruleTier s.confidence) :
    ruleTier (eventStep s e).confidence := by
  unfold eventStep
  split_ifs
  · exact Or.inl rfl
  · exact hs
  · exact hs

theorem worker_scan_tier (ctx : DiagnosticContext) : ruleTier (scan ctx).confidence :=
  foldl_preserves (fun (t : Acc) => ruleTier t.confidence) _ worker_eventStep_tier _ _
    (foldl_preserves (fun (t : Acc) => ruleTier t.confidence) _ worker_podStep_tier _ _ ruleTier_init)

theorem worker_scan_evidence (ctx : DiagnosticContext) (hm : Match ctx = true) :
    0 < (scan ctx).evidence.len := by
  unfold Match at hm
  unfold scan
  split_ifs at hm with hp he
  · have h := foldl_len_lt _ _ worker_podStep_mono worker_podStep_lt ctx.Graph.Pods Acc.init hp
    exact lt_of_lt_of_le h (foldl_len_mono _ worker_eventStep_mono _ _)
  · exact lt_of_le_of_lt (Nat.zero_le _) (foldl_len_lt _ _ worker_eventStep_mono worker_eventStep_lt _ _ he)

end WorkerPendingMemoryRule

/-! ## runtime.go -/

namespace RuntimePartiallyReadyRule

theorem runtime_masterStep_mono (name : String) (r : RuntimeInfo) (s : Acc) :
    s.evidence.len ≤ (masterStep name r s).evidence.len := by
  unfold masterStep
  split_ifs <;> simp [Slice.len_append]

theorem runtime_workerStep_mono (name : String) (r : RuntimeInfo) (s : Acc) :
    s.evidence.len ≤ (workerStep name r s).evidence.len := by
  unfold workerStep
  split_ifs <;> simp [Slice.len_append]

theorem runtime_condStep_mono (name : String) (r : RuntimeInfo) (s : Acc) (c : Condition) :
    s.evidence.len ≤ (condStep name r s c).evidence.len := by
  unfold condStep
  split_ifs <;> simp [Slice.len_append]

theorem runtime_condStep_lt (name : String) (r : RuntimeInfo) (s : Acc) (c : Condition)
    (hc : (c.Status == "False" && c.Typ == "Ready") = true) :
    s.evidence.len < (condStep name r s c).evidence.len := by
  rw [Bool.and_eq_true] at hc
  unfold condStep
  rw [if_pos hc.1]
  split_ifs <;> simp [Slice.len_append]

theorem runtime_masterStep_tier (name : String) (r : RuntimeInfo) (s : Acc)
    (hs : ruleTier s.confidence) : ruleTier (masterStep name r s).confidence := by
  unfold masterStep
  split_ifs
  · exact Or.inr (Or.inl rfl)
  · exact hs

theorem runtime_workerStep_tier (name : String) (r : RuntimeInfo) (s : Acc)
    (hs : ruleTier s.confidence) : ruleTier (workerStep name r s).confidence := by
  unfold workerStep
  split_ifs
  · exact Or.inr (Or.inl rfl)
  · exact hs

theorem runtime_condStep_tier (name : String) (r : RuntimeInfo) (s : Acc) (c : Condition)
    (hs : ruleTier s.confidence) : ruleTier (condStep name r s c).confidence := by
  unfold condStep
  split_ifs
  · exact Or.inl rfl
  · exact hs
  · exact hs

theorem runtime_runtimeStep_mono (s : Acc) (e : String × RuntimeInfo) :
    s.evidence.len ≤ (runtimeStep s e).evidence.len := by
  unfold runtimeStep
  exact le_trans (runtime_masterStep_mono e.1 e.2 s)
    (le_trans (runtime_workerStep_mono e.1 e.2 _) (foldl_len_mono _ (runtime_condStep_mono e.1 e.2) _ _))

theorem runtime_runtimeStep_lt (s : Acc) (e : String × RuntimeInfo)
    (he : (if decide (e.2.MasterReplicas > 0)
        && decide (e.2.MasterReady < e.2.MasterReplicas) then true
      else if decide (e.2.WorkerReplicas > 0)
        && decide (e.2.WorkerReady < e.2.WorkerReplicas) then true
      else e.2.Conditions.any (fun cond => cond.Status == "False" && cond.Typ == "Ready"))
      = true) :
    s.evidence.len < (runtimeStep s e).evidence.len := by
  unfold runtimeStep
  split_ifs at he with hmaster hworker
  · have h1 : s.evidence.len < (masterStep e.1 e.2 s).evidence.len := by
      unfold masterStep
      rw [if_pos hmaster]
      simp [Slice.len_append]
    exact lt_of_lt_of_le h1
      (le_trans (runtime_workerStep_mono e.1 e.2 _) (foldl_len_mono _ (runtime_condStep_mono e.1 e.2) _ _))
  · have h2 : (masterStep e.1 e.2 s).evidence.len
        < (workerStep e.1 e.2 (masterStep e.1 e.2 s)).evidence.len := by
      generalize masterStep e.1 e.2 s = t
      unfold workerStep
      rw [if_pos hworker]
      simp [Slice.len_append]
    exact lt_of_le_of_lt (runtime_masterStep_mono e.1 e.2 s)
      (lt_of_lt_of_le h2 (foldl_len_mono _ (runtime_condStep_mono e.1 e.2) _ _))
  · exact lt_of_le_of_lt (le_trans (runtime_masterStep_mono e.1 e.2 s) (runtime_workerStep_mono e.1 e.2 _))
      (foldl_len_lt _ _ (runtime_condStep_mono e.1 e.2) (runtime_condStep_lt e.1 e.2) _ _ he)

theorem runtime_runtimeStep_tier (s : Acc) (e : String × RuntimeInfo) (hs : ruleTier s.confidence) :
    ruleTier (runtimeStep s e).confidence := by
  unfold runtimeStep
  exact foldl_preserves (fun (t : Acc) => ruleTier t.confidence) _ (runtime_condStep_tier e.1 e.2) _ _
    (runtime_workerStep_tier e.1 e.2 _ (runtime_masterStep_tier e.1 e.2 s hs))

theorem runtime_scan_tier (ctx : DiagnosticContext) : ruleTier (scan ctx).confidence :=
  foldl_preserves (fun (t : Acc) => ruleTier t.confidence) _ runtime_runtimeStep_tier _ _ ruleTier_init

theorem runtime_scan_evidence (ctx : DiagnosticContext) (hm : Match ctx = true) :
    0 < (scan ctx).evidence.len :=
  foldl_len_lt _ _ runtime_runtimeStep_mono runtime_runtimeStep_lt ctx.Graph.Runtimes Acc.init hm

end RuntimePartiallyReadyRule

/-! ## storage.go -/

namespace PVCUnboundRule

theorem pvc_pendingStep_mono (name : String) (p : PVCInfo) (s : Acc) :
    s.evidence.len ≤ (pendingStep name p s).evidence.len := by
  unfold pendingStep
  split_ifs <;> simp [Slice.len_append]

theorem pvc_lostStep_mono (name : String) (p : PVCInfo) (s : Acc) :
    s.evidence.len ≤ (lostStep name p s).evidence.len := by
  unfold lostStep
  split_ifs <;> simp [Slice.len_append]

theorem pvc_pendingStep_tier (name : String) (p : PVCInfo) (s : Acc)
    (hs : ruleTier s.confidence) : ruleTier (pendingStep name p s).confidence := by
  unfold pendingStep
  split_ifs
  · exact Or.inr (Or.inl rfl)
  · exact hs

theorem pvc_lostStep_tier (name : String) (p : PVCInfo) (s : Acc)
    (hs : ruleTier s.confidence) : ruleTier (lostStep name p s).confidence := by
  unfold lostStep
  split_ifs
  · exact Or.inl rfl
  · exact hs

theorem pvc_pvcStep_mono (s : Acc) (e : String × PVCInfo) :
    s.evidence.len ≤ (pvcStep s e).evidence.len := by
  unfold pvcStep
  exact le_trans (pvc_pendingStep_mono e.1 e.2 s) (pvc_lostStep_mono e.1 e.2 _)

theorem pvc_pvcStep_lt (s : Acc) (e : String × PVCInfo)
    (he : (e.2.Status == "Pending" || e.2.Status == "Lost") = true) :
    s.evidence.len < (pvcStep s e).evidence.len := by
  unfold pvcStep
  rw [Bool.or_eq_true] at he
  rcases he with hp | hl
  · have h1 : s.evidence.len < (pendingStep e.1 e.2 s).evidence.len := by
      unfold pendingStep
      rw [if_pos hp]
      simp [Slice.len_append]
    exact lt_of_lt_of_le h1 (pvc_lostStep_mono e.1 e.2 _)
  · have h2 : (pendingStep e.1 e.2 s).evidence.len
        < (lostStep e.1 e.2 (pendingStep e.1 e.2 s)).evidence.len := by
      generalize pendingStep e.1 e.2 s = t
      unfold lostStep
      rw [if_pos hl]
      simp [Slice.len_append]
    exact lt_of_le_of_lt (pvc_pendingStep_mono e.1 e.2 s) h2

theorem pvc_pvcStep_tier (s : Acc) (e : String × PVCInfo) (hs : ruleTier s.confidence) :
    ruleTier (pvcStep s e).confidence := by
  unfold pvcStep
  exact pvc_lostStep_tier e.1 e.2 _ (pvc_pendingStep_tier e.1 e.2 s hs)

theorem pvc_eventStep_mono (s : Acc) (e : Event) :
    s.evidence.len ≤ (eventStep s e).evidence.len := by
  unfold eventStep
  split_ifs <;> simp [Slice.len_append]

theorem pvc_eventStep_lt (s : Acc) (e : Event)
    (he : (e.Typ == "Warning" && e.InvolvedObject.Kind == "PersistentVolumeClaim"
      && (strContains e.Reason "ProvisioningFailed"
          || strContains e.Reason "FailedBinding")) = true) :
    s.evidence.len < (eventStep s e).evidence.len := by
  rw [Bool.and_eq_true] at he
  unfold eventStep
  rw [if_pos he.1, if_pos he.2]
  simp [Slice.len_append]

theorem pvc_eventStep_tier (s : Acc) (e : Event) (hs : ruleTier s.confidence) :
    ruleTier (eventStep s e).confidence := by
  unfold eventStep
  split_ifs
  · exact Or.inl rfl
  · exact hs
  · exact hs

theorem pvc_scan_tier (ctx : DiagnosticContext) : ruleTier (scan ctx).confidence :=
  foldl_preserves (fun (t : Acc) => ruleTier t.confidence) _ pvc_eventStep_tier _ _
    (foldl_preserves (fun (t : Acc) => ruleTier t.confidence) _ pvc_pvcStep_tier _ _ ruleTier_init)

theorem pvc_scan_evidence (ctx : DiagnosticContext) (hm : Match ctx = true) :
    0 < (scan ctx).evidence.len := by
  unfold Match at hm
  unfold scan
  split_ifs at hm with hp he
  · have h := foldl_len_lt _ _ pvc_pvcStep_mono pvc_pvcStep_lt ctx.Graph.PVCs Acc.init hp
    exact lt_of_lt_of_le h (foldl_len_mono _ pvc_eventStep_mono _ _)
  · exact lt_of_le_of_lt (Nat.zero_le _) (foldl_len_lt _ _ pvc_eventStep_mono pvc_eventStep_lt _ _ he)

end PVCUnboundRule

namespace DatasetNotBoundRule

theorem dataset_statusStep_mono (name : String) (d : DatasetInfo) (s : Acc) :
    s.evidence.len ≤ (statusStep name d s).evidence.len := by
  unfold statusStep
  split_ifs <;> simp [Slice.len_append]

theorem dataset_condStep_mono (name : String) (d : DatasetInfo) (s : Acc) (c : Condition) :
    s.evidence.len ≤ (condStep name d s c).evidence.len := by
  unfold condStep
  split_ifs <;> simp [Slice.len_append]

theorem dataset_condStep_lt (name : String) (d : DatasetInfo) (s : Acc) (c : Condition)
    (hc : (c.Typ == "Ready" && c.Status == "False") = true) :
    s.evidence.len < (condStep name d s c).evidence.len := by
  unfold condStep
  rw [if_pos hc]
  split_ifs <;> simp [Slice.len_append]

theorem dataset_statusStep_tier (name : String) (d : DatasetInfo) (s : Acc)
    (hs : ruleTier s.confidence) : ruleTier (statusStep name d s).confidence := by
  unfold statusStep
  split_ifs
  · exact Or.inr (Or.inl rfl)
  · exact Or.inr (Or.inl rfl)
  · exact hs

theorem dataset_condStep_tier (name : String) (d : DatasetInfo) (s : Acc) (c : Condition)
    (hs : ruleTier s.confidence) : ruleTier (condStep name d s c).confidence := by
  unfold condStep
  split_ifs
  · exact Or.inl rfl
  · exact hs
  · exact hs

theorem dataset_datasetStep_mono (s : Acc) (e : String × DatasetInfo) :
    s.evidence.len ≤ (datasetStep s e).evidence.len := by
  unfold datasetStep
  exact le_trans (dataset_statusStep_mono e.1 e.2 s) (foldl_len_mono _ (dataset_condStep_mono e.1 e.2) _ _)

theorem dataset_datasetStep_lt (s : Acc) (e : String × DatasetInfo)
    (he : (if e.2.Status == "NotBound" || e.2.Status == "" then true
      else e.2.Conditions.any (fun cond => cond.Typ == "Ready" && cond.Status == "False"))
      = true) :
    s.evidence.len < (datasetStep s e).evidence.len := by
  unfold datasetStep
  split_ifs at he with hstatus
  · have h1 : s.evidence.len < (statusStep e.1 e.2 s).evidence.len := by
      unfold statusStep
      rw [if_pos hstatus]
      simp [Slice.len_append]
    exact lt_of_lt_of_le h1 (foldl_len_mono _ (dataset_condStep_mono e.1 e.2) _ _)
  · exact lt_of_le_of_lt (dataset_statusStep_mono e.1 e.2 s)
      (foldl_len_lt _ _ (dataset_condStep_mono e.1 e.2) (dataset_condStep_lt e.1 e.2) _ _ he)

theorem dataset_datasetStep_tier (s : Acc) (e : String × DatasetInfo) (hs : ruleTier s.confidence) :
    ruleTier (datasetStep s e).confidence := by
  unfold datasetStep
  exact foldl_preserves (fun (t : Acc) => ruleTier t.confidence) _ (dataset_condStep_tier e.1 e.2) _ _
    (dataset_statusStep_tier e.1 e.2 s hs)

theorem dataset_scan_tier (ctx : DiagnosticContext) : ruleTier (scan ctx).confidence :=
  foldl_preserves (fun (t : Acc) => ruleTier t.confidence) _ dataset_datasetStep_tier _ _ ruleTier_init

theorem dataset_scan_evidence (ctx : DiagnosticContext) (hm : Match ctx = true) :
    0 < (scan ctx).evidence.len :=
  foldl_len_lt _ _ dataset_datasetStep_mono dataset_datasetStep_lt ctx.Graph.Datasets Acc.init hm

end DatasetNotBoundRule

/-! ## All rules -/

theorem allRules_evidence (ctx : DiagnosticContext) (r : Rule) (hr : r ∈ allRules)
    (hm : r.Match ctx = true) : 0 < (r.Hypothesis ctx).Evidence.len := by
  simp only [allRules, List.mem_cons, List.mem_singleton, List.not_mem_nil, or_false] at hr
  rcases hr with rfl | rfl | rfl | rfl | rfl
  · exact FuseUnschedulableRule.fuse_scan_evidence ctx hm
  · exact WorkerPendingMemoryRule.worker_scan_evidence ctx hm
  · exact RuntimePartiallyReadyRule.runtime_scan_evidence ctx hm
  · exact PVCUnboundRule.pvc_scan_evidence ctx hm
  · exact DatasetNotBoundRule.dataset_scan_evidence ctx hm

theorem allRules_tier (ctx : DiagnosticContext) (r : Rule) (hr : r ∈ allRules) :
    ruleTier (r.Hypothesis ctx).Confidence := by
  simp only [allRules, List.mem_cons, List.mem_singleton, List.not_mem_nil, or_false] at hr
  rcases hr with rfl | rfl | rfl | rfl | rfl
  · exact FuseUnschedulableRule.fuse_scan_tier ctx
  · exact WorkerPendingMemoryRule.worker_scan_tier ctx
  · exact RuntimePartiallyReadyRule.runtime_scan_tier ctx
  · exact PVCUnboundRule.pvc_scan_tier ctx
  · exact DatasetNotBoundRule.dataset_scan_tier ctx

/-! ## The engine -/

theorem foldl_applyRule_toList (ctx : DiagnosticContext) (rules : List Rule)
    (s : Slice Hypothesis) :
    (rules.foldl (applyRule ctx) s).toList
      = s.toList ++ (rules.filter (fun r => r.Match ctx)).map (fun r => r.Hypothesis ctx) := by
  induction rules generalizing s with
  | nil => simp
  | cons r rs ih =>
    rw [List.foldl_cons, ih]
    unfold applyRule
    by_cases hm : r.Match ctx = true
    · simp [hm, Slice.toList_append]
    · simp [hm]

theorem collect_toList (ctx : DiagnosticContext) :
    (collect ctx).toList
      = (allRules.filter (fun r => r.Match ctx)).map (fun r => r.Hypothesis ctx) := by
  unfold collect
  rw [foldl_applyRule_toList]
  rfl

theorem Analyze_toList (now : Nat) (ctx : DiagnosticContext) :
    (Analyze now ctx).1.Hypotheses.toList
      = assignRanksFrom 0 (sliceStable less (collect ctx).toList) := by
  unfold Analyze
  simp only
  rw [Slice.toList_update _ rfl, Slice.toList_update _ rfl]

theorem Analyze_sorted (now : Nat) (ctx : DiagnosticContext) :
    (Analyze now ctx).1.Hypotheses.toList.Pairwise (fun a b => sortKey a ≤ sortKey b) := by
  have h := sliceStable_sorted less sortKey less_iff_sortKey_lt (collect ctx).toList
  rw [Analyze_toList]
  have e := assignRanksFrom_map sortKey (fun _ _ => rfl) 0 (sliceStable less (collect ctx).toList)
  have h1 : ((sliceStable less (collect ctx).toList).map sortKey).Pairwise (· ≤ ·) :=
    List.pairwise_map.mpr h
  rw [← e] at h1
  exact List.pairwise_map.mp h1

theorem Analyze_withoutRank_perm (now : Nat) (ctx : DiagnosticContext) :
    ((Analyze now ctx).1.Hypotheses.toList.map withoutRank).Perm
      ((allRules.filter (fun r => r.Match ctx)).map (fun r => withoutRank (r.Hypothesis ctx))) := by
  rw [Analyze_toList, assignRanksFrom_withoutRank]
  have h := (sliceStable_perm less (collect ctx).toList).map withoutRank
  rw [collect_toList, List.map_map] at h
  rw [collect_toList]
  exact h

theorem Analyze_mem (now : Nat) (ctx : DiagnosticContext) (h : Hypothesis)
    (hh : h ∈ (Analyze now ctx).1.Hypotheses.toList) :
    ∃ r ∈ allRules, r.Match ctx = true ∧ withoutRank h = withoutRank (r.Hypothesis ctx) := by
  have hm : withoutRank h ∈ (Analyze now ctx).1.Hypotheses.toList.map withoutRank :=
    List.mem_map_of_mem _ hh
  rw [(Analyze_withoutRank_perm now ctx).mem_iff, List.mem_map] at hm
  obtain ⟨r, hr, he⟩ := hm
  rw [List.mem_filter] at hr
  exact ⟨r, hr.1, hr.2, he.symm⟩

theorem tier_bounds (q : ℚ) (hq : ruleTier q) :
    (0 ≤ q ∧ q ≤ 1) ∧ (q = 8 / 10 ∨ q = 6 / 10 ∨ q = 55 / 100 ∨ q = 5 / 10 ∨ q = 3 / 10) := by
  unfold ruleTier ConfidenceEventAndStatus ConfidencePodStatusOnly ConfidenceConditionOnly at hq
  rcases hq with h | h | h
  · subst h
    exact ⟨⟨by norm_num, by norm_num⟩, Or.inl rfl⟩
  · subst h
    exact ⟨⟨by norm_num, by norm_num⟩, Or.inr (Or.inl rfl)⟩
  · subst h
    exact ⟨⟨by norm_num, by norm_num⟩, Or.inr (Or.inr (Or.inr (Or.inl rfl)))⟩

theorem podStatusOnly_lt_eventAndStatus : ConfidencePodStatusOnly < ConfidenceEventAndStatus := by
  unfold ConfidencePodStatusOnly ConfidenceEventAndStatus
  norm_num

theorem Analyze_eq_AnalyzeWith (now : Nat) (ctx : DiagnosticContext) :
    Analyze now ctx = AnalyzeWith allRules now ctx := rfl

theorem foldl_applyRule_eq (ctx : DiagnosticContext) (rules : List Rule)
    (s : Slice Hypothesis) :
    rules.foldl (applyRule ctx) s
      = if (rules.filter (fun r => r.Match ctx)).isEmpty then s
        else Slice.mk (s.toList
          ++ (rules.filter (fun r => r.Match ctx)).map (fun r => r.Hypothesis ctx)) := by
  induction rules generalizing s with
  | nil => simp
  | cons r rs ih =>
    rw [List.foldl_cons, ih]
    unfold applyRule
    by_cases hm : r.Match ctx = true
    · simp only [hm, if_true, List.filter_cons_of_pos, Slice.toList_append]
      by_cases hrs : (rs.filter (fun r => r.Match ctx)).isEmpty = true
      · rw [List.isEmpty_iff] at hrs
        simp [hrs, Slice.append]
      · simp [hrs]
    · simp [hm]

theorem collectWith_eq (rules : List Rule) (ctx : DiagnosticContext) :
    collectWith rules ctx
      = if (rules.filter (fun r => r.Match ctx)).isEmpty then Slice.nil
        else Slice.mk ((rules.filter (fun r => r.Match ctx)).map (fun r => r.Hypothesis ctx)) := by
  unfold collectWith
  rw [foldl_applyRule_eq]
  rfl

theorem allRules_components (ctx : DiagnosticContext) :
    allRules.Pairwise
      (fun r s => (r.Hypothesis ctx).Component ≠ (s.Hypothesis ctx).Component) := by
  simp [allRules, FuseUnschedulableRule.Hypothesis, WorkerPendingMemoryRule.Hypothesis,
    RuntimePartiallyReadyRule.Hypothesis, PVCUnboundRule.Hypothesis,
    DatasetNotBoundRule.Hypothesis]

/-- The hypotheses collected from any arrangement of the registry have pairwise
different components. -/
theorem matching_components (ctx : DiagnosticContext) (rules : List Rule)
    (hp : rules.Perm allRules) :
    ((rules.filter (fun r => r.Match ctx)).map (fun r => r.Hypothesis ctx)).Pairwise
      (fun a b => a.Component ≠ b.Component) := by
  rw [List.pairwise_map]
  apply List.Pairwise.filter
  exact (hp.pairwise_iff (fun {a b} h => Ne.symm h)).mpr (allRules_components ctx)

/-- Sorting a list whose components are pairwise different leaves its keys
strictly increasing. -/
theorem sliceStable_strict (l : List Hypothesis)
    (hl : l.Pairwise (fun a b => a.Component ≠ b.Component)) :
    (sliceStable less l).Pairwise (fun a b => sortKey a < sortKey b) := by
  have h1 := sliceStable_sorted less sortKey less_iff_sortKey_lt l
  have h2 : (sliceStable less l).Pairwise (fun a b => a.Component ≠ b.Component) :=
    ((sliceStable_perm less l).pairwise_iff (fun {a b} h => Ne.symm h)).mpr hl
  refine (h1.and h2).imp ?_
  intro a b hab
  refine lt_of_le_of_ne hab.1 ?_
  intro he
  apply hab.2
  have := congrArg (fun k => (ofLex (ofLex k).2).1) he
  simpa [sortKey] using this

/-- Two arrangements of one list with pairwise different components sort to the
same list. -/
theorem sliceStable_perm_eq (l₁ l₂ : List Hypothesis) (hp : l₁.Perm l₂)
    (hl : l₂.Pairwise (fun a b => a.Component ≠ b.Component)) :
    sliceStable less l₁ = sliceStable less l₂ := by
  have hl1 : l₁.Pairwise (fun a b => a.Component ≠ b.Component) :=
    (hp.pairwise_iff (fun {a b} h => Ne.symm h)).mpr hl
  haveI : IsAntisymm Hypothesis (fun a b => sortKey a < sortKey b) :=
    ⟨fun a b h1 h2 => absurd h1 (lt_asymm h2)⟩
  exact List.eq_of_perm_of_sorted
    (((sliceStable_perm less l₁).trans hp).trans (sliceStable_perm less l₂).symm)
    (sliceStable_strict l₁ hl1) (sliceStable_strict l₂ hl)

theorem AnalyzeWith_perm (rules : List Rule) (hp : rules.Perm allRules) (now : Nat)
    (ctx : DiagnosticContext) : AnalyzeWith rules now ctx = AnalyzeWith allRules now ctx := by
  have hf : (rules.filter (fun r => r.Match ctx)).Perm (allRules.filter (fun r => r.Match ctx)) :=
    hp.filter _
  have hm := hf.map (fun r => r.Hypothesis ctx)
  have hs := sliceStable_perm_eq _ _ hm (matching_components ctx allRules (List.Perm.refl _))
  have he : (rules.filter (fun r => r.Match ctx)).isEmpty
      = (allRules.filter (fun r => r.Match ctx)).isEmpty := by
    have := hf.length_eq
    cases h1 : rules.filter (fun r => r.Match ctx) <;>
      cases h2 : allRules.filter (fun r => r.Match ctx) <;> simp_all
  unfold AnalyzeWith
  simp only [collectWith_eq, he]
  split_ifs
  · rfl
  · simp only [Slice.update, hs]

/-! ## More loop lemmas -/

theorem foldl_preserves_mem {β σ : Type} (P : σ → Prop) (step : σ → β → σ) (xs : List β)
    (hstep : ∀ s, ∀ x ∈ xs, P s → P (step s x)) (s : σ) (hs : P s) :
    P (xs.foldl step s) := by
  induction xs generalizing s with
  | nil => exact hs
  | cons x xs ih =>
    exact ih (fun t y hy => hstep t y (List.mem_cons_of_mem _ hy)) _
      (hstep s x (List.mem_cons_self _ _) hs)

theorem foldl_noop {β σ : Type} (step : σ → β → σ) (xs : List β)
    (hstep : ∀ s, ∀ x ∈ xs, step s x = s) (s : σ) : xs.foldl step s = s :=
  foldl_preserves_mem (fun t => t = s) step xs (fun t x hx ht => by rw [hstep t x hx, ht]) s rfl

theorem foldl_conf_ite {β : Type} (step : Acc → β → Acc) (p : β → Bool) (c : ℚ)
    (xs : List β)
    (hstep : ∀ s, ∀ x ∈ xs, (step s x).confidence = if p x then c else s.confidence)
    (s : Acc) :
    (xs.foldl step s).confidence = if xs.any p then c else s.confidence := by
  induction xs generalizing s with
  | nil => simp
  | cons x xs ih =>
    rw [List.foldl_cons, ih (fun t y hy => hstep t y (List.mem_cons_of_mem _ hy)),
      hstep s x (List.mem_cons_self _ _), List.any_cons]
    by_cases hx : p x = true
    · simp [hx]
    · simp [hx]

theorem foldl_evidence {β : Type} (step : Acc → β → Acc) (lines : β → List String)
    (hstep : ∀ s x, (step s x).evidence.toList = s.evidence.toList ++ lines x)
    (xs : List β) (s : Acc) :
    (xs.foldl step s).evidence.toList = s.evidence.toList ++ xs.flatMap lines := by
  induction xs generalizing s with
  | nil => simp
  | cons x xs ih =>
    rw [List.foldl_cons, ih, hstep, List.flatMap_cons, List.append_assoc]

theorem foldl_mem_mono {β : Type} (step : Acc → β → Acc) (line : String)
    (hmono : ∀ s x, line ∈ s.evidence.toList → line ∈ (step s x).evidence.toList)
    (xs : List β) (s : Acc) (hs : line ∈ s.evidence.toList) :
    line ∈ (xs.foldl step s).evidence.toList :=
  foldl_preserves (fun (t : Acc) => line ∈ t.evidence.toList) step hmono xs s hs

theorem foldl_mem_of_step {β : Type} (step : Acc → β → Acc) (line : String)
    (hmono : ∀ s x, line ∈ s.evidence.toList → line ∈ (step s x).evidence.toList)
    (xs : List β) (x : β) (hx : x ∈ xs) (hline : ∀ s, line ∈ (step s x).evidence.toList)
    (s : Acc) : line ∈ (xs.foldl step s).evidence.toList := by
  induction xs generalizing s with
  | nil => simp at hx
  | cons y ys ih =>
    rw [List.foldl_cons]
    rcases List.mem_cons.mp hx with rfl | h
    · exact foldl_mem_mono step line hmono ys _ (hline s)
    · exact ih h _

theorem flatMap_ite_singleton {β γ : Type} (p : β → Bool) (f : β → γ) (xs : List β) :
    xs.flatMap (fun x => if p x then [f x] else []) = (xs.filter p).map f := by
  induction xs with
  | nil => rfl
  | cons x xs ih =>
    rw [List.flatMap_cons, ih]
    by_cases hx : p x = true
    · simp [hx]
    · simp [hx]

/-! ## storage.go: evidence and confidence of the claim rule -/

namespace PVCUnboundRule

theorem pvc_pvcStep_evidence (s : Acc) (e : String × PVCInfo) :
    (pvcStep s e).evidence.toList = s.evidence.toList ++ claimLines e := by
  unfold pvcStep lostStep pendingStep claimLines
  split_ifs <;> simp [Slice.toList_append]

theorem pvc_eventStep_evidence (s : Acc) (e : Event) :
    (eventStep s e).evidence.toList
      = s.evidence.toList ++ (if eventMatches e then [eventLine e] else []) := by
  unfold eventStep eventMatches eventLine
  by_cases h1 : (e.Typ == "Warning" && e.InvolvedObject.Kind == "PersistentVolumeClaim") = true
  · by_cases h2 : (strContains e.Reason "ProvisioningFailed"
        || strContains e.Reason "FailedBinding") = true
    · simp [h1, h2, Slice.toList_append]
    · simp [h1, h2]
  · simp [h1]

theorem pvc_scan_evidence_eq (ctx : DiagnosticContext) :
    (scan ctx).evidence.toList
      = ctx.Graph.PVCs.flatMap claimLines ++ (ctx.Events.filter eventMatches).map eventLine := by
  unfold scan
  rw [foldl_evidence eventStep _ pvc_eventStep_evidence,
    foldl_evidence pvcStep _ pvc_pvcStep_evidence, flatMap_ite_singleton]
  rfl

theorem pvc_claimLines_length (e : String × PVCInfo) :
    (claimLines e).length = if claimMatches e then 1 else 0 := by
  unfold claimLines claimMatches
  by_cases hp : e.2.Status = "Pending"
  · simp [hp]
  · by_cases hl : e.2.Status = "Lost"
    · simp [hl]
    · simp [hp, hl]

theorem pvc_flatMap_claimLines_length (xs : List (String × PVCInfo)) :
    (xs.flatMap claimLines).length = xs.countP claimMatches := by
  induction xs with
  | nil => rfl
  | cons x xs ih =>
    rw [List.flatMap_cons, List.length_append, ih, pvc_claimLines_length, List.countP_cons]
    by_cases hx : claimMatches x = true
    · simp [hx]; omega
    · simp [hx]

theorem pvc_pvcStep_confidence (s : Acc) (e : String × PVCInfo)
    (he : (e.2.Status == "Lost") = false) :
    (pvcStep s e).confidence
      = if e.2.Status == "Pending" then ConfidencePodStatusOnly else s.confidence := by
  simp only [pvcStep, lostStep, he, Bool.false_eq_true, if_false, pendingStep]
  split_ifs <;> rfl

theorem pvc_eventStep_confidence (s : Acc) (e : Event) :
    (eventStep s e).confidence
      = if eventMatches e then ConfidenceEventAndStatus else s.confidence := by
  unfold eventStep eventMatches
  by_cases h1 : (e.Typ == "Warning" && e.InvolvedObject.Kind == "PersistentVolumeClaim") = true
  · by_cases h2 : (strContains e.Reason "ProvisioningFailed"
        || strContains e.Reason "FailedBinding") = true
    · simp [h1, h2]
    · simp [h1, h2]
  · simp [h1]

/-- With no `Lost` claim the claim rule ends at `0.8` when an event matches, at
`0.6` when none does and a claim is `Pending`, and at its initial `0.5`
otherwise. -/
theorem pvc_scan_confidence (ctx : DiagnosticContext) (hl : noneLost ctx = true) :
    (scan ctx).confidence
      = if ctx.Events.any eventMatches then ConfidenceEventAndStatus
        else if ctx.Graph.PVCs.any (fun e => e.2.Status == "Pending") then
          ConfidencePodStatusOnly
        else ConfidenceConditionOnly := by
  unfold scan
  rw [foldl_conf_ite eventStep eventMatches ConfidenceEventAndStatus _
    (fun s e _ => pvc_eventStep_confidence s e)]
  rw [foldl_conf_ite pvcStep (fun e => e.2.Status == "Pending") ConfidencePodStatusOnly _ ?_]
  · rfl
  · intro s e he
    apply pvc_pvcStep_confidence
    unfold noneLost at hl
    rw [List.all_eq_true] at hl
    simpa using hl e he

end PVCUnboundRule

/-! ## fuse.go: bare conditions and the unmatched case -/

namespace FuseUnschedulableRule

theorem fuse_condStep_bare (name : String) (pod : PodInfo) (s : Acc) (c : Condition)
    (h : (!(c.Typ == "PodScheduled" && c.Status == "False") || c.Reason == "") = true) :
    (condStep name pod s c).confidence = s.confidence := by
  unfold condStep
  by_cases hc : (c.Typ == "PodScheduled" && c.Status == "False") = true
  · have hr : c.Reason = "" := by simpa [hc] using h
    simp [hc, hr]
  · simp [hc]

theorem fuse_podStep_bare (s : Acc) (e : String × PodInfo)
    (h : (!(isFusePod e.2 && e.2.Status == "Pending")
      || e.2.Conditions.all (fun cond =>
          !(cond.Typ == "PodScheduled" && cond.Status == "False") || cond.Reason == ""))
      = true) :
    (podStep s e).confidence = s.confidence := by
  unfold podStep
  split_ifs with h1 h2
  · rfl
  · have hf : isFusePod e.2 = true := by simpa using h1
    have hall : e.2.Conditions.all (fun cond =>
        !(cond.Typ == "PodScheduled" && cond.Status == "False") || cond.Reason == "") = true := by
      simpa [hf, h2] using h
    rw [List.all_eq_true] at hall
    exact foldl_preserves_mem (fun (t : Acc) => t.confidence = s.confidence) _ _
      (fun t c hc ht => (fuse_condStep_bare e.1 e.2 t c (hall c hc)).trans ht) s rfl
  · rfl

theorem fuse_eventStep_confidence (s : Acc) (e : Event) :
    (eventStep s e).confidence
      = if eventMatches e then ConfidenceEventAndStatus else s.confidence := by
  unfold eventStep eventMatches
  by_cases h1 : (e.Typ == "Warning" && strContains e.Reason "FailedScheduling") = true
  · by_cases h2 : isFuseRelatedEvent e = true
    · simp [h1, h2]
    · simp [h1, h2]
  · simp [h1]

theorem fuse_eventStep_noop (s : Acc) (e : Event) (h : eventMatches e = false) :
    eventStep s e = s := by
  unfold eventMatches at h
  unfold eventStep
  by_cases h1 : (e.Typ == "Warning" && strContains e.Reason "FailedScheduling") = true
  · have h2 : isFuseRelatedEvent e = false := by simpa [h1] using h
    simp [h1, h2]
  · simp [h1]

/-- When an event matches, the fuse rule ends at the top tier whatever the pods
hold. -/
theorem fuse_scan_event (ctx : DiagnosticContext) (he : ctx.Events.any eventMatches = true) :
    (scan ctx).confidence = ConfidenceEventAndStatus := by
  unfold scan
  rw [foldl_conf_ite eventStep eventMatches ConfidenceEventAndStatus _
    (fun s e _ => fuse_eventStep_confidence s e), he]
  rfl

theorem fuse_scan_bare (ctx : DiagnosticContext) (hr : reasonsEmpty ctx = true)
    (he : ctx.Events.any eventMatches = false) :
    (scan ctx).confidence = ConfidenceConditionOnly := by
  unfold scan
  rw [foldl_conf_ite eventStep eventMatches ConfidenceEventAndStatus _
    (fun s e _ => fuse_eventStep_confidence s e), he]
  unfold reasonsEmpty at hr
  rw [List.all_eq_true] at hr
  exact foldl_preserves_mem (fun (t : Acc) => t.confidence = ConfidenceConditionOnly) _ _
    (fun t e hmem ht => (fuse_podStep_bare t e (hr e hmem)).trans ht) Acc.init rfl

theorem fuse_condStep_noop (name : String) (pod : PodInfo) (s : Acc) (c : Condition)
    (h : (c.Typ == "PodScheduled" && c.Status == "False") = false) :
    condStep name pod s c = s := by
  unfold condStep
  simp [h]

theorem fuse_podStep_noop (s : Acc) (e : String × PodInfo)
    (h : (isFusePod e.2 && e.2.Status == "Pending" && e.2.Conditions.any
      (fun cond => cond.Typ == "PodScheduled" && cond.Status == "False")) = false) :
    podStep s e = s := by
  unfold podStep
  split_ifs with h1 h2
  · rfl
  · have hf : isFusePod e.2 = true := by simpa using h1
    have hany : e.2.Conditions.any
        (fun cond => cond.Typ == "PodScheduled" && cond.Status == "False") = false := by
      simpa [hf, h2] using h
    rw [List.any_eq_false] at hany
    exact foldl_noop _ _ (fun t c hc => fuse_condStep_noop e.1 e.2 t c (by simpa using hany c hc)) s
  · rfl

/-- A snapshot the fuse rule does not match leaves both local variables of
`Hypothesis` at their initial values. -/
theorem fuse_scan_unmatched (ctx : DiagnosticContext) (hm : Match ctx = false) :
    scan ctx = Acc.init := by
  unfold Match at hm
  split_ifs at hm with hp he
  have hp' : ctx.Graph.Pods.any (fun entry =>
      isFusePod entry.2 && entry.2.Status == "Pending"
        && entry.2.Conditions.any
            (fun cond => cond.Typ == "PodScheduled" && cond.Status == "False")) = false := by
    simpa using hp
  have he' : ctx.Events.any eventMatches = false := by
    simpa [eventMatches] using he
  rw [List.any_eq_false] at hp' he'
  unfold scan
  rw [foldl_noop podStep _ (fun t e hmem => fuse_podStep_noop t e (by simpa using hp' e hmem))]
  exact foldl_noop eventStep _ (fun t e hmem => fuse_eventStep_noop t e (by simpa using he' e hmem)) _

/-- A `Pending` pod labelled `role=fuse` with a `PodScheduled=False` condition
makes the fuse rule match. -/
theorem fuse_match_of_pod (ctx : DiagnosticContext) (entry : String × PodInfo)
    (hmem : entry ∈ ctx.Graph.Pods) (hlabel : entry.2.Labels.lookup "role" = some "fuse")
    (hstatus : entry.2.Status = "Pending") (c : Condition) (hc : c ∈ entry.2.Conditions)
    (htyp : c.Typ = "PodScheduled") (hfalse : c.Status = "False") :
    Match ctx = true := by
  have hf : isFusePod entry.2 = true := by
    unfold isFusePod
    simp [hlabel]
  have hany : ctx.Graph.Pods.any (fun entry =>
      isFusePod entry.2 && entry.2.Status == "Pending"
        && entry.2.Conditions.any
            (fun cond => cond.Typ == "PodScheduled" && cond.Status == "False")) = true := by
    rw [List.any_eq_true]
    refine ⟨entry, hmem, ?_⟩
    simp only [hf, hstatus, Bool.true_and, beq_self_eq_true, List.any_eq_true]
    exact ⟨c, hc, by simp [htyp, hfalse]⟩
  unfold Match
  rw [if_pos hany]

end FuseUnschedulableRule

/-! ## worker.go: the unmatched case -/

namespace WorkerPendingMemoryRule

theorem worker_condStep_noop (name : String) (pod : PodInfo) (s : Acc) (c : Condition)
    (h : (c.Typ == "PodScheduled" && c.Status == "False"
      && (strContains (strToLower c.Message) "memory"
          || strContains (strToLower c.Message) "insufficient")) = false) :
    condStep name pod s c = s := by
  unfold condStep
  by_cases h1 : (c.Typ == "PodScheduled" && c.Status == "False") = true
  · have h2 : (strContains (strToLower c.Message) "memory"
        || strContains (strToLower c.Message) "insufficient") = false := by
      simpa [h1] using h
    simp [h1, h2]
  · simp [h1]

theorem worker_podStep_noop (s : Acc) (e : String × PodInfo)
    (h : (isWorkerPod e.2 && e.2.Status == "Pending" && e.2.Conditions.any
      (fun cond => cond.Typ == "PodScheduled" && cond.Status == "False"
        && (strContains (strToLower cond.Message) "memory"
            || strContains (strToLower cond.Message) "insufficient"))) = false) :
    podStep s e = s := by
  unfold podStep
  split_ifs with h1 h2
  · rfl
  · have hf : isWorkerPod e.2 = true := by simpa using h1
    have hany : e.2.Conditions.any
        (fun cond => cond.Typ == "PodScheduled" && cond.Status == "False"
          && (strContains (strToLower cond.Message) "memory"
              || strContains (strToLower cond.Message) "insufficient")) = false := by
      simpa only [hf, h2, Bool.true_and] using h
    rw [List.any_eq_false] at hany
    exact foldl_noop _ _
      (fun t c hc => worker_condStep_noop e.1 e.2 t c (by simpa using hany c hc)) s
  · rfl

theorem worker_eventStep_confidence (s : Acc) (e : Event) :
    (eventStep s e).confidence
      = if eventMatches e then ConfidenceEventAndStatus else s.confidence := by
  unfold eventStep eventMatches
  by_cases h1 : (e.Typ == "Warning" && e.Reason == "FailedScheduling") = true
  · by_cases h2 : (isWorkerRelatedEvent e
        && strContains (strToLower e.Message) "memory") = true
    · simp [h1, h2]
    · simp [h1, h2]
  · simp [h1]

theorem worker_eventStep_noop (s : Acc) (e : Event) (h : eventMatches e = false) :
    eventStep s e = s := by
  unfold eventMatches at h
  unfold eventStep
  by_cases h1 : (e.Typ == "Warning" && e.Reason == "FailedScheduling") = true
  · have h2 : (isWorkerRelatedEvent e
        && strContains (strToLower e.Message) "memory") = false := by
      simpa [h1] using h
    simp [h1, h2]
  · simp [h1]

/-- When an event matches, the worker rule ends at the top tier whatever the
pods hold. -/
theorem worker_scan_event (ctx : DiagnosticContext)
    (he : ctx.Events.any eventMatches = true) :
    (scan ctx).confidence = ConfidenceEventAndStatus := by
  unfold scan
  rw [foldl_conf_ite eventStep eventMatches ConfidenceEventAndStatus _
    (fun s e _ => worker_eventStep_confidence s e), he]
  rfl

/-- A snapshot the worker rule does not match leaves both local variables of
`Hypothesis` at their initial values. -/
theorem worker_scan_unmatched (ctx : DiagnosticContext) (hm : Match ctx = false) :
    scan ctx = Acc.init := by
  unfold Match at hm
  split_ifs at hm with hp he
  have hp' : ctx.Graph.Pods.any (fun entry =>
      isWorkerPod entry.2 && entry.2.Status == "Pending"
        && entry.2.Conditions.any (fun cond =>
            cond.Typ == "PodScheduled" && cond.Status == "False"
              && (strContains (strToLower cond.Message) "memory"
                  || strContains (strToLower cond.Message) "insufficient"))) = false := by
    simpa using hp
  have he' : ctx.Events.any eventMatches = false := by
    simpa [eventMatches] using he
  rw [List.any_eq_false] at hp' he'
  unfold scan
  rw [foldl_noop podStep _ (fun t e hmem => worker_podStep_noop t e (by simpa using hp' e hmem))]
  exact foldl_noop eventStep _
    (fun t e hmem => worker_eventStep_noop t e (by simpa using he' e hmem)) _

/-- Without events and without a memory-related condition on a `Pending`
worker pod the worker rule does not match. -/
theorem worker_unmatched (ctx : DiagnosticContext) (hn : noMemoryCondition ctx = true)
    (he : ctx.Events = []) : Match ctx = false := by
  unfold noMemoryCondition at hn
  rw [List.all_eq_true] at hn
  have hp : ctx.Graph.Pods.any (fun entry =>
      isWorkerPod entry.2 && entry.2.Status == "Pending"
        && entry.2.Conditions.any (fun cond =>
            cond.Typ == "PodScheduled" && cond.Status == "False"
              && (strContains (strToLower cond.Message) "memory"
                  || strContains (strToLower cond.Message) "insufficient"))) = false := by
    rw [List.any_eq_false]
    intro e hmem
    have h := hn e hmem
    by_cases hw : (isWorkerPod e.2 && e.2.Status == "Pending") = true
    · have hall : e.2.Conditions.all (fun cond =>
          !(cond.Typ == "PodScheduled" && cond.Status == "False")
            || !(strContains (strToLower cond.Message) "memory"
                || strContains (strToLower cond.Message) "insufficient")) = true := by
        simpa [hw] using h
      rw [List.all_eq_true] at hall
      have hany : e.2.Conditions.any (fun cond =>
          cond.Typ == "PodScheduled" && cond.Status == "False"
            && (strContains (strToLower cond.Message) "memory"
                || strContains (strToLower cond.Message) "insufficient")) = false := by
        rw [List.any_eq_false]
        intro c hc
        have := hall c hc
        by_cases h1 : (c.Typ == "PodScheduled" && c.Status == "False") = true
        · simp only [h1, Bool.not_true, Bool.false_or, Bool.true_and] at this ⊢
          simpa using this
        · simp [h1]
      rw [hany]
      simp
    · have hw' : (isWorkerPod e.2 && e.2.Status == "Pending") = false := by simpa using hw
      rw [hw']
      simp
  unfold Match
  rw [he, hp]
  rfl

end WorkerPendingMemoryRule

/-! ## runtime.go: evidence lines, low tiers and the unmatched case -/

namespace RuntimePartiallyReadyRule

theorem runtime_masterStep_mem (name : String) (r : RuntimeInfo) (s : Acc) (line : String)
    (h : line ∈ s.evidence.toList) : line ∈ (masterStep name r s).evidence.toList := by
  unfold masterStep
  split_ifs
  · simp [Slice.toList_append, h]
  · exact h

theorem runtime_workerStep_mem (name : String) (r : RuntimeInfo) (s : Acc) (line : String)
    (h : line ∈ s.evidence.toList) : line ∈ (workerStep name r s).evidence.toList := by
  unfold workerStep
  split_ifs
  · simp [Slice.toList_append, h]
  · exact h

theorem runtime_condStep_mem (name : String) (r : RuntimeInfo) (s : Acc) (c : Condition)
    (line : String) (h : line ∈ s.evidence.toList) :
    line ∈ (condStep name r s c).evidence.toList := by
  unfold condStep
  split_ifs <;> simp [Slice.toList_append, h]

theorem runtime_runtimeStep_mem (s : Acc) (e : String × RuntimeInfo) (line : String)
    (h : line ∈ s.evidence.toList) : line ∈ (runtimeStep s e).evidence.toList := by
  unfold runtimeStep
  exact foldl_mem_mono _ line (fun t c ht => runtime_condStep_mem e.1 e.2 t c line ht) _ _
    (runtime_workerStep_mem e.1 e.2 _ line (runtime_masterStep_mem e.1 e.2 s line h))

/-- A runtime with a worker shortfall contributes its `Worker r/n ready` line. -/
theorem runtime_worker_line (ctx : DiagnosticContext) (e : String × RuntimeInfo)
    (hmem : e ∈ ctx.Graph.Runtimes) (hpos : e.2.WorkerReplicas > 0)
    (hlt : e.2.WorkerReady < e.2.WorkerReplicas) :
    ("Runtime " ++ e.2.Namespace ++ "/" ++ e.1 ++ ": Worker " ++ fmtInt e.2.WorkerReady
        ++ "/" ++ fmtInt e.2.WorkerReplicas ++ " ready")
      ∈ (scan ctx).evidence.toList := by
  unfold scan
  refine foldl_mem_of_step runtimeStep _ (fun s x h => runtime_runtimeStep_mem s x _ h)
    _ e hmem ?_ _
  intro s
  unfold runtimeStep
  refine foldl_mem_mono _ _ (fun t c ht => runtime_condStep_mem e.1 e.2 t c _ ht) _ _ ?_
  unfold workerStep
  simp [hpos, hlt, Slice.toList_append]

theorem runtime_match_of_shortfall (ctx : DiagnosticContext) (e : String × RuntimeInfo)
    (hmem : e ∈ ctx.Graph.Runtimes) (hpos : e.2.WorkerReplicas > 0)
    (hlt : e.2.WorkerReady < e.2.WorkerReplicas) : Match ctx = true := by
  unfold Match
  rw [List.any_eq_true]
  refine ⟨e, hmem, ?_⟩
  simp [hpos, hlt]

theorem runtime_masterStep_noop (name : String) (r : RuntimeInfo) (s : Acc)
    (h : (decide (r.MasterReplicas > 0) && decide (r.MasterReady < r.MasterReplicas)) = false) :
    masterStep name r s = s := by
  unfold masterStep
  rw [h]
  rfl

theorem runtime_workerStep_noop (name : String) (r : RuntimeInfo) (s : Acc)
    (h : (decide (r.WorkerReplicas > 0) && decide (r.WorkerReady < r.WorkerReplicas)) = false) :
    workerStep name r s = s := by
  unfold workerStep
  rw [h]
  rfl

theorem runtime_condStep_noop (name : String) (r : RuntimeInfo) (s : Acc) (c : Condition)
    (h : (c.Status == "False") = false) : condStep name r s c = s := by
  unfold condStep
  rw [h]
  rfl

theorem runtime_condStep_bare (name : String) (r : RuntimeInfo) (s : Acc) (c : Condition)
    (h : (!(c.Status == "False") || c.Reason == "") = true) :
    (condStep name r s c).confidence = s.confidence := by
  unfold condStep
  by_cases hc : (c.Status == "False") = true
  · have hr : c.Reason = "" := by simpa [hc] using h
    simp [hc, hr]
  · simp [hc]

theorem runtime_conds_bare (name : String) (r : RuntimeInfo) (s : Acc)
    (h : r.Conditions.all (fun cond => !(cond.Status == "False") || cond.Reason == "") = true) :
    (r.Conditions.foldl (condStep name r) s).confidence = s.confidence := by
  rw [List.all_eq_true] at h
  exact foldl_preserves_mem (fun (t : Acc) => t.confidence = s.confidence) _ _
    (fun t c hc ht => (runtime_condStep_bare name r t c (h c hc)).trans ht) s rfl

/-- With no named `False` condition the runtime rule stays below the top tier. -/
theorem runtime_scan_low (ctx : DiagnosticContext) (hr : reasonsEmpty ctx = true) :
    (scan ctx).confidence = ConfidencePodStatusOnly
      ∨ (scan ctx).confidence = ConfidenceConditionOnly := by
  unfold reasonsEmpty at hr
  rw [List.all_eq_true] at hr
  unfold scan
  refine foldl_preserves_mem
    (fun (t : Acc) => t.confidence = ConfidencePodStatusOnly
      ∨ t.confidence = ConfidenceConditionOnly) _ _ ?_ Acc.init (Or.inr rfl)
  intro t e hmem ht
  show (runtimeStep t e).confidence = _ ∨ (runtimeStep t e).confidence = _
  unfold runtimeStep
  rw [runtime_conds_bare e.1 e.2 _ (hr e hmem)]
  unfold workerStep masterStep
  split_ifs
  · exact Or.inl rfl
  · exact Or.inl rfl
  · exact Or.inl rfl
  · exact ht

/-- With no replica shortfall and no named `False` condition the runtime rule
keeps its initial confidence. -/
theorem runtime_scan_bare (ctx : DiagnosticContext) (hready : replicasReady ctx = true)
    (hr : reasonsEmpty ctx = true) : (scan ctx).confidence = ConfidenceConditionOnly := by
  unfold reasonsEmpty at hr
  unfold replicasReady at hready
  rw [List.all_eq_true] at hr hready
  unfold scan
  refine foldl_preserves_mem (fun (t : Acc) => t.confidence = ConfidenceConditionOnly) _ _ ?_
    Acc.init rfl
  intro t e hmem ht
  show (runtimeStep t e).confidence = _
  have h := hready e hmem
  simp only [Bool.and_eq_true, Bool.not_eq_true'] at h
  unfold runtimeStep
  rw [runtime_conds_bare e.1 e.2 _ (hr e hmem), runtime_masterStep_noop e.1 e.2 t h.1,
    runtime_workerStep_noop e.1 e.2 t h.2]
  exact ht

/-- A snapshot the runtime rule does not match, all of whose `False` conditions
have type `Ready`, leaves both local variables of `Hypothesis` at their initial
values. -/
theorem runtime_scan_unmatched (ctx : DiagnosticContext) (hm : Match ctx = false)
    (hready : falseOnlyReady ctx = true) : scan ctx = Acc.init := by
  unfold Match at hm
  unfold falseOnlyReady at hready
  rw [List.any_eq_false] at hm
  rw [List.all_eq_true] at hready
  unfold scan
  refine foldl_noop runtimeStep _ ?_ _
  intro t e hmem
  have h := hm e hmem
  have hall := hready e hmem
  rw [List.all_eq_true] at hall
  by_cases h1 : (decide (e.2.MasterReplicas > 0)
      && decide (e.2.MasterReady < e.2.MasterReplicas)) = true
  · rw [if_pos h1] at h
    exact absurd rfl h
  rw [if_neg h1] at h
  by_cases h2 : (decide (e.2.WorkerReplicas > 0)
      && decide (e.2.WorkerReady < e.2.WorkerReplicas)) = true
  · rw [if_pos h2] at h
    exact absurd rfl h
  rw [if_neg h2] at h
  have hany : e.2.Conditions.any (fun cond => cond.Status == "False" && cond.Typ == "Ready")
      = false := by simpa using h
  rw [List.any_eq_false] at hany
  unfold runtimeStep
  rw [runtime_masterStep_noop e.1 e.2 t (Bool.eq_false_iff.mpr h1),
    runtime_workerStep_noop e.1 e.2 t (Bool.eq_false_iff.mpr h2)]
  refine foldl_noop _ _ ?_ t
  intro u c hc
  apply runtime_condStep_noop
  have ha := hall c hc
  have hb := hany c hc
  by_cases hf : (c.Status == "False") = true
  · simp [hf] at ha hb
    exact absurd ha hb
  · simpa using hf

end RuntimePartiallyReadyRule

namespace PVCUnboundRule

/-- A snapshot the claim rule does not match yields no evidence line. -/
theorem pvc_scan_unmatched (ctx : DiagnosticContext) (hm : Match ctx = false) :
    (scan ctx).evidence.len = 0 := by
  unfold Match at hm
  by_cases hp : ctx.Graph.PVCs.any (fun entry =>
      entry.2.Status == "Pending" || entry.2.Status == "Lost") = true
  · rw [if_pos hp] at hm
    exact absurd hm (by decide)
  rw [if_neg hp] at hm
  by_cases he : ctx.Events.any (fun event =>
      event.Typ == "Warning" && event.InvolvedObject.Kind == "PersistentVolumeClaim"
        && (strContains event.Reason "ProvisioningFailed"
            || strContains event.Reason "FailedBinding")) = true
  · rw [if_pos he] at hm
    exact absurd hm (by decide)
  have hp' : ctx.Graph.PVCs.any claimMatches = false := Bool.eq_false_iff.mpr hp
  have he' : ctx.Events.any eventMatches = false := Bool.eq_false_iff.mpr he
  rw [List.any_eq_false] at hp' he'
  unfold Slice.len
  rw [pvc_scan_evidence_eq, List.length_append, pvc_flatMap_claimLines_length, List.length_map]
  have h1 : ctx.Graph.PVCs.countP claimMatches = 0 :=
    List.countP_eq_zero.mpr (fun e hmem => by simpa using hp' e hmem)
  have h2 : ctx.Events.filter eventMatches = [] :=
    List.filter_eq_nil_iff.mpr (fun e hmem => by simpa using he' e hmem)
  rw [h1, h2]
  rfl

end PVCUnboundRule

/-! ## storage.go: the dataset rule -/

namespace DatasetNotBoundRule

theorem dataset_statusStep_mem (name : String) (d : DatasetInfo) (s : Acc) (line : String)
    (h : line ∈ s.evidence.toList) : line ∈ (statusStep name d s).evidence.toList := by
  unfold statusStep
  split_ifs <;> simp [Slice.toList_append, h]

theorem dataset_condStep_mem (name : String) (d : DatasetInfo) (s : Acc) (c : Condition)
    (line : String) (h : line ∈ s.evidence.toList) :
    line ∈ (condStep name d s c).evidence.toList := by
  unfold condStep
  split_ifs <;> simp [Slice.toList_append, h]

theorem dataset_datasetStep_mem (s : Acc) (e : String × DatasetInfo) (line : String)
    (h : line ∈ s.evidence.toList) : line ∈ (datasetStep s e).evidence.toList := by
  unfold datasetStep
  exact foldl_mem_mono _ line (fun t c ht => dataset_condStep_mem e.1 e.2 t c line ht) _ _
    (dataset_statusStep_mem e.1 e.2 s line h)

/-- A dataset with the empty status contributes its `Status=<empty>` line. -/
theorem dataset_empty_line (ctx : DiagnosticContext) (e : String × DatasetInfo)
    (hmem : e ∈ ctx.Graph.Datasets) (hstatus : e.2.Status = "") :
    ("Dataset " ++ e.2.Namespace ++ "/" ++ e.1 ++ ": Status=" ++ "<empty>")
      ∈ (scan ctx).evidence.toList := by
  unfold scan
  refine foldl_mem_of_step datasetStep _ (fun s x h => dataset_datasetStep_mem s x _ h)
    _ e hmem ?_ _
  intro s
  unfold datasetStep
  refine foldl_mem_mono _ _ (fun t c ht => dataset_condStep_mem e.1 e.2 t c _ ht) _ _ ?_
  unfold statusStep
  simp [hstatus, Slice.toList_append]

theorem dataset_match_of_status (ctx : DiagnosticContext) (e : String × DatasetInfo)
    (hmem : e ∈ ctx.Graph.Datasets)
    (hstatus : (e.2.Status == "NotBound" || e.2.Status == "") = true) : Match ctx = true := by
  unfold Match
  rw [List.any_eq_true]
  exact ⟨e, hmem, by rw [if_pos hstatus]⟩

theorem dataset_statusStep_confidence (name : String) (d : DatasetInfo) (s : Acc) :
    (statusStep name d s).confidence
      = if d.Status == "NotBound" || d.Status == "" then ConfidencePodStatusOnly
        else s.confidence := by
  unfold statusStep
  split_ifs <;> rfl

theorem dataset_condStep_congr (name name' : String) (d d' : DatasetInfo) (s t : Acc)
    (c : Condition) (h : s.confidence = t.confidence) :
    (condStep name d s c).confidence = (condStep name' d' t c).confidence := by
  unfold condStep
  split_ifs <;> simp [h]

theorem dataset_conds_congr (name name' : String) (d d' : DatasetInfo) (cs : List Condition)
    (s t : Acc) (h : s.confidence = t.confidence) :
    (cs.foldl (condStep name d) s).confidence = (cs.foldl (condStep name' d') t).confidence := by
  induction cs generalizing s t with
  | nil => exact h
  | cons c cs ih => exact ih _ _ (dataset_condStep_congr name name' d d' s t c h)

/-- The confidence after one dataset depends on the confidence before it, on
whether the status is `NotBound` or empty, and on the conditions only. -/
theorem dataset_datasetStep_congr (s t : Acc) (e e' : String × DatasetInfo)
    (h : s.confidence = t.confidence)
    (hstatus : (e.2.Status == "NotBound" || e.2.Status == "")
      = (e'.2.Status == "NotBound" || e'.2.Status == ""))
    (hconds : e.2.Conditions = e'.2.Conditions) :
    (datasetStep s e).confidence = (datasetStep t e').confidence := by
  unfold datasetStep
  rw [hconds]
  apply dataset_conds_congr
  rw [dataset_statusStep_confidence, dataset_statusStep_confidence, hstatus, h]

theorem dataset_foldl_congr (xs : List (String × DatasetInfo)) (s t : Acc)
    (h : s.confidence = t.confidence) :
    (xs.foldl datasetStep s).confidence = (xs.foldl datasetStep t).confidence := by
  induction xs generalizing s t with
  | nil => exact h
  | cons x xs ih => exact ih _ _ (dataset_datasetStep_congr s t x x h rfl rfl)

/-- Replacing the empty status of one dataset by `NotBound` leaves the
confidence of the dataset rule unchanged. -/
theorem dataset_scan_replace (ctx : DiagnosticContext) (pre post : List (String × DatasetInfo))
    (k : String) (d : DatasetInfo) (hsplit : ctx.Graph.Datasets = pre ++ (k, d) :: post)
    (hstatus : d.Status = "") :
    (scan (withDatasets ctx (pre ++ (k, { d with Status := "NotBound" }) :: post))).confidence
      = (scan ctx).confidence := by
  unfold scan withDatasets
  simp only [hsplit, List.foldl_append, List.foldl_cons]
  apply dataset_foldl_congr
  apply dataset_datasetStep_congr _ _ _ _ rfl
  · simp [hstatus]
  · rfl

theorem dataset_condStep_bare (name : String) (d : DatasetInfo) (s : Acc) (c : Condition)
    (h : (!(c.Typ == "Ready" && c.Status == "False") || c.Reason == "") = true) :
    (condStep name d s c).confidence = s.confidence := by
  unfold condStep
  by_cases hc : (c.Typ == "Ready" && c.Status == "False") = true
  · have hr : c.Reason = "" := by simpa [hc] using h
    simp [hc, hr]
  · simp [hc]

theorem dataset_conds_bare (name : String) (d : DatasetInfo) (s : Acc)
    (h : d.Conditions.all (fun cond =>
      !(cond.Typ == "Ready" && cond.Status == "False") || cond.Reason == "") = true) :
    (d.Conditions.foldl (condStep name d) s).confidence = s.confidence := by
  rw [List.all_eq_true] at h
  exact foldl_preserves_mem (fun (t : Acc) => t.confidence = s.confidence) _ _
    (fun t c hc ht => (dataset_condStep_bare name d t c (h c hc)).trans ht) s rfl

/-- With no named `Ready=False` condition the dataset rule stays below the top
tier. -/
theorem dataset_scan_low (ctx : DiagnosticContext) (hr : reasonsEmpty ctx = true) :
    (scan ctx).confidence = ConfidencePodStatusOnly
      ∨ (scan ctx).confidence = ConfidenceConditionOnly := by
  unfold reasonsEmpty at hr
  rw [List.all_eq_true] at hr
  unfold scan
  refine foldl_preserves_mem
    (fun (t : Acc) => t.confidence = ConfidencePodStatusOnly
      ∨ t.confidence = ConfidenceConditionOnly) _ _ ?_ Acc.init (Or.inr rfl)
  intro t e hmem ht
  show (datasetStep t e).confidence = _ ∨ (datasetStep t e).confidence = _
  unfold datasetStep
  rw [dataset_conds_bare e.1 e.2 _ (hr e hmem), dataset_statusStep_confidence]
  split_ifs
  · exact Or.inl rfl
  · exact ht

/-- With no unbound dataset and no named `Ready=False` condition the dataset
rule keeps its initial confidence. -/
theorem dataset_scan_bare (ctx : DiagnosticContext) (hbound : noneUnbound ctx = true)
    (hr : reasonsEmpty ctx = true) : (scan ctx).confidence = ConfidenceConditionOnly := by
  unfold reasonsEmpty at hr
  unfold noneUnbound at hbound
  rw [List.all_eq_true] at hr hbound
  unfold scan
  refine foldl_preserves_mem (fun (t : Acc) => t.confidence = ConfidenceConditionOnly) _ _ ?_
    Acc.init rfl
  intro t e hmem ht
  show (datasetStep t e).confidence = _
  have h : (e.2.Status == "NotBound" || e.2.Status == "") = false := by
    simpa using hbound e hmem
  unfold datasetStep
  rw [dataset_conds_bare e.1 e.2 _ (hr e hmem), dataset_statusStep_confidence, h]
  exact ht

/-- A snapshot the dataset rule does not match leaves both local variables of
`Hypothesis` at their initial values. -/
theorem dataset_scan_unmatched (ctx : DiagnosticContext) (hm : Match ctx = false) :
    scan ctx = Acc.init := by
  unfold Match at hm
  rw [List.any_eq_false] at hm
  unfold scan
  refine foldl_noop datasetStep _ ?_ _
  intro t e hmem
  have h := hm e hmem
  by_cases h1 : (e.2.Status == "NotBound" || e.2.Status == "") = true
  · rw [if_pos h1] at h
    exact absurd rfl h
  rw [if_neg h1] at h
  have hany : e.2.Conditions.any (fun cond => cond.Typ == "Ready" && cond.Status == "False")
      = false := Bool.eq_false_iff.mpr h
  rw [List.any_eq_false] at hany
  unfold datasetStep
  have hs : statusStep e.1 e.2 t = t := by
    unfold statusStep
    rw [if_neg h1]
  rw [hs]
  refine foldl_noop _ _ ?_ t
  intro u c hc
  unfold condStep
  rw [if_neg (hany c hc)]

end DatasetNotBoundRule

/-! ## More on the engine -/

theorem foldl_reaches {β σ : Type} (P : σ → Prop) (step : σ → β → σ)
    (hkeep : ∀ s x, P s → P (step s x)) (xs : List β) (x : β) (hx : x ∈ xs)
    (hset : ∀ s, P (step s x)) (s : σ) : P (xs.foldl step s) := by
  induction xs generalizing s with
  | nil => simp at hx
  | cons y ys ih =>
    rw [List.foldl_cons]
    rcases List.mem_cons.mp hx with rfl | h
    · exact foldl_preserves P step hkeep ys _ (hset s)
    · exact ih h _

/-- A named `PodScheduled=False` condition on a `Pending` fuse pod puts the
fuse rule at the top tier. -/
theorem fuse_scan_named (ctx : DiagnosticContext) (entry : String × PodInfo)
    (hmem : entry ∈ ctx.Graph.Pods) (hfuse : isFusePod entry.2 = true)
    (hstatus : entry.2.Status = "Pending") (c : Condition) (hc : c ∈ entry.2.Conditions)
    (htyp : c.Typ = "PodScheduled") (hfalse : c.Status = "False") (hreason : c.Reason ≠ "") :
    (FuseUnschedulableRule.scan ctx).confidence = ConfidenceEventAndStatus := by
  have hcond : ∀ (n : String) (p : PodInfo) (s : Acc) (c : Condition),
      s.confidence = ConfidenceEventAndStatus →
      (FuseUnschedulableRule.condStep n p s c).confidence = ConfidenceEventAndStatus := by
    intro n p s c hs
    unfold FuseUnschedulableRule.condStep
    split_ifs
    · rfl
    · exact hs
    · exact hs
  have hpod : ∀ (s : Acc) (e : String × PodInfo), s.confidence = ConfidenceEventAndStatus →
      (FuseUnschedulableRule.podStep s e).confidence = ConfidenceEventAndStatus := by
    intro s e hs
    unfold FuseUnschedulableRule.podStep
    split_ifs
    · exact hs
    · exact foldl_preserves (fun (t : Acc) => t.confidence = ConfidenceEventAndStatus) _
        (hcond e.1 e.2) _ _ hs
    · exact hs
  have hevent : ∀ (s : Acc) (e : Event), s.confidence = ConfidenceEventAndStatus →
      (FuseUnschedulableRule.eventStep s e).confidence = ConfidenceEventAndStatus := by
    intro s e hs
    rw [FuseUnschedulableRule.fuse_eventStep_confidence]
    split_ifs
    · rfl
    · exact hs
  unfold FuseUnschedulableRule.scan
  refine foldl_preserves (fun (t : Acc) => t.confidence = ConfidenceEventAndStatus) _ hevent _ _ ?_
  refine foldl_reaches (fun (t : Acc) => t.confidence = ConfidenceEventAndStatus) _ hpod _
    entry hmem ?_ _
  intro s
  show (FuseUnschedulableRule.podStep s entry).confidence = ConfidenceEventAndStatus
  unfold FuseUnschedulableRule.podStep
  rw [if_neg (by simp [hfuse]), if_pos (by simp [hstatus])]
  refine foldl_reaches (fun (t : Acc) => t.confidence = ConfidenceEventAndStatus) _
    (hcond entry.1 entry.2) _ c hc ?_ _
  intro t
  show (FuseUnschedulableRule.condStep entry.1 entry.2 t c).confidence = _
  unfold FuseUnschedulableRule.condStep
  simp [htyp, hfalse, hreason]

theorem Analyze_components_perm (now : Nat) (ctx : DiagnosticContext) :
    ((Analyze now ctx).1.Hypotheses.toList.map (fun h => h.Component)).Perm
      ((allRules.filter (fun r => r.Match ctx)).map (fun r => (r.Hypothesis ctx).Component)) := by
  rw [Analyze_toList, assignRanksFrom_map (fun h => h.Component) (fun _ _ => rfl)]
  have h := (sliceStable_perm less (collect ctx).toList).map (fun h => h.Component)
  rw [collect_toList, List.map_map] at h
  rw [collect_toList]
  exact h

/-- No two hypotheses of a result share a component. -/
theorem Analyze_components_nodup (now : Nat) (ctx : DiagnosticContext) :
    ((Analyze now ctx).1.Hypotheses.toList.map (fun h => h.Component)).Nodup := by
  rw [(Analyze_components_perm now ctx).nodup_iff]
  have h := matching_components ctx allRules (List.Perm.refl _)
  rw [List.pairwise_map] at h
  exact List.Pairwise.map _ (fun _ _ hab => hab) h

/-- The hypothesis of a matching rule is in the result, up to its rank. -/
theorem Analyze_mem_of_match (now : Nat) (ctx : DiagnosticContext) (r : Rule)
    (hr : r ∈ allRules) (hm : r.Match ctx = true) :
    ∃ h ∈ (Analyze now ctx).1.Hypotheses.toList,
      withoutRank h = withoutRank (r.Hypothesis ctx) := by
  have hmem : withoutRank (r.Hypothesis ctx)
      ∈ (allRules.filter (fun r => r.Match ctx)).map (fun r => withoutRank (r.Hypothesis ctx)) :=
    List.mem_map.mpr ⟨r, List.mem_filter.mpr ⟨hr, by simpa using hm⟩, rfl⟩
  rw [← (Analyze_withoutRank_perm now ctx).mem_iff, List.mem_map] at hmem
  obtain ⟨h, hh, he⟩ := hmem
  exact ⟨h, hh, he⟩

theorem mem_allRules_fuse : (⟨FuseUnschedulableRule.ID, FuseUnschedulableRule.Match,
    FuseUnschedulableRule.Hypothesis⟩ : Rule) ∈ allRules := by
  simp [allRules]

theorem mem_allRules_runtime : (⟨RuntimePartiallyReadyRule.ID, RuntimePartiallyReadyRule.Match,
    RuntimePartiallyReadyRule.Hypothesis⟩ : Rule) ∈ allRules := by
  simp [allRules]

theorem mem_allRules_pvc : (⟨PVCUnboundRule.ID, PVCUnboundRule.Match,
    PVCUnboundRule.Hypothesis⟩ : Rule) ∈ allRules := by
  simp [allRules]

theorem mem_allRules_dataset : (⟨DatasetNotBoundRule.ID, DatasetNotBoundRule.Match,
    DatasetNotBoundRule.Hypothesis⟩ : Rule) ∈ allRules := by
  simp [allRules]

/-- A hypothesis of the result with component `Fuse` is the fuse rule's. -/
theorem Analyze_mem_fuse (now : Nat) (ctx : DiagnosticContext) (h : Hypothesis)
    (hh : h ∈ (Analyze now ctx).1.Hypotheses.toList) (hc : h.Component = "Fuse") :
    FuseUnschedulableRule.Match ctx = true
      ∧ withoutRank h = withoutRank (FuseUnschedulableRule.Hypothesis ctx) := by
  obtain ⟨r, hr, hm, he⟩ := Analyze_mem now ctx h hh
  have hcomp : (withoutRank h).Component = (withoutRank (r.Hypothesis ctx)).Component := by
    rw [he]
  change h.Component = (r.Hypothesis ctx).Component at hcomp
  rw [hc] at hcomp
  simp only [allRules, List.mem_cons, List.mem_singleton, List.not_mem_nil, or_false] at hr
  rcases hr with rfl | rfl | rfl | rfl | rfl
  · exact ⟨hm, he⟩
  · simp [FuseUnschedulableRule.Hypothesis, WorkerPendingMemoryRule.Hypothesis,
      RuntimePartiallyReadyRule.Hypothesis, PVCUnboundRule.Hypothesis,
      DatasetNotBoundRule.Hypothesis] at hcomp
  · simp [FuseUnschedulableRule.Hypothesis, WorkerPendingMemoryRule.Hypothesis,
      RuntimePartiallyReadyRule.Hypothesis, PVCUnboundRule.Hypothesis,
      DatasetNotBoundRule.Hypothesis] at hcomp
  · simp [FuseUnschedulableRule.Hypothesis, WorkerPendingMemoryRule.Hypothesis,
      RuntimePartiallyReadyRule.Hypothesis, PVCUnboundRule.Hypothesis,
      DatasetNotBoundRule.Hypothesis] at hcomp
  · simp [FuseUnschedulableRule.Hypothesis, WorkerPendingMemoryRule.Hypothesis,
      RuntimePartiallyReadyRule.Hypothesis, PVCUnboundRule.Hypothesis,
      DatasetNotBoundRule.Hypothesis] at hcomp

/-- A hypothesis of the result with component `Storage` is the claim rule's. -/
theorem Analyze_mem_storage (now : Nat) (ctx : DiagnosticContext) (h : Hypothesis)
    (hh : h ∈ (Analyze now ctx).1.Hypotheses.toList) (hc : h.Component = "Storage") :
    PVCUnboundRule.Match ctx = true
      ∧ withoutRank h = withoutRank (PVCUnboundRule.Hypothesis ctx) := by
  obtain ⟨r, hr, hm, he⟩ := Analyze_mem now ctx h hh
  have hcomp : (withoutRank h).Component = (withoutRank (r.Hypothesis ctx)).Component := by
    rw [he]
  change h.Component = (r.Hypothesis ctx).Component at hcomp
  rw [hc] at hcomp
  simp only [allRules, List.mem_cons, List.mem_singleton, List.not_mem_nil, or_false] at hr
  rcases hr with rfl | rfl | rfl | rfl | rfl
  · simp [FuseUnschedulableRule.Hypothesis, WorkerPendingMemoryRule.Hypothesis,
      RuntimePartiallyReadyRule.Hypothesis, PVCUnboundRule.Hypothesis,
      DatasetNotBoundRule.Hypothesis] at hcomp
  · simp [FuseUnschedulableRule.Hypothesis, WorkerPendingMemoryRule.Hypothesis,
      RuntimePartiallyReadyRule.Hypothesis, PVCUnboundRule.Hypothesis,
      DatasetNotBoundRule.Hypothesis] at hcomp
  · simp [FuseUnschedulableRule.Hypothesis, WorkerPendingMemoryRule.Hypothesis,
      RuntimePartiallyReadyRule.Hypothesis, PVCUnboundRule.Hypothesis,
      DatasetNotBoundRule.Hypothesis] at hcomp
  · exact ⟨hm, he⟩
  · simp [FuseUnschedulableRule.Hypothesis, WorkerPendingMemoryRule.Hypothesis,
      RuntimePartiallyReadyRule.Hypothesis, PVCUnboundRule.Hypothesis,
      DatasetNotBoundRule.Hypothesis] at hcomp

theorem low_tier_bounds (q : ℚ)
    (hq : q = ConfidencePodStatusOnly ∨ q = ConfidenceConditionOnly) :
    q ≤ ConfidencePodStatusOnly ∧ q ≠ ConfidenceEventAndStatus := by
  unfold ConfidencePodStatusOnly ConfidenceConditionOnly ConfidenceEventAndStatus at *
  rcases hq with h | h <;> subst h <;> constructor <;> norm_num

/-- Without events and without a named signal every rule stays below the top
tier. -/
theorem allRules_low (ctx : DiagnosticContext) (hevents : ctx.Events = [])
    (hfree : namedSignalFree ctx = true) (r : Rule) (hr : r ∈ allRules)
    (hm : r.Match ctx = true) :
    (r.Hypothesis ctx).Confidence = ConfidencePodStatusOnly
      ∨ (r.Hypothesis ctx).Confidence = ConfidenceConditionOnly := by
  unfold namedSignalFree at hfree
  simp only [Bool.and_eq_true] at hfree
  obtain ⟨⟨⟨⟨hfuse, hworker⟩, hruntime⟩, hpvc⟩, hdataset⟩ := hfree
  simp only [allRules, List.mem_cons, List.mem_singleton, List.not_mem_nil, or_false] at hr
  rcases hr with rfl | rfl | rfl | rfl | rfl
  · exact Or.inr (FuseUnschedulableRule.fuse_scan_bare ctx hfuse (by simp [hevents]))
  · have h := WorkerPendingMemoryRule.worker_unmatched ctx hworker hevents
    change WorkerPendingMemoryRule.Match ctx = true at hm
    rw [h] at hm
    exact absurd hm (by decide)
  · exact RuntimePartiallyReadyRule.runtime_scan_low ctx hruntime
  · have h := PVCUnboundRule.pvc_scan_confidence ctx hpvc
    change (PVCUnboundRule.scan ctx).confidence = _ ∨ (PVCUnboundRule.scan ctx).confidence = _
    rw [h]
    simp only [hevents, List.any_nil, Bool.false_eq_true, if_false]
    split_ifs
    · exact Or.inl rfl
    · exact Or.inr rfl
  · exact DatasetNotBoundRule.dataset_scan_low ctx hdataset

theorem empty_status_line (x : String) : x ++ ": Status=" ++ "<empty>" = x ++ ": Status=<empty>" := by
  rw [String.append_assoc]
  rfl

/-! ## What the rules read -/

theorem any_withoutPodEvents (f : String × PodInfo → Bool)
    (hf : ∀ e, f (withoutPodEvents e) = f e) (pods : List (String × PodInfo)) :
    (pods.map withoutPodEvents).any f = pods.any f := by
  rw [List.any_map]
  congr 1
  funext e
  exact hf e

theorem foldl_withoutPodEvents (step : Acc → String × PodInfo → Acc)
    (hstep : ∀ s e, step s (withoutPodEvents e) = step s e) (pods : List (String × PodInfo))
    (s : Acc) : (pods.map withoutPodEvents).foldl step s = pods.foldl step s := by
  rw [List.foldl_map]
  congr 1
  funext t e
  exact hstep t e

/-- Two snapshots that agree on what the rules read. -/
theorem allRules_congr (ctx ctx' : DiagnosticContext)
    (hpods : ctx.Graph.Pods.map withoutPodEvents = ctx'.Graph.Pods.map withoutPodEvents)
    (hpvcs : ctx.Graph.PVCs = ctx'.Graph.PVCs)
    (hdatasets : ctx.Graph.Datasets = ctx'.Graph.Datasets)
    (hruntimes : ctx.Graph.Runtimes = ctx'.Graph.Runtimes)
    (hevents : ctx.Events = ctx'.Events) (r : Rule) (hr : r ∈ allRules) :
    r.Match ctx = r.Match ctx' ∧ r.Hypothesis ctx = r.Hypothesis ctx' := by
  simp only [allRules, List.mem_cons, List.mem_singleton, List.not_mem_nil, or_false] at hr
  rcases hr with rfl | rfl | rfl | rfl | rfl
  · have hscan : FuseUnschedulableRule.scan ctx = FuseUnschedulableRule.scan ctx' := by
      unfold FuseUnschedulableRule.scan
      rw [← foldl_withoutPodEvents FuseUnschedulableRule.podStep (fun _ _ => rfl) ctx.Graph.Pods,
        ← foldl_withoutPodEvents FuseUnschedulableRule.podStep (fun _ _ => rfl) ctx'.Graph.Pods,
        hpods, hevents]
    constructor
    · show FuseUnschedulableRule.Match ctx = FuseUnschedulableRule.Match ctx'
      have hany : ∀ pods : List (String × PodInfo),
          pods.any (fun entry =>
            isFusePod entry.2 && entry.2.Status == "Pending"
              && entry.2.Conditions.any
                  (fun cond => cond.Typ == "PodScheduled" && cond.Status == "False"))
            = (pods.map withoutPodEvents).any (fun entry =>
              isFusePod entry.2 && entry.2.Status == "Pending"
                && entry.2.Conditions.any
                    (fun cond => cond.Typ == "PodScheduled" && cond.Status == "False")) :=
        fun pods => by
          rw [any_withoutPodEvents]
          intro e
          rfl
      unfold FuseUnschedulableRule.Match
      rw [hany ctx.Graph.Pods, hany ctx'.Graph.Pods, hpods, hevents]
    · show FuseUnschedulableRule.Hypothesis ctx = FuseUnschedulableRule.Hypothesis ctx'
      unfold FuseUnschedulableRule.Hypothesis
      rw [hscan]
  · have hscan : WorkerPendingMemoryRule.scan ctx = WorkerPendingMemoryRule.scan ctx' := by
      unfold WorkerPendingMemoryRule.scan
      rw [← foldl_withoutPodEvents WorkerPendingMemoryRule.podStep (fun _ _ => rfl)
          ctx.Graph.Pods,
        ← foldl_withoutPodEvents WorkerPendingMemoryRule.podStep (fun _ _ => rfl)
          ctx'.Graph.Pods,
        hpods, hevents]
    constructor
    · show WorkerPendingMemoryRule.Match ctx = WorkerPendingMemoryRule.Match ctx'
      have hany : ∀ pods : List (String × PodInfo),
          pods.any (fun entry =>
            isWorkerPod entry.2 && entry.2.Status == "Pending"
              && entry.2.Conditions.any (fun cond =>
                  cond.Typ == "PodScheduled" && cond.Status == "False"
                    && (strContains (strToLower cond.Message) "memory"
                        || strContains (strToLower cond.Message) "insufficient")))
            = (pods.map withoutPodEvents).any (fun entry =>
              isWorkerPod entry.2 && entry.2.Status == "Pending"
                && entry.2.Conditions.any (fun cond =>
                    cond.Typ == "PodScheduled" && cond.Status == "False"
                      && (strContains (strToLower cond.Message) "memory"
                          || strContains (strToLower cond.Message) "insufficient"))) :=
        fun pods => by
          rw [any_withoutPodEvents]
          intro e
          rfl
      unfold WorkerPendingMemoryRule.Match
      rw [hany ctx.Graph.Pods, hany ctx'.Graph.Pods, hpods, hevents]
    · show WorkerPendingMemoryRule.Hypothesis ctx = WorkerPendingMemoryRule.Hypothesis ctx'
      unfold WorkerPendingMemoryRule.Hypothesis
      rw [hscan]
  · constructor
    · show RuntimePartiallyReadyRule.Match ctx = RuntimePartiallyReadyRule.Match ctx'
      unfold RuntimePartiallyReadyRule.Match
      rw [hruntimes]
    · show RuntimePartiallyReadyRule.Hypothesis ctx = RuntimePartiallyReadyRule.Hypothesis ctx'
      unfold RuntimePartiallyReadyRule.Hypothesis RuntimePartiallyReadyRule.scan
      rw [hruntimes]
  · constructor
    · show PVCUnboundRule.Match ctx = PVCUnboundRule.Match ctx'
      unfold PVCUnboundRule.Match
      rw [hpvcs, hevents]
    · show PVCUnboundRule.Hypothesis ctx = PVCUnboundRule.Hypothesis ctx'
      unfold PVCUnboundRule.Hypothesis PVCUnboundRule.scan
      rw [hpvcs, hevents]
  · constructor
    · show DatasetNotBoundRule.Match ctx = DatasetNotBoundRule.Match ctx'
      unfold DatasetNotBoundRule.Match
      rw [hdatasets]
    · show DatasetNotBoundRule.Hypothesis ctx = DatasetNotBoundRule.Hypothesis ctx'
      unfold DatasetNotBoundRule.Hypothesis DatasetNotBoundRule.scan
      rw [hdatasets]

theorem foldl_applyRule_congr (ctx ctx' : DiagnosticContext) (rules : List Rule)
    (h : ∀ r ∈ rules, r.Match ctx = r.Match ctx' ∧ r.Hypothesis ctx = r.Hypothesis ctx')
    (s : Slice Hypothesis) :
    rules.foldl (applyRule ctx) s = rules.foldl (applyRule ctx') s := by
  induction rules generalizing s with
  | nil => rfl
  | cons r rs ih =>
    have hr := h r (List.mem_cons_self _ _)
    have hstep : applyRule ctx s r = applyRule ctx' s r := by
      unfold applyRule
      rw [hr.1, hr.2]
    rw [List.foldl_cons, List.foldl_cons, hstep]
    exact ih (fun r' hr' => h r' (List.mem_cons_of_mem _ hr')) _

theorem Analyze_congr (now : Nat) (ctx ctx' : DiagnosticContext)
    (h : ∀ r ∈ allRules, r.Match ctx = r.Match ctx' ∧ r.Hypothesis ctx = r.Hypothesis ctx') :
    Analyze now ctx = Analyze now ctx' := by
  have hc : collect ctx = collect ctx' := foldl_applyRule_congr ctx ctx' allRules h Slice.nil
  unfold Analyze
  rw [hc]

/-! ## The engine with checked index expressions -/

theorem indexAt_append {α : Type} (pre : List α) (x : α) (post : List α) :
    indexAt (pre ++ x :: post) pre.length = Except.ok x := by
  have h : (pre ++ x :: post)[pre.length]? = some x := by
    rw [List.getElem?_append_right (le_refl _)]
    simp
  unfold indexAt
  rw [h]

theorem indexAt_append_succ {α : Type} (pre : List α) (x y : α) (post : List α) :
    indexAt (pre ++ x :: y :: post) (pre.length + 1) = Except.ok y := by
  have h := indexAt_append (pre ++ [x]) y post
  simpa using h

theorem set_append_length {α : Type} (pre : List α) (x v : α) (post : List α) :
    (pre ++ x :: post).set pre.length v = pre ++ v :: post := by
  simp

theorem set_append_succ {α : Type} (pre : List α) (x y v : α) (post : List α) :
    (pre ++ x :: y :: post).set (pre.length + 1) v = pre ++ x :: v :: post := by
  simp

theorem lessAt_append (pre : List Hypothesis) (y x : Hypothesis) (post : List Hypothesis) :
    lessAt (pre ++ y :: x :: post) (pre.length + 1) pre.length = Except.ok (less x y) := by
  unfold lessAt
  rw [indexAt_append_succ, indexAt_append]

theorem swapAt_append (pre : List Hypothesis) (y x : Hypothesis) (post : List Hypothesis) :
    swapAt (pre ++ y :: x :: post) (pre.length + 1) pre.length
      = Except.ok (pre ++ x :: y :: post) := by
  unfold swapAt
  rw [indexAt_append_succ, indexAt_append]
  simp only [set_append_succ, set_append_length]

/-- The index-based inner loop moves the element at position `j` left exactly
as `bubbleLeft` does on the reversed prefix. -/
theorem insertAt_eq (ys : List Hypothesis) (x : Hypothesis) (tail : List Hypothesis) :
    insertAt (ys.reverse ++ x :: tail) ys.length
      = Except.ok ((bubbleLeft less x ys).reverse ++ tail) := by
  induction ys generalizing tail with
  | nil => rfl
  | cons y ys ih =>
    have hl : (y :: ys).length = ys.reverse.length + 1 := by simp
    have hlist : (y :: ys).reverse ++ x :: tail = ys.reverse ++ y :: x :: tail := by simp
    rw [hl, hlist]
    unfold insertAt
    rw [lessAt_append]
    by_cases hlt : less x y = true
    · simp only [hlt, swapAt_append]
      have := ih (y :: tail)
      rw [List.length_reverse]
      rw [this]
      simp [bubbleLeft, hlt]
    · have hf : less x y = false := by simpa using hlt
      simp only [hf]
      simp [bubbleLeft, hf]

theorem insertionSortFrom_eq (sortedRev rest : List Hypothesis) :
    insertionSortFrom (sortedRev.reverse ++ rest) sortedRev.length rest.length
      = Except.ok (rest.foldl (fun acc x => bubbleLeft less x acc) sortedRev).reverse := by
  induction rest generalizing sortedRev with
  | nil => simp [insertionSortFrom]
  | cons x rest ih =>
    simp only [List.length_cons, insertionSortFrom, insertAt_eq, List.foldl_cons]
    have hlen : sortedRev.length + 1 = (bubbleLeft less x sortedRev).length := by
      have := (bubbleLeft_perm less x sortedRev).length_eq
      simpa using this.symm
    rw [hlen]
    exact ih _

theorem sliceStableChecked_eq (l : List Hypothesis) :
    sliceStableChecked l = Except.ok (sliceStable less l) := by
  unfold sliceStableChecked sliceStable
  cases l with
  | nil => rfl
  | cons x rest =>
    have h := insertionSortFrom_eq [x] rest
    simpa [bubbleLeft] using h

theorem setRankAt_append (pre : List Hypothesis) (h : Hypothesis) (post : List Hypothesis) :
    setRankAt (pre ++ h :: post) pre.length
      = Except.ok (pre ++ { h with Rank := (pre.length : Int) + 1 } :: post) := by
  unfold setRankAt
  rw [indexAt_append]
  simp only [set_append_length]

theorem assignRanksChecked_eq (pre rest : List Hypothesis) :
    assignRanksChecked (pre ++ rest) pre.length rest.length
      = Except.ok (pre ++ assignRanksFrom pre.length rest) := by
  induction rest generalizing pre with
  | nil => simp [assignRanksChecked, assignRanksFrom]
  | cons h rest ih =>
    simp only [List.length_cons, assignRanksChecked, setRankAt_append, assignRanksFrom]
    have := ih (pre ++ [{ h with Rank := (pre.length : Int) + 1 }])
    simp only [List.append_assoc, List.singleton_append, List.length_append, List.length_singleton] at this
    exact this

theorem AnalyzeChecked_eq (now : Nat) (ctx : DiagnosticContext) :
    AnalyzeChecked now ctx = Except.ok (Analyze now ctx) := by
  unfold AnalyzeChecked Analyze
  cases collect ctx with
  | nil => rfl
  | mk l =>
    simp only [Slice.updateChecked, Slice.update, sliceStableChecked_eq]
    have h := assignRanksChecked_eq [] (sliceStable less l)
    simp only [List.nil_append, List.length_nil] at h
    rw [h]

/-! ## Absent data -/

/-- On a snapshot without pods, claims, datasets, runtimes and events no rule
matches and every rule leaves its evidence slice nil. -/
theorem allRules_absent (ctx : DiagnosticContext) (hpods : ctx.Graph.Pods = [])
    (hpvcs : ctx.Graph.PVCs = []) (hdatasets : ctx.Graph.Datasets = [])
    (hruntimes : ctx.Graph.Runtimes = []) (hevents : ctx.Events = []) (r : Rule)
    (hr : r ∈ allRules) :
    r.Match ctx = false ∧ (r.Hypothesis ctx).Evidence = Slice.nil ∧
      (r.Hypothesis ctx).Confidence = ConfidenceConditionOnly := by
  simp only [allRules, List.mem_cons, List.mem_singleton, List.not_mem_nil, or_false] at hr
  rcases hr with rfl | rfl | rfl | rfl | rfl
  · simp [FuseUnschedulableRule.Match, FuseUnschedulableRule.Hypothesis,
      FuseUnschedulableRule.scan, hpods, hevents, Acc.init]
  · simp [WorkerPendingMemoryRule.Match, WorkerPendingMemoryRule.Hypothesis,
      WorkerPendingMemoryRule.scan, hpods, hevents, Acc.init]
  · simp [RuntimePartiallyReadyRule.Match, RuntimePartiallyReadyRule.Hypothesis,
      RuntimePartiallyReadyRule.scan, hruntimes, Acc.init]
  · simp [PVCUnboundRule.Match, PVCUnboundRule.Hypothesis,
      PVCUnboundRule.scan, hpvcs, hevents, Acc.init]
  · simp [DatasetNotBoundRule.Match, DatasetNotBoundRule.Hypothesis,
      DatasetNotBoundRule.scan, hdatasets, Acc.init]

theorem collect_unmatched (ctx : DiagnosticContext)
    (h : ∀ r ∈ allRules, r.Match ctx = false) : collect ctx = Slice.nil := by
  unfold collect
  apply foldl_noop
  intro s r hr
  unfold applyRule
  rw [h r hr]
  rfl

theorem Analyze_unmatched (now : Nat) (ctx : DiagnosticContext)
    (h : ∀ r ∈ allRules, r.Match ctx = false) :
    (Analyze now ctx).1.Hypotheses = Slice.nil := by
  unfold Analyze
  simp only [collect_unmatched ctx h]
  rfl

/-- Pods without conditions, and no events: neither pod rule matches. -/
theorem pods_without_conditions (ctx : DiagnosticContext)
    (hconds : ∀ e ∈ ctx.Graph.Pods, e.2.Conditions = []) (hevents : ctx.Events = []) :
    FuseUnschedulableRule.Match ctx = false ∧ WorkerPendingMemoryRule.Match ctx = false := by
  have h1 : ctx.Graph.Pods.any (fun entry =>
      isFusePod entry.2 && entry.2.Status == "Pending"
        && entry.2.Conditions.any
            (fun cond => cond.Typ == "PodScheduled" && cond.Status == "False")) = false := by
    rw [List.any_eq_false]
    intro e he
    simp [hconds e he]
  have h2 : ctx.Graph.Pods.any (fun entry =>
      isWorkerPod entry.2 && entry.2.Status == "Pending"
        && entry.2.Conditions.any (fun cond =>
            cond.Typ == "PodScheduled" && cond.Status == "False"
              && (strContains (strToLower cond.Message) "memory"
                  || strContains (strToLower cond.Message) "insufficient"))) = false := by
    rw [List.any_eq_false]
    intro e he
    simp [hconds e he]
  constructor
  · unfold FuseUnschedulableRule.Match
    rw [h1, hevents]
    rfl
  · unfold WorkerPendingMemoryRule.Match
    rw [h2, hevents]
    rfl

/-- Runtimes with zero replica counts and no conditions: the runtime rule does
not match. -/
theorem runtimes_zero_valued (ctx : DiagnosticContext)
    (hzero : ∀ e ∈ ctx.Graph.Runtimes,
      e.2.MasterReplicas = 0 ∧ e.2.WorkerReplicas = 0 ∧ e.2.Conditions = []) :
    RuntimePartiallyReadyRule.Match ctx = false := by
  unfold RuntimePartiallyReadyRule.Match
  rw [List.any_eq_false]
  intro e he
  obtain ⟨h1, h2, h3⟩ := hzero e he
  simp [h1, h2, h3]

/-! ## Where the evidence lines come from -/

theorem flatMap_congr_mem {β γ : Type} (f g : β → List γ) (xs : List β)
    (h : ∀ x ∈ xs, f x = g x) : xs.flatMap f = xs.flatMap g := by
  induction xs with
  | nil => rfl
  | cons x xs ih =>
    rw [List.flatMap_cons, List.flatMap_cons, h x (List.mem_cons_self _ _),
      ih (fun y hy => h y (List.mem_cons_of_mem _ hy))]

theorem filter_congr_mem {β : Type} (p q : β → Bool) (xs : List β)
    (h : ∀ x ∈ xs, p x = q x) : xs.filter p = xs.filter q := by
  induction xs with
  | nil => rfl
  | cons x xs ih =>
    rw [List.filter_cons, List.filter_cons, h x (List.mem_cons_self _ _),
      ih (fun y hy => h y (List.mem_cons_of_mem _ hy))]

namespace FuseUnschedulableRule

theorem fuse_condStep_evidence (name : String) (pod : PodInfo) (s : Acc) (c : Condition) :
    (condStep name pod s c).evidence.toList
      = s.evidence.toList ++ (if condMatches c then [condLine name pod c] else []) := by
  unfold condStep condMatches condLine
  by_cases h1 : (c.Typ == "PodScheduled" && c.Status == "False") = true
  · by_cases h2 : c.Reason = ""
    · simp [h1, h2, Slice.toList_append]
    · simp [h1, h2, Slice.toList_append]
  · simp [h1]

theorem fuse_podStep_evidence (s : Acc) (e : String × PodInfo) :
    (podStep s e).evidence.toList = s.evidence.toList ++ podLines e := by
  unfold podStep podLines podMatches
  by_cases h1 : isFusePod e.2 = true
  · by_cases h2 : (e.2.Status == "Pending") = true
    · simp only [h1, h2, Bool.not_true, Bool.false_eq_true, if_false, if_true, Bool.and_self]
      rw [foldl_evidence (condStep e.1 e.2) _ (fuse_condStep_evidence e.1 e.2),
        flatMap_ite_singleton]
    · simp [h1, h2]
  · simp [h1]

theorem fuse_eventStep_evidence (s : Acc) (e : Event) :
    (eventStep s e).evidence.toList
      = s.evidence.toList ++ (if eventMatches e then [eventLine e] else []) := by
  unfold eventStep eventMatches eventLine
  by_cases h1 : (e.Typ == "Warning" && strContains e.Reason "FailedScheduling") = true
  · by_cases h2 : isFuseRelatedEvent e = true
    · simp [h1, h2, Slice.toList_append]
    · simp [h1, h2]
  · simp [h1]

theorem fuse_scan_evidence_eq (ctx : DiagnosticContext) :
    (scan ctx).evidence.toList
      = ctx.Graph.Pods.flatMap podLines ++ (ctx.Events.filter eventMatches).map eventLine := by
  unfold scan
  rw [foldl_evidence eventStep _ fuse_eventStep_evidence,
    foldl_evidence podStep _ fuse_podStep_evidence, flatMap_ite_singleton]
  rfl

theorem fuse_match_eq (ctx : DiagnosticContext) :
    Match ctx = (ctx.Graph.Pods.any (fun e => podMatches e && e.2.Conditions.any condMatches)
      || ctx.Events.any eventMatches) := by
  unfold Match
  have h1 : (fun (entry : String × PodInfo) =>
      isFusePod entry.2 && entry.2.Status == "Pending"
        && entry.2.Conditions.any
            (fun cond => cond.Typ == "PodScheduled" && cond.Status == "False"))
      = (fun e => podMatches e && e.2.Conditions.any condMatches) := rfl
  have h2 : (fun (event : Event) =>
      event.Typ == "Warning" && strContains event.Reason "FailedScheduling"
        && isFuseRelatedEvent event) = eventMatches := rfl
  rw [h1, h2]
  cases ctx.Graph.Pods.any (fun e => podMatches e && e.2.Conditions.any condMatches) <;>
    cases ctx.Events.any eventMatches <;> rfl

end FuseUnschedulableRule

namespace WorkerPendingMemoryRule

theorem worker_condStep_evidence (name : String) (pod : PodInfo) (s : Acc) (c : Condition) :
    (condStep name pod s c).evidence.toList
      = s.evidence.toList ++ (if condMatches c then [condLine name pod c] else []) := by
  unfold condStep condMatches condLine
  by_cases h1 : (c.Typ == "PodScheduled" && c.Status == "False") = true
  · by_cases h2 : (strContains (strToLower c.Message) "memory"
        || strContains (strToLower c.Message) "insufficient") = true
    · simp [h1, h2, Slice.toList_append]
    · simp [h1, h2]
  · simp [h1]

theorem worker_podStep_evidence (s : Acc) (e : String × PodInfo) :
    (podStep s e).evidence.toList = s.evidence.toList ++ podLines e := by
  unfold podStep podLines podMatches
  by_cases h1 : isWorkerPod e.2 = true
  · by_cases h2 : (e.2.Status == "Pending") = true
    · simp only [h1, h2, Bool.not_true, Bool.false_eq_true, if_false, if_true, Bool.and_self]
      rw [foldl_evidence (condStep e.1 e.2) _ (worker_condStep_evidence e.1 e.2),
        flatMap_ite_singleton]
    · simp [h1, h2]
  · simp [h1]

theorem worker_eventStep_evidence (s : Acc) (e : Event) :
    (eventStep s e).evidence.toList
      = s.evidence.toList ++ (if eventMatches e then [eventLine e] else []) := by
  unfold eventStep eventMatches eventLine
  by_cases h1 : (e.Typ == "Warning" && e.Reason == "FailedScheduling") = true
  · by_cases h2 : (isWorkerRelatedEvent e && strContains (strToLower e.Message) "memory") = true
    · simp [h1, h2, Slice.toList_append]
    · simp [h1, h2]
  · simp [h1]

theorem worker_scan_evidence_eq (ctx : DiagnosticContext) :
    (scan ctx).evidence.toList
      = ctx.Graph.Pods.flatMap podLines ++ (ctx.Events.filter eventMatches).map eventLine := by
  unfold scan
  rw [foldl_evidence eventStep _ worker_eventStep_evidence,
    foldl_evidence podStep _ worker_podStep_evidence, flatMap_ite_singleton]
  rfl

theorem worker_match_eq (ctx : DiagnosticContext) :
    Match ctx = (ctx.Graph.Pods.any (fun e => podMatches e && e.2.Conditions.any condMatches)
      || ctx.Events.any eventMatches) := by
  unfold Match
  have h1 : (fun (entry : String × PodInfo) =>
      isWorkerPod entry.2 && entry.2.Status == "Pending"
        && entry.2.Conditions.any (fun cond =>
            cond.Typ == "PodScheduled" && cond.Status == "False"
              && (strContains (strToLower cond.Message) "memory"
                  || strContains (strToLower cond.Message) "insufficient")))
      = (fun e => podMatches e && e.2.Conditions.any condMatches) := rfl
  have h2 : (fun (event : Event) =>
      event.Typ == "Warning" && event.Reason == "FailedScheduling"
        && (isWorkerRelatedEvent event
            && strContains (strToLower event.Message) "memory")) = eventMatches := rfl
  rw [h1, h2]
  cases ctx.Graph.Pods.any (fun e => podMatches e && e.2.Conditions.any condMatches) <;>
    cases ctx.Events.any eventMatches <;> rfl

end WorkerPendingMemoryRule

namespace RuntimePartiallyReadyRule

theorem runtime_masterStep_evidence (s : Acc) (e : String × RuntimeInfo) :
    (masterStep e.1 e.2 s).evidence.toList
      = s.evidence.toList ++ (if masterShort e then [masterLine e] else []) := by
  unfold masterStep masterShort masterLine
  split_ifs <;> simp [Slice.toList_append]

theorem runtime_workerStep_evidence (s : Acc) (e : String × RuntimeInfo) :
    (workerStep e.1 e.2 s).evidence.toList
      = s.evidence.toList ++ (if workerShort e then [workerLine e] else []) := by
  unfold workerStep workerShort workerLine
  split_ifs <;> simp [Slice.toList_append]

theorem runtime_condStep_evidence (name : String) (r : RuntimeInfo) (s : Acc) (c : Condition) :
    (condStep name r s c).evidence.toList
      = s.evidence.toList ++ (if condListed c then [condLine name r c] else []) := by
  unfold condStep condListed condLine
  by_cases h1 : (c.Status == "False") = true
  · by_cases h2 : c.Reason = ""
    · simp [h1, h2, Slice.toList_append]
    · simp [h1, h2, Slice.toList_append]
  · simp [h1]

theorem runtime_runtimeStep_evidence (s : Acc) (e : String × RuntimeInfo) :
    (runtimeStep s e).evidence.toList = s.evidence.toList ++ runtimeLines e := by
  unfold runtimeStep runtimeLines
  rw [foldl_evidence (condStep e.1 e.2) _ (runtime_condStep_evidence e.1 e.2),
    runtime_workerStep_evidence, runtime_masterStep_evidence, flatMap_ite_singleton]
  simp only [List.append_assoc]

theorem runtime_scan_evidence_eq (ctx : DiagnosticContext) :
    (scan ctx).evidence.toList = ctx.Graph.Runtimes.flatMap runtimeLines := by
  unfold scan
  rw [foldl_evidence runtimeStep _ runtime_runtimeStep_evidence]
  rfl

theorem runtime_match_eq (ctx : DiagnosticContext) :
    Match ctx = ctx.Graph.Runtimes.any (fun e =>
      masterShort e || workerShort e || e.2.Conditions.any condAccepted) := by
  unfold Match
  congr 1
  funext e
  have h : (fun (cond : Condition) => cond.Status == "False" && cond.Typ == "Ready")
      = condAccepted := rfl
  rw [h]
  unfold masterShort workerShort
  cases (decide (e.2.MasterReplicas > 0) && decide (e.2.MasterReady < e.2.MasterReplicas)) <;>
    cases (decide (e.2.WorkerReplicas > 0)
      && decide (e.2.WorkerReady < e.2.WorkerReplicas)) <;> rfl

/-- On a snapshot the runtime rule does not match its evidence is the lines of
the `False` conditions whose type is not `Ready`. -/
theorem runtime_scan_unmatched_lines (ctx : DiagnosticContext) (hm : Match ctx = false) :
    (scan ctx).evidence.toList
      = ctx.Graph.Runtimes.flatMap (fun e =>
          (e.2.Conditions.filter (fun c => condListed c && !(c.Typ == "Ready"))).map
            (condLine e.1 e.2)) := by
  rw [runtime_scan_evidence_eq]
  rw [runtime_match_eq, List.any_eq_false] at hm
  apply flatMap_congr_mem
  intro e he
  have h := hm e he
  simp only [Bool.or_eq_true, not_or, Bool.not_eq_true] at h
  obtain ⟨⟨h1, h2⟩, h3⟩ := h
  unfold runtimeLines
  rw [h1, h2]
  simp only [Bool.false_eq_true, if_false, List.nil_append]
  congr 1
  apply filter_congr_mem
  intro c hc
  rw [List.any_eq_false] at h3
  have hc3 := h3 c hc
  unfold condAccepted at hc3
  unfold condListed
  cases hs : (c.Status == "False")
  · rfl
  · rw [hs] at hc3
    simp only [Bool.true_and, Bool.not_eq_true] at hc3
    rw [hc3]
    rfl

end RuntimePartiallyReadyRule

namespace DatasetNotBoundRule

theorem dataset_statusStep_evidence (s : Acc) (e : String × DatasetInfo) :
    (statusStep e.1 e.2 s).evidence.toList
      = s.evidence.toList ++ (if statusMatches e then [statusLine e] else []) := by
  unfold statusStep statusMatches statusLine
  split_ifs <;> simp [Slice.toList_append]

theorem dataset_condStep_evidence (name : String) (d : DatasetInfo) (s : Acc) (c : Condition) :
    (condStep name d s c).evidence.toList
      = s.evidence.toList ++ (if condMatches c then [condLine name d c] else []) := by
  unfold condStep condMatches condLine
  by_cases h1 : (c.Typ == "Ready" && c.Status == "False") = true
  · by_cases h2 : c.Reason = ""
    · simp [h1, h2, Slice.toList_append]
    · simp [h1, h2, Slice.toList_append]
  · simp [h1]

theorem dataset_datasetStep_evidence (s : Acc) (e : String × DatasetInfo) :
    (datasetStep s e).evidence.toList = s.evidence.toList ++ datasetLines e := by
  unfold datasetStep datasetLines
  rw [foldl_evidence (condStep e.1 e.2) _ (dataset_condStep_evidence e.1 e.2),
    dataset_statusStep_evidence, flatMap_ite_singleton]
  simp only [List.append_assoc]

theorem dataset_scan_evidence_eq (ctx : DiagnosticContext) :
    (scan ctx).evidence.toList = ctx.Graph.Datasets.flatMap datasetLines := by
  unfold scan
  rw [foldl_evidence datasetStep _ dataset_datasetStep_evidence]
  rfl

theorem dataset_match_eq (ctx : DiagnosticContext) :
    Match ctx = ctx.Graph.Datasets.any (fun e =>
      statusMatches e || e.2.Conditions.any condMatches) := by
  unfold Match
  congr 1
  funext e
  have h : (fun (cond : Condition) => cond.Typ == "Ready" && cond.Status == "False")
      = condMatches := rfl
  rw [h]
  unfold statusMatches
  cases (e.2.Status == "NotBound" || e.2.Status == "") <;> rfl

end DatasetNotBoundRule

namespace PVCUnboundRule

theorem pvc_claimLines_eq (e : String × PVCInfo) :
    claimLines e = if claimMatches e then [claimLine e] else [] := by
  unfold claimLines claimMatches claimLine
  by_cases hp : e.2.Status = "Pending"
  · simp [hp, String.append_assoc]
  · by_cases hl : e.2.Status = "Lost"
    · simp [hl, String.append_assoc]
    · simp [hp, hl]

theorem pvc_scan_evidence_lines (ctx : DiagnosticContext) :
    (scan ctx).evidence.toList
      = (ctx.Graph.PVCs.filter claimMatches).map claimLine
        ++ (ctx.Events.filter eventMatches).map eventLine := by
  rw [pvc_scan_evidence_eq,
    flatMap_congr_mem claimLines _ ctx.Graph.PVCs (fun e _ => pvc_claimLines_eq e),
    flatMap_ite_singleton]

theorem pvc_match_eq (ctx : DiagnosticContext) :
    Match ctx = (ctx.Graph.PVCs.any claimMatches || ctx.Events.any eventMatches) := by
  unfold Match
  have h1 : (fun (entry : String × PVCInfo) =>
      entry.2.Status == "Pending" || entry.2.Status == "Lost") = claimMatches := rfl
  have h2 : (fun (event : Event) =>
      event.Typ == "Warning" && event.InvolvedObject.Kind == "PersistentVolumeClaim"
        && (strContains event.Reason "ProvisioningFailed"
            || strContains event.Reason "FailedBinding")) = eventMatches := rfl
  rw [h1, h2]
  cases ctx.Graph.PVCs.any claimMatches <;> cases ctx.Events.any eventMatches <;> rfl

end PVCUnboundRule

/-! ## Two traversal orders of one snapshot -/

namespace PVCUnboundRule

theorem pvc_scan_unmatched_init (ctx : DiagnosticContext) (hm : Match ctx = false) :
    scan ctx = Acc.init := by
  unfold Match at hm
  by_cases hp : ctx.Graph.PVCs.any (fun entry =>
      entry.2.Status == "Pending" || entry.2.Status == "Lost") = true
  · rw [if_pos hp] at hm
    exact absurd hm (by decide)
  rw [if_neg hp] at hm
  by_cases he : ctx.Events.any (fun event =>
      event.Typ == "Warning" && event.InvolvedObject.Kind == "PersistentVolumeClaim"
        && (strContains event.Reason "ProvisioningFailed"
            || strContains event.Reason "FailedBinding")) = true
  · rw [if_pos he] at hm
    exact absurd hm (by decide)
  have hp' := Bool.eq_false_iff.mpr hp
  have he' := Bool.eq_false_iff.mpr he
  rw [List.any_eq_false] at hp' he'
  unfold scan
  rw [foldl_noop pvcStep ctx.Graph.PVCs ?_ Acc.init]
  · refine foldl_noop eventStep ctx.Events ?_ Acc.init
    intro s e hmem
    have h := he' e hmem
    unfold eventStep
    by_cases h1 : (e.Typ == "Warning" && e.InvolvedObject.Kind == "PersistentVolumeClaim") = true
    · rw [h1] at h
      simp only [Bool.true_and, Bool.not_eq_true] at h
      simp [h1, h]
    · simp [h1]
  · intro s e hmem
    have h := hp' e hmem
    simp only [Bool.or_eq_true, not_or, Bool.not_eq_true] at h
    unfold pvcStep lostStep pendingStep
    simp [h.1, h.2]

end PVCUnboundRule

/-- The result on `lostFirst`: both hypotheses have confidence 0.6 and the
component decides. -/
theorem Analyze_lostFirst (now : Nat) :
    (Analyze now lostFirst).1.Hypotheses.toList
      = [{ DatasetNotBoundRule.Hypothesis lostFirst with Rank := 1 },
         { PVCUnboundRule.Hypothesis lostFirst with Rank := 2 }] := by
  have hc : collect lostFirst = Slice.mk
      [PVCUnboundRule.Hypothesis lostFirst, DatasetNotBoundRule.Hypothesis lostFirst] := rfl
  have h1 : (PVCUnboundRule.Hypothesis lostFirst).Confidence = ConfidencePodStatusOnly := rfl
  have h2 : (DatasetNotBoundRule.Hypothesis lostFirst).Confidence
      = ConfidencePodStatusOnly := rfl
  have h3 : (PVCUnboundRule.Hypothesis lostFirst).Component = "Storage" := rfl
  have h4 : (DatasetNotBoundRule.Hypothesis lostFirst).Component = "Dataset" := rfl
  have hl : less (DatasetNotBoundRule.Hypothesis lostFirst)
      (PVCUnboundRule.Hypothesis lostFirst) = true := by
    unfold less
    rw [h1, h2, h3, h4]
    simp
    decide
  simp only [Analyze, hc, Slice.update, sliceStable, List.foldl, bubbleLeft, hl,
    if_true, List.reverse_cons, List.reverse_nil, List.nil_append, List.singleton_append,
    assignRanksFrom, Slice.toList]
  rfl

/-- The result on `pendingFirst`: the claim rule ends at 0.8 and comes first. -/
theorem Analyze_pendingFirst (now : Nat) :
    (Analyze now pendingFirst).1.Hypotheses.toList
      = [{ PVCUnboundRule.Hypothesis pendingFirst with Rank := 1 },
         { DatasetNotBoundRule.Hypothesis pendingFirst with Rank := 2 }] := by
  have hc : collect pendingFirst = Slice.mk
      [PVCUnboundRule.Hypothesis pendingFirst, DatasetNotBoundRule.Hypothesis pendingFirst] :=
    rfl
  have h1 : (PVCUnboundRule.Hypothesis pendingFirst).Confidence
      = ConfidenceEventAndStatus := rfl
  have h2 : (DatasetNotBoundRule.Hypothesis pendingFirst).Confidence
      = ConfidencePodStatusOnly := rfl
  have hl : less (DatasetNotBoundRule.Hypothesis pendingFirst)
      (PVCUnboundRule.Hypothesis pendingFirst) = false := by
    unfold less
    rw [h1, h2]
    unfold ConfidenceEventAndStatus ConfidencePodStatusOnly
    norm_num
  simp only [Analyze, hc, Slice.update, sliceStable, List.foldl, bubbleLeft, hl,
    List.reverse_cons, List.reverse_nil, List.nil_append, List.singleton_append,
    assignRanksFrom, Slice.toList]
  rfl

theorem eventAndStatus_ne_podStatusOnly : ConfidenceEventAndStatus ≠ ConfidencePodStatusOnly := by
  unfold ConfidenceEventAndStatus ConfidencePodStatusOnly
  norm_num

/-! ## The claims -/

/-- C1: for every snapshot (an absent map or list is the empty one) the run of
`Analyze` with every index expression checked raises no panic and returns what
`Analyze` returns: a nil error and a result tagged `"rule-based"`.  The rules
perform no operation that can fail, and on absent data they do not match: with
no pods, claims, datasets, runtimes and events no rule matches, every rule
leaves its evidence nil and the result holds no hypothesis; pods without
conditions match neither pod rule when there are no events; runtimes with zero
replica counts and no conditions do not match the runtime rule. -/
theorem Analyze_never_errors (now : Nat) (ctx : DiagnosticContext) :
    AnalyzeChecked now ctx = Except.ok (Analyze now ctx) ∧
    (Analyze now ctx).2 = none ∧ (Analyze now ctx).1.Engine = "rule-based" ∧
    (ctx.Graph.Pods = [] → ctx.Graph.PVCs = [] → ctx.Graph.Datasets = [] →
      ctx.Graph.Runtimes = [] → ctx.Events = [] →
      (∀ r ∈ allRules, r.Match ctx = false ∧ (r.Hypothesis ctx).Evidence = Slice.nil) ∧
      (Analyze now ctx).1.Hypotheses = Slice.nil) ∧
    ((∀ e ∈ ctx.Graph.Pods, e.2.Conditions = []) → ctx.Events = [] →
      FuseUnschedulableRule.Match ctx = false ∧ WorkerPendingMemoryRule.Match ctx = false) ∧
    ((∀ e ∈ ctx.Graph.Runtimes,
        e.2.MasterReplicas = 0 ∧ e.2.WorkerReplicas = 0 ∧ e.2.Conditions = []) →
      RuntimePartiallyReadyRule.Match ctx = false) := by
  refine ⟨AnalyzeChecked_eq now ctx, rfl, rfl, ?_, pods_without_conditions ctx,
    runtimes_zero_valued ctx⟩
  intro hpods hpvcs hdatasets hruntimes hevents
  have h := allRules_absent ctx hpods hpvcs hdatasets hruntimes hevents
  exact ⟨fun r hr => ⟨(h r hr).1, (h r hr).2.1⟩,
    Analyze_unmatched now ctx (fun r hr => (h r hr).1)⟩

/-- C1 on snapshots with data: the checked run on `lostFirst` sorts and ranks
two hypotheses and returns them with a nil error, and the snapshot
`podWithoutConditions`, a `Pending` pod named like a fuse and a worker pod that
carries no condition list, is matched by neither pod rule. -/
theorem Analyze_never_errors_witness :
    (∃ r, AnalyzeChecked 0 lostFirst = Except.ok r ∧ r.2 = none ∧
      r.1.Hypotheses.toList.map (fun h => h.Rank) = [1, 2]) ∧
    FuseUnschedulableRule.Match podWithoutConditions = false ∧
    WorkerPendingMemoryRule.Match podWithoutConditions = false :=
  ⟨⟨Analyze 0 lostFirst, (Analyze_never_errors 0 lostFirst).1, rfl,
    by rw [Analyze_lostFirst]; rfl⟩,
   (Analyze_never_errors 0 podWithoutConditions).2.2.2.2.1
     (fun e he => by rw [List.mem_singleton.mp he]) rfl⟩

/-- C2: the ranks of the result, read in order, are `1, 2, ..., N`: the
hypothesis at 0-based position `i` has rank `i + 1`. -/
theorem Analyze_rank_is_position (now : Nat) (ctx : DiagnosticContext) :
    (Analyze now ctx).1.Hypotheses.toList.map (fun h => h.Rank)
      = (List.range (Analyze now ctx).1.Hypotheses.len).map (fun (i : Nat) => (i : Int) + 1) := by
  unfold Slice.len
  rw [Analyze_toList, assignRanksFrom_ranks, assignRanksFrom_length]
  simp

/-- C3: every adjacent pair of the result has non-increasing confidence. -/
theorem Analyze_confidence_nonincreasing (now : Nat) (ctx : DiagnosticContext) :
    List.Chain' (fun a b => a.Confidence ≥ b.Confidence)
      (Analyze now ctx).1.Hypotheses.toList := by
  apply List.Pairwise.chain'
  refine (Analyze_sorted now ctx).imp ?_
  intro a b hab
  rcases (sortKey_le_iff a b).mp hab with h | h
  · exact le_of_lt h
  · exact le_of_eq h.1.symm

/-- C4: for every two positions `i < j` of the result with equal confidence the
component at `i` is at most the component at `j`, and when the components are
equal too the issue at `i` is at most the issue at `j`. -/
theorem Analyze_equal_confidence_tie_break (now : Nat) (ctx : DiagnosticContext) :
    List.Pairwise
      (fun a b => a.Confidence = b.Confidence →
        a.Component ≤ b.Component ∧ (a.Component = b.Component → a.Issue ≤ b.Issue))
      (Analyze now ctx).1.Hypotheses.toList := by
  refine (Analyze_sorted now ctx).imp ?_
  intro a b hab heq
  rcases (sortKey_le_iff a b).mp hab with h | h
  · exact absurd heq (ne_of_gt h)
  · rcases h.2 with h2 | h2
    · exact ⟨le_of_lt h2, fun e => absurd e (ne_of_lt h2)⟩
    · exact ⟨le_of_eq h2.1, fun _ => h2.2⟩

/-- C5, evaluated on the code: the snapshots `lostFirst` and `pendingFirst`
hold the same maps and differ only in the order in which the storage-claim map
is traversed, and `Analyze` returns different (component, issue, rank)
sequences for them. -/
theorem Analyze_order_depends_on_map_traversal :
    pendingFirst.Graph.PVCs.Perm lostFirst.Graph.PVCs ∧
    pendingFirst = { lostFirst with
      Graph := { lostFirst.Graph with PVCs := pendingFirst.Graph.PVCs } } ∧
    triples (Analyze 0 lostFirst).1 =
      [("Dataset", "Dataset is not bound, likely due to missing or failed Runtime", 1),
       ("Storage", "PVC is not bound due to storage provisioning failure", 2)] ∧
    triples (Analyze 0 pendingFirst).1 =
      [("Storage", "PVC is not bound due to storage provisioning failure", 1),
       ("Dataset", "Dataset is not bound, likely due to missing or failed Runtime", 2)] := by
  refine ⟨List.reverse_perm _, rfl, ?_, ?_⟩
  · have hc : collect lostFirst = Slice.mk
        [PVCUnboundRule.Hypothesis lostFirst, DatasetNotBoundRule.Hypothesis lostFirst] := rfl
    have h1 : (PVCUnboundRule.Hypothesis lostFirst).Confidence = ConfidencePodStatusOnly := rfl
    have h2 : (DatasetNotBoundRule.Hypothesis lostFirst).Confidence
        = ConfidencePodStatusOnly := rfl
    have h3 : (PVCUnboundRule.Hypothesis lostFirst).Component = "Storage" := rfl
    have h4 : (DatasetNotBoundRule.Hypothesis lostFirst).Component = "Dataset" := rfl
    have hl : less (DatasetNotBoundRule.Hypothesis lostFirst)
        (PVCUnboundRule.Hypothesis lostFirst) = true := by
      unfold less
      rw [h1, h2, h3, h4]
      simp
      decide
    simp only [triples, Analyze, hc, Slice.update, sliceStable, List.foldl, bubbleLeft, hl,
      if_true, List.reverse_cons, List.reverse_nil, List.nil_append, List.singleton_append,
      assignRanksFrom, Slice.toList, List.map]
    rfl
  · have hc : collect pendingFirst = Slice.mk
        [PVCUnboundRule.Hypothesis pendingFirst, DatasetNotBoundRule.Hypothesis pendingFirst] :=
      rfl
    have h1 : (PVCUnboundRule.Hypothesis pendingFirst).Confidence
        = ConfidenceEventAndStatus := rfl
    have h2 : (DatasetNotBoundRule.Hypothesis pendingFirst).Confidence
        = ConfidencePodStatusOnly := rfl
    have hl : less (DatasetNotBoundRule.Hypothesis pendingFirst)
        (PVCUnboundRule.Hypothesis pendingFirst) = false := by
      unfold less
      rw [h1, h2]
      unfold ConfidenceEventAndStatus ConfidencePodStatusOnly
      norm_num
    simp only [triples, Analyze, hc, Slice.update, sliceStable, List.foldl, bubbleLeft, hl,
      List.reverse_cons, List.reverse_nil, List.nil_append, List.singleton_append,
      assignRanksFrom, Slice.toList, List.map]
    rfl

/-- C6: the result holds exactly the hypotheses of the rules that match, one
for each: its length is the number of matching rules among the five, and up to
order and the rank field it is the list of `Hypothesis ctx` of the matching
rules.  Whether a rule is in that list depends on its own `Match` only. -/
theorem Analyze_keeps_every_matching_rule (now : Nat) (ctx : DiagnosticContext) :
    allRules.length = 5 ∧
    (Analyze now ctx).1.Hypotheses.len = (allRules.filter (fun r => r.Match ctx)).length ∧
    ((Analyze now ctx).1.Hypotheses.toList.map withoutRank).Perm
      ((allRules.filter (fun r => r.Match ctx)).map
        (fun r => withoutRank (r.Hypothesis ctx))) := by
  refine ⟨rfl, ?_, Analyze_withoutRank_perm now ctx⟩
  have h := (Analyze_withoutRank_perm now ctx).length_eq
  simpa [Slice.len] using h

/-- C7: a rule that matches a snapshot generates at least one evidence line on
it, and so every hypothesis of the result has evidence. -/
theorem match_yields_evidence (now : Nat) (ctx : DiagnosticContext) :
    (∀ r ∈ allRules, r.Match ctx = true → 0 < (r.Hypothesis ctx).Evidence.len) ∧
    (∀ h ∈ (Analyze now ctx).1.Hypotheses.toList, 0 < h.Evidence.len) := by
  refine ⟨fun r hr hm => allRules_evidence ctx r hr hm, ?_⟩
  intro h hh
  obtain ⟨r, hr, hm, he⟩ := Analyze_mem now ctx h hh
  have h1 : (withoutRank h).Evidence = (withoutRank (r.Hypothesis ctx)).Evidence := by rw [he]
  change h.Evidence = (r.Hypothesis ctx).Evidence at h1
  rw [h1]
  exact allRules_evidence ctx r hr hm

/-- C7 at the snapshot of `TestAnalyze_PVCUnbound`: the storage rule matches
and its hypothesis has evidence. -/
theorem match_yields_evidence_witness :
    PVCUnboundRule.Match pendingClaim = true ∧
    0 < (PVCUnboundRule.Hypothesis pendingClaim).Evidence.len :=
  ⟨rfl, (match_yields_evidence 0 pendingClaim).1
    ⟨PVCUnboundRule.ID, PVCUnboundRule.Match, PVCUnboundRule.Hypothesis⟩
    (by simp [allRules]) rfl⟩

/-- C8, evaluated on the code: the storage, runtime and dataset rules keep the
tier of the last signal they met, not the strongest.  With the `Lost` claim,
the runtime with a named `False` condition, or the dataset with a named
`Ready=False` condition traversed first, the later status-only signal lowers
the confidence to 0.6; in the other traversal order it is 0.8. -/
theorem confidence_overwritten_by_later_signal :
    (PVCUnboundRule.Hypothesis lostFirst).Confidence = ConfidencePodStatusOnly ∧
    (PVCUnboundRule.Hypothesis pendingFirst).Confidence = ConfidenceEventAndStatus ∧
    (RuntimePartiallyReadyRule.Hypothesis conditionRuntimeFirst).Confidence
      = ConfidencePodStatusOnly ∧
    (RuntimePartiallyReadyRule.Hypothesis shortfallRuntimeFirst).Confidence
      = ConfidenceEventAndStatus ∧
    (DatasetNotBoundRule.Hypothesis conditionDatasetFirst).Confidence
      = ConfidencePodStatusOnly ∧
    (DatasetNotBoundRule.Hypothesis statusDatasetFirst).Confidence
      = ConfidenceEventAndStatus ∧
    ConfidencePodStatusOnly < ConfidenceEventAndStatus :=
  ⟨rfl, rfl, rfl, rfl, rfl, rfl, podStatusOnly_lt_eventAndStatus⟩

/-- C9: every hypothesis of the result has a confidence in `[0, 1]` that is one
of the values `0.8, 0.6, 0.55, 0.5, 0.3` of the confidence scale. -/
theorem Analyze_confidence_on_scale (now : Nat) (ctx : DiagnosticContext) (h : Hypothesis)
    (hh : h ∈ (Analyze now ctx).1.Hypotheses.toList) :
    (0 ≤ h.Confidence ∧ h.Confidence ≤ 1) ∧
    (h.Confidence = 8 / 10 ∨ h.Confidence = 6 / 10 ∨ h.Confidence = 55 / 100
      ∨ h.Confidence = 5 / 10 ∨ h.Confidence = 3 / 10) := by
  obtain ⟨r, hr, _, he⟩ := Analyze_mem now ctx h hh
  have h1 : (withoutRank h).Confidence = (withoutRank (r.Hypothesis ctx)).Confidence := by
    rw [he]
  change h.Confidence = (r.Hypothesis ctx).Confidence at h1
  rw [h1]
  exact tier_bounds _ (allRules_tier ctx r hr)

/-- C9 at the snapshot of `TestAnalyze_PVCUnbound`, whose result is the single
storage hypothesis with rank 1. -/
theorem Analyze_confidence_on_scale_witness :
    { PVCUnboundRule.Hypothesis pendingClaim with Rank := 1 }
        ∈ (Analyze 0 pendingClaim).1.Hypotheses.toList ∧
    (0 ≤ (PVCUnboundRule.Hypothesis pendingClaim).Confidence ∧
      (PVCUnboundRule.Hypothesis pendingClaim).Confidence ≤ 1) :=
  have hmem : { PVCUnboundRule.Hypothesis pendingClaim with Rank := 1 }
      ∈ (Analyze 0 pendingClaim).1.Hypotheses.toList := List.mem_singleton.mpr rfl
  ⟨hmem, (Analyze_confidence_on_scale 0 pendingClaim _ hmem).1⟩

/-- C10 as stated fails: on the empty snapshot the returned sequence is not an
empty allocated slice. -/
theorem Analyze_empty_not_allocated :
    ¬ ((Analyze 0 emptyContext).1.Hypotheses.len = 0 ∧
        (Analyze 0 emptyContext).1.Hypotheses.isNil = false) := by
  intro h
  exact Bool.noConfusion h.2

/-- C10, amended: on the empty snapshot the returned sequence has length 0 and
is the nil slice. -/
theorem Analyze_empty_is_nil_slice (now : Nat) :
    (Analyze now emptyContext).1.Hypotheses.len = 0 ∧
    (Analyze now emptyContext).1.Hypotheses = Slice.nil :=
  ⟨rfl, rfl⟩

/-- C11, evaluated on the code: `lostFirst` and `pendingFirst` are one snapshot,
its claim map traversed in two orders.  With the claim map traversed `Lost`
claim first the reversed registry returns what `Analyze` returns, `Dataset`
before `Storage`, both at 0.6.  An evaluation that traverses the map `Pending`
claim first returns `Storage` at 0.8 before `Dataset`, with the evidence lines
in the other order: confidence, evidence and rank differ at both positions. -/
theorem registry_order_result_varies :
    allRules.reverse.Perm allRules ∧
    pendingFirst.Graph.PVCs.Perm lostFirst.Graph.PVCs ∧
    pendingFirst = { lostFirst with
      Graph := { lostFirst.Graph with PVCs := pendingFirst.Graph.PVCs } } ∧
    AnalyzeWith allRules.reverse 0 lostFirst = Analyze 0 lostFirst ∧
    (Analyze 0 lostFirst).1.Hypotheses.toList.map
        (fun h => (h.Component, h.Confidence, h.Evidence.toList, h.Rank))
      = [("Dataset", ConfidencePodStatusOnly, ["Dataset ns/d: Status=NotBound"], 1),
         ("Storage", ConfidencePodStatusOnly,
           ["PVC ns/a: Status=Lost", "PVC ns/b: Status=Pending"], 2)] ∧
    (AnalyzeWith allRules.reverse 0 pendingFirst).1.Hypotheses.toList.map
        (fun h => (h.Component, h.Confidence, h.Evidence.toList, h.Rank))
      = [("Storage", ConfidenceEventAndStatus,
           ["PVC ns/b: Status=Pending", "PVC ns/a: Status=Lost"], 1),
         ("Dataset", ConfidencePodStatusOnly, ["Dataset ns/d: Status=NotBound"], 2)] ∧
    ConfidenceEventAndStatus ≠ ConfidencePodStatusOnly := by
  refine ⟨List.reverse_perm _, List.reverse_perm _, rfl,
    AnalyzeWith_perm _ (List.reverse_perm _) 0 lostFirst, ?_, ?_,
    eventAndStatus_ne_podStatusOnly⟩
  · rw [Analyze_lostFirst]
    rfl
  · rw [AnalyzeWith_perm _ (List.reverse_perm _) 0 pendingFirst, ← Analyze_eq_AnalyzeWith,
      Analyze_pendingFirst]
    rfl

/-- C12: when some pod is labelled `role=fuse`, is `Pending` and has a
`PodScheduled=False` condition with reason `Unschedulable`, exactly one
hypothesis of the result has component `Fuse`; its confidence is at least 0.5
(it is 0.8) and its evidence is not empty. -/
theorem fuse_pod_yields_one_hypothesis (now : Nat) (ctx : DiagnosticContext)
    (entry : String × PodInfo) (hmem : entry ∈ ctx.Graph.Pods)
    (hlabel : entry.2.Labels.lookup "role" = some "fuse")
    (hstatus : entry.2.Status = "Pending") (c : Condition) (hc : c ∈ entry.2.Conditions)
    (htyp : c.Typ = "PodScheduled") (hfalse : c.Status = "False")
    (hreason : c.Reason = "Unschedulable") :
    ((Analyze now ctx).1.Hypotheses.toList.map (fun h => h.Component)).count "Fuse" = 1 ∧
    ∀ h ∈ (Analyze now ctx).1.Hypotheses.toList, h.Component = "Fuse" →
      5 / 10 ≤ h.Confidence ∧ h.Confidence = ConfidenceEventAndStatus ∧ 0 < h.Evidence.len := by
  have hm : FuseUnschedulableRule.Match ctx = true :=
    FuseUnschedulableRule.fuse_match_of_pod ctx entry hmem hlabel hstatus c hc htyp hfalse
  have hfuse : isFusePod entry.2 = true := by
    unfold isFusePod
    simp [hlabel]
  have hconf : (FuseUnschedulableRule.scan ctx).confidence = ConfidenceEventAndStatus :=
    fuse_scan_named ctx entry hmem hfuse hstatus c hc htyp hfalse (by rw [hreason]; decide)
  constructor
  · apply List.count_eq_one_of_mem (Analyze_components_nodup now ctx)
    obtain ⟨h, hh, he⟩ := Analyze_mem_of_match now ctx _ mem_allRules_fuse hm
    have hcomp : (withoutRank h).Component
        = (withoutRank (FuseUnschedulableRule.Hypothesis ctx)).Component := by rw [he]
    exact List.mem_map.mpr ⟨h, hh, hcomp⟩
  · intro h hh hcomp
    obtain ⟨_, he⟩ := Analyze_mem_fuse now ctx h hh hcomp
    have h1 : (withoutRank h).Confidence
        = (withoutRank (FuseUnschedulableRule.Hypothesis ctx)).Confidence := by rw [he]
    have h2 : (withoutRank h).Evidence
        = (withoutRank (FuseUnschedulableRule.Hypothesis ctx)).Evidence := by rw [he]
    change h.Confidence = (FuseUnschedulableRule.scan ctx).confidence at h1
    change h.Evidence = (FuseUnschedulableRule.scan ctx).evidence at h2
    rw [h1, h2, hconf]
    refine ⟨?_, rfl, FuseUnschedulableRule.fuse_scan_evidence ctx hm⟩
    unfold ConfidenceEventAndStatus
    norm_num

/-- C12 at the snapshot of `TestAnalyze_FuseUnschedulable`. -/
theorem fuse_pod_yields_one_hypothesis_witness :
    ((Analyze 0 fuseScheduling).1.Hypotheses.toList.map (fun h => h.Component)).count "Fuse"
      = 1 :=
  (fuse_pod_yields_one_hypothesis 0 fuseScheduling
    ("mydata-fuse-abc123",
      ⟨"mydata-fuse-abc123", "default", "Pending",
        [⟨"PodScheduled", "False", "Unschedulable", "node taints"⟩], [], [], [("role", "fuse")]⟩)
    (List.mem_singleton.mpr rfl) rfl rfl
    ⟨"PodScheduled", "False", "Unschedulable", "node taints"⟩
    (List.mem_singleton.mpr rfl) rfl rfl rfl).1

/-- C13: a runtime stored under key `k` with `WorkerReplicas = n > 0` and
`WorkerReady = r < n` puts a hypothesis with component `Runtime` into the
result whose evidence holds the line `Runtime <ns>/<k>: Worker <r>/<n> ready`;
on the snapshot of `TestAnalyze_RuntimePartiallyReady` the result is that one
hypothesis and its only evidence line is the `Worker 0/2 ready` line. -/
theorem worker_shortfall_cited (now : Nat) (ctx : DiagnosticContext) :
    (∀ (k : String) (rt : RuntimeInfo), (k, rt) ∈ ctx.Graph.Runtimes →
      rt.WorkerReplicas > 0 → rt.WorkerReady < rt.WorkerReplicas →
      ∃ h ∈ (Analyze now ctx).1.Hypotheses.toList, h.Component = "Runtime" ∧
        ("Runtime " ++ rt.Namespace ++ "/" ++ k ++ ": Worker " ++ fmtInt rt.WorkerReady
          ++ "/" ++ fmtInt rt.WorkerReplicas ++ " ready") ∈ h.Evidence.toList) ∧
    (Analyze now workerShortfall).1.Hypotheses.toList.map
        (fun h => (h.Component, h.Evidence.toList))
      = [("Runtime", ["Runtime default/mydata: Worker 0/2 ready"])] := by
  refine ⟨?_, rfl⟩
  intro k rt hmem hpos hlt
  have hm : RuntimePartiallyReadyRule.Match ctx = true :=
    RuntimePartiallyReadyRule.runtime_match_of_shortfall ctx (k, rt) hmem hpos hlt
  obtain ⟨h, hh, he⟩ := Analyze_mem_of_match now ctx _ mem_allRules_runtime hm
  have h1 : (withoutRank h).Component
      = (withoutRank (RuntimePartiallyReadyRule.Hypothesis ctx)).Component := by rw [he]
  have h2 : (withoutRank h).Evidence
      = (withoutRank (RuntimePartiallyReadyRule.Hypothesis ctx)).Evidence := by rw [he]
  change h.Evidence = (RuntimePartiallyReadyRule.scan ctx).evidence at h2
  refine ⟨h, hh, h1, ?_⟩
  rw [h2]
  exact RuntimePartiallyReadyRule.runtime_worker_line ctx (k, rt) hmem hpos hlt

/-- C13 at the snapshot of `TestAnalyze_RuntimePartiallyReady`. -/
theorem worker_shortfall_cited_witness :
    ∃ h ∈ (Analyze 0 workerShortfall).1.Hypotheses.toList, h.Component = "Runtime" ∧
      "Runtime default/mydata: Worker 0/2 ready" ∈ h.Evidence.toList :=
  (worker_shortfall_cited 0 workerShortfall).1 "mydata"
    ⟨"mydata", "default", "", 1, 2, 1, 0, "", [], "", 0, 0⟩
    (List.mem_singleton.mpr rfl) (by decide) (by decide)

/-- C14: when some storage claim is `Pending` and none is `Lost`, the result
holds a hypothesis with component `Storage`, and the confidence of such a
hypothesis is 0.8 when a `Warning` event on a `PersistentVolumeClaim` has a
reason containing `ProvisioningFailed` or `FailedBinding`, and 0.6 when no
event is of that kind. -/
theorem pending_claim_confidence (now : Nat) (ctx : DiagnosticContext)
    (entry : String × PVCInfo) (hmem : entry ∈ ctx.Graph.PVCs)
    (hpending : entry.2.Status = "Pending")
    (hlost : ∀ e ∈ ctx.Graph.PVCs, e.2.Status ≠ "Lost") :
    (∃ h ∈ (Analyze now ctx).1.Hypotheses.toList, h.Component = "Storage") ∧
    ∀ h ∈ (Analyze now ctx).1.Hypotheses.toList, h.Component = "Storage" →
      h.Confidence = if ctx.Events.any PVCUnboundRule.eventMatches then 8 / 10 else 6 / 10 := by
  have hany : ctx.Graph.PVCs.any (fun e => e.2.Status == "Pending") = true :=
    List.any_eq_true.mpr ⟨entry, hmem, by simp [hpending]⟩
  have hm : PVCUnboundRule.Match ctx = true := by
    unfold PVCUnboundRule.Match
    rw [if_pos (List.any_eq_true.mpr ⟨entry, hmem, by simp [hpending]⟩)]
  have hnone : PVCUnboundRule.noneLost ctx = true := by
    unfold PVCUnboundRule.noneLost
    rw [List.all_eq_true]
    intro e he
    simpa using hlost e he
  constructor
  · obtain ⟨h, hh, he⟩ := Analyze_mem_of_match now ctx _ mem_allRules_pvc hm
    have h1 : (withoutRank h).Component
        = (withoutRank (PVCUnboundRule.Hypothesis ctx)).Component := by rw [he]
    exact ⟨h, hh, h1⟩
  · intro h hh hcomp
    obtain ⟨_, he⟩ := Analyze_mem_storage now ctx h hh hcomp
    have h1 : (withoutRank h).Confidence
        = (withoutRank (PVCUnboundRule.Hypothesis ctx)).Confidence := by rw [he]
    change h.Confidence = (PVCUnboundRule.scan ctx).confidence at h1
    rw [h1, PVCUnboundRule.pvc_scan_confidence ctx hnone, hany, if_pos rfl]
    split_ifs <;> rfl

/-- C14 at the snapshot of `TestAnalyze_PVCUnbound`, without and with a
`ProvisioningFailed` warning. -/
theorem pending_claim_confidence_witness :
    (∀ h ∈ (Analyze 0 pendingClaim).1.Hypotheses.toList, h.Component = "Storage" →
      h.Confidence = 6 / 10) ∧
    (∀ h ∈ (Analyze 0 pendingClaimWithEvent).1.Hypotheses.toList, h.Component = "Storage" →
      h.Confidence = 8 / 10) :=
  ⟨fun h hh hc =>
    ((pending_claim_confidence 0 pendingClaim ("mydata", ⟨"mydata", "default", "Pending", "", []⟩)
      (List.mem_singleton.mpr rfl) rfl
      (fun e he => by rw [List.mem_singleton.mp he]; decide)).2 h hh hc).trans
        (if_neg (by decide)),
   fun h hh hc =>
    ((pending_claim_confidence 0 pendingClaimWithEvent
      ("mydata", ⟨"mydata", "default", "Pending", "", []⟩)
      (List.mem_singleton.mpr rfl) rfl
      (fun e he => by rw [List.mem_singleton.mp he]; decide)).2 h hh hc).trans
        (if_pos (by decide))⟩

/-- C15, evaluated on the code: on `emptyStatusDatasetFirst` the dataset rule
matches and its hypothesis, the only one of the result, cites the line
`Dataset ns/d2: Status=<empty>` and has confidence 0.8.  Replacing the status
of `d2` by `NotBound` gives the maps of `statusDatasetFirst`, of which
`conditionDatasetFirst` is the other traversal order; there the rule still
matches and the confidence is 0.6. -/
theorem empty_status_confidence_varies :
    DatasetNotBoundRule.Match emptyStatusDatasetFirst = true ∧
    (Analyze 0 emptyStatusDatasetFirst).1.Hypotheses.toList.map
        (fun h => (h.Component, h.Confidence, h.Evidence.toList))
      = [("Dataset", ConfidenceEventAndStatus,
          ["Dataset ns/d2: Status=<empty>",
           "Dataset ns/d1: Condition Ready=False, reason=RuntimeMissing"])] ∧
    withDatasets emptyStatusDatasetFirst
        [("d2", ⟨"d2", "ns", "NotBound", []⟩),
         ("d1", ⟨"d1", "ns", "Bound", [⟨"Ready", "False", "RuntimeMissing", ""⟩]⟩)]
      = statusDatasetFirst ∧
    conditionDatasetFirst.Graph.Datasets.Perm statusDatasetFirst.Graph.Datasets ∧
    conditionDatasetFirst = withDatasets statusDatasetFirst conditionDatasetFirst.Graph.Datasets ∧
    DatasetNotBoundRule.Match conditionDatasetFirst = true ∧
    (Analyze 0 conditionDatasetFirst).1.Hypotheses.toList.map
        (fun h => (h.Component, h.Confidence, h.Evidence.toList))
      = [("Dataset", ConfidencePodStatusOnly,
          ["Dataset ns/d1: Condition Ready=False, reason=RuntimeMissing",
           "Dataset ns/d2: Status=NotBound"])] ∧
    ConfidenceEventAndStatus ≠ ConfidencePodStatusOnly := by
  refine ⟨rfl, rfl, rfl, ?_, rfl, rfl, rfl, eventAndStatus_ne_podStatusOnly⟩
  exact (List.reverse_perm conditionDatasetFirst.Graph.Datasets).symm

/-- C16, evaluated on the code: the snapshot of `TestAnalyze_FuseUnschedulable`
holds no event, and its result holds a hypothesis of confidence 0.8, the value
of `ConfidenceEventAndStatus`: the fuse rule assigns it at a `PodScheduled=False`
condition with a reason, without reading any event. -/
theorem no_event_top_tier :
    fuseScheduling.Events = [] ∧
    ∃ h ∈ (Analyze 0 fuseScheduling).1.Hypotheses.toList, h.Confidence = 8 / 10 :=
  ⟨rfl, { FuseUnschedulableRule.Hypothesis fuseScheduling with Rank := 1 },
    List.mem_singleton.mpr rfl, rfl⟩

/-- C17, evaluated on the code: on snapshots without any pod or storage claim
and with one matching warning event, the fuse, worker and claim rules match and
give their hypothesis the confidence `ConfidenceEventAndStatus` (0.8), not
`ConfidenceEventOnly` (0.5). -/
theorem event_alone_gets_top_tier :
    (fuseEventOnly.Graph.Pods = [] ∧ FuseUnschedulableRule.Match fuseEventOnly = true ∧
      (FuseUnschedulableRule.Hypothesis fuseEventOnly).Confidence = ConfidenceEventAndStatus) ∧
    (workerEventOnly.Graph.Pods = [] ∧ WorkerPendingMemoryRule.Match workerEventOnly = true ∧
      (WorkerPendingMemoryRule.Hypothesis workerEventOnly).Confidence
        = ConfidenceEventAndStatus) ∧
    (claimEventOnly.Graph.PVCs = [] ∧ PVCUnboundRule.Match claimEventOnly = true ∧
      (PVCUnboundRule.Hypothesis claimEventOnly).Confidence = ConfidenceEventAndStatus) ∧
    ConfidenceEventAndStatus = 8 / 10 ∧ ConfidenceEventOnly = 5 / 10 ∧
    ConfidenceEventAndStatus ≠ ConfidenceEventOnly := by
  refine ⟨⟨rfl, rfl, rfl⟩, ⟨rfl, rfl, rfl⟩, ⟨rfl, rfl, rfl⟩, rfl, rfl, ?_⟩
  unfold ConfidenceEventAndStatus ConfidenceEventOnly
  norm_num

/-- C18: a rule that meets bare conditions only ends at 0.5.  The fuse rule
when every `PodScheduled=False` condition of a `Pending` fuse pod has an empty
reason and no event matches; the runtime rule when no runtime has a replica
shortfall and every `False` condition has an empty reason; the dataset rule
when no dataset is `NotBound` or of empty status and every `Ready=False`
condition has an empty reason.  Each holds whether or not the rule matches. -/
theorem bare_condition_confidence (ctx : DiagnosticContext) :
    (FuseUnschedulableRule.reasonsEmpty ctx = true →
      ctx.Events.any FuseUnschedulableRule.eventMatches = false →
      (FuseUnschedulableRule.Hypothesis ctx).Confidence = 5 / 10) ∧
    (RuntimePartiallyReadyRule.replicasReady ctx = true →
      RuntimePartiallyReadyRule.reasonsEmpty ctx = true →
      (RuntimePartiallyReadyRule.Hypothesis ctx).Confidence = 5 / 10) ∧
    (DatasetNotBoundRule.noneUnbound ctx = true →
      DatasetNotBoundRule.reasonsEmpty ctx = true →
      (DatasetNotBoundRule.Hypothesis ctx).Confidence = 5 / 10) :=
  ⟨fun hr he => FuseUnschedulableRule.fuse_scan_bare ctx hr he,
   fun hready hr => RuntimePartiallyReadyRule.runtime_scan_bare ctx hready hr,
   fun hbound hr => DatasetNotBoundRule.dataset_scan_bare ctx hbound hr⟩

/-- C18 at a snapshot on which the three rules match on bare conditions. -/
theorem bare_condition_confidence_witness :
    (FuseUnschedulableRule.Match bareConditions = true ∧
      (FuseUnschedulableRule.Hypothesis bareConditions).Confidence = 5 / 10) ∧
    (RuntimePartiallyReadyRule.Match bareConditions = true ∧
      (RuntimePartiallyReadyRule.Hypothesis bareConditions).Confidence = 5 / 10) ∧
    (DatasetNotBoundRule.Match bareConditions = true ∧
      (DatasetNotBoundRule.Hypothesis bareConditions).Confidence = 5 / 10) :=
  ⟨⟨rfl, (bare_condition_confidence bareConditions).1 rfl rfl⟩,
   ⟨rfl, (bare_condition_confidence bareConditions).2.1 rfl rfl⟩,
   ⟨rfl, (bare_condition_confidence bareConditions).2.2 rfl rfl⟩⟩

/-- C19 as stated fails: it is not the case that every rule has an empty
evidence list on every snapshot it does not match. -/
theorem unmatched_runtime_has_evidence :
    ¬ (∀ r ∈ allRules, ∀ ctx : DiagnosticContext,
        r.Match ctx = false → (r.Hypothesis ctx).Evidence.len = 0) := by
  intro h
  have h1 := h _ mem_allRules_runtime nonReadyCondition rfl
  exact absurd h1 (by decide)

/-- C19, amended: the evidence of a rule is made of the signals its loops
accept, one line each, in loop order.  For the fuse, worker, claim and dataset
rules `Hypothesis` applies to every pod, condition, status and event the very
test `Match` applies, so each evidence line comes from a signal `Match`
accepts, and on a snapshot `Match` rejects `Hypothesis` leaves the evidence
nil.  The runtime rule writes a line for each replica shortfall `Match`
accepts and a line for each condition of status `False`, whatever its type,
while `Match` accepts such a condition only when its type is `Ready`; on a
snapshot `Match` rejects its evidence is the lines of the `False` conditions of
another type, and nil when there is none. -/
theorem evidence_from_accepted_signals (ctx : DiagnosticContext) :
    ((FuseUnschedulableRule.Hypothesis ctx).Evidence.toList
        = ctx.Graph.Pods.flatMap FuseUnschedulableRule.podLines
          ++ (ctx.Events.filter FuseUnschedulableRule.eventMatches).map
              FuseUnschedulableRule.eventLine ∧
      FuseUnschedulableRule.Match ctx
        = (ctx.Graph.Pods.any (fun e => FuseUnschedulableRule.podMatches e
              && e.2.Conditions.any FuseUnschedulableRule.condMatches)
            || ctx.Events.any FuseUnschedulableRule.eventMatches) ∧
      (FuseUnschedulableRule.Match ctx = false →
        (FuseUnschedulableRule.Hypothesis ctx).Evidence = Slice.nil)) ∧
    ((WorkerPendingMemoryRule.Hypothesis ctx).Evidence.toList
        = ctx.Graph.Pods.flatMap WorkerPendingMemoryRule.podLines
          ++ (ctx.Events.filter WorkerPendingMemoryRule.eventMatches).map
              WorkerPendingMemoryRule.eventLine ∧
      WorkerPendingMemoryRule.Match ctx
        = (ctx.Graph.Pods.any (fun e => WorkerPendingMemoryRule.podMatches e
              && e.2.Conditions.any WorkerPendingMemoryRule.condMatches)
            || ctx.Events.any WorkerPendingMemoryRule.eventMatches) ∧
      (WorkerPendingMemoryRule.Match ctx = false →
        (WorkerPendingMemoryRule.Hypothesis ctx).Evidence = Slice.nil)) ∧
    ((PVCUnboundRule.Hypothesis ctx).Evidence.toList
        = (ctx.Graph.PVCs.filter PVCUnboundRule.claimMatches).map PVCUnboundRule.claimLine
          ++ (ctx.Events.filter PVCUnboundRule.eventMatches).map PVCUnboundRule.eventLine ∧
      PVCUnboundRule.Match ctx
        = (ctx.Graph.PVCs.any PVCUnboundRule.claimMatches
            || ctx.Events.any PVCUnboundRule.eventMatches) ∧
      (PVCUnboundRule.Match ctx = false →
        (PVCUnboundRule.Hypothesis ctx).Evidence = Slice.nil)) ∧
    ((DatasetNotBoundRule.Hypothesis ctx).Evidence.toList
        = ctx.Graph.Datasets.flatMap DatasetNotBoundRule.datasetLines ∧
      DatasetNotBoundRule.Match ctx
        = ctx.Graph.Datasets.any (fun e => DatasetNotBoundRule.statusMatches e
            || e.2.Conditions.any DatasetNotBoundRule.condMatches) ∧
      (DatasetNotBoundRule.Match ctx = false →
        (DatasetNotBoundRule.Hypothesis ctx).Evidence = Slice.nil)) ∧
    ((RuntimePartiallyReadyRule.Hypothesis ctx).Evidence.toList
        = ctx.Graph.Runtimes.flatMap RuntimePartiallyReadyRule.runtimeLines ∧
      RuntimePartiallyReadyRule.Match ctx
        = ctx.Graph.Runtimes.any (fun e => RuntimePartiallyReadyRule.masterShort e
            || RuntimePartiallyReadyRule.workerShort e
            || e.2.Conditions.any RuntimePartiallyReadyRule.condAccepted) ∧
      (∀ c : Condition, RuntimePartiallyReadyRule.condAccepted c
        = (RuntimePartiallyReadyRule.condListed c && c.Typ == "Ready")) ∧
      (RuntimePartiallyReadyRule.Match ctx = false →
        (RuntimePartiallyReadyRule.Hypothesis ctx).Evidence.toList
          = ctx.Graph.Runtimes.flatMap (fun e =>
              (e.2.Conditions.filter (fun c =>
                  RuntimePartiallyReadyRule.condListed c && !(c.Typ == "Ready"))).map
                (RuntimePartiallyReadyRule.condLine e.1 e.2))) ∧
      (RuntimePartiallyReadyRule.Match ctx = false →
        RuntimePartiallyReadyRule.falseOnlyReady ctx = true →
        (RuntimePartiallyReadyRule.Hypothesis ctx).Evidence = Slice.nil)) := by
  refine ⟨⟨FuseUnschedulableRule.fuse_scan_evidence_eq ctx,
      FuseUnschedulableRule.fuse_match_eq ctx, ?_⟩,
    ⟨WorkerPendingMemoryRule.worker_scan_evidence_eq ctx,
      WorkerPendingMemoryRule.worker_match_eq ctx, ?_⟩,
    ⟨PVCUnboundRule.pvc_scan_evidence_lines ctx, PVCUnboundRule.pvc_match_eq ctx, ?_⟩,
    ⟨DatasetNotBoundRule.dataset_scan_evidence_eq ctx,
      DatasetNotBoundRule.dataset_match_eq ctx, ?_⟩,
    ⟨RuntimePartiallyReadyRule.runtime_scan_evidence_eq ctx,
      RuntimePartiallyReadyRule.runtime_match_eq ctx, fun _ => rfl,
      RuntimePartiallyReadyRule.runtime_scan_unmatched_lines ctx, ?_⟩⟩
  · intro hm
    show (FuseUnschedulableRule.scan ctx).evidence = Slice.nil
    rw [FuseUnschedulableRule.fuse_scan_unmatched ctx hm]
    rfl
  · intro hm
    show (WorkerPendingMemoryRule.scan ctx).evidence = Slice.nil
    rw [WorkerPendingMemoryRule.worker_scan_unmatched ctx hm]
    rfl
  · intro hm
    show (PVCUnboundRule.scan ctx).evidence = Slice.nil
    rw [PVCUnboundRule.pvc_scan_unmatched_init ctx hm]
    rfl
  · intro hm
    show (DatasetNotBoundRule.scan ctx).evidence = Slice.nil
    rw [DatasetNotBoundRule.dataset_scan_unmatched ctx hm]
    rfl
  · intro hm hready
    show (RuntimePartiallyReadyRule.scan ctx).evidence = Slice.nil
    rw [RuntimePartiallyReadyRule.runtime_scan_unmatched ctx hm hready]
    rfl

/-- C19, amended, on snapshots with resources.  On `shortfallOtherCondition`
the runtime rule matches through the worker shortfall and lists, after the
`Worker` line, the `Initialized=False` condition that `Match` does not accept.
On `nonReadyCondition` it does not match and lists that condition alone.  On
`fuseScheduling` the fuse rule matches and its one line is that of the accepted
condition; the worker rule rejects the same pod and leaves its evidence nil. -/
theorem evidence_from_accepted_signals_witness :
    (RuntimePartiallyReadyRule.Match shortfallOtherCondition = true ∧
      RuntimePartiallyReadyRule.condAccepted
        ⟨"Initialized", "False", "MasterNotInitialized", ""⟩ = false ∧
      (RuntimePartiallyReadyRule.Hypothesis shortfallOtherCondition).Evidence.toList
        = ["Runtime default/mydata: Worker 0/2 ready",
           "Runtime default/mydata: Condition Initialized=False, reason=MasterNotInitialized"]) ∧
    (RuntimePartiallyReadyRule.Match nonReadyCondition = false ∧
      (RuntimePartiallyReadyRule.Hypothesis nonReadyCondition).Evidence.toList
        = ["Runtime default/mydata: Condition Initialized=False, reason="]) ∧
    (FuseUnschedulableRule.Match fuseScheduling = true ∧
      (FuseUnschedulableRule.Hypothesis fuseScheduling).Evidence.toList
        = ["Pod default/mydata-fuse-abc123: PodScheduled=False, reason=Unschedulable"]) ∧
    (WorkerPendingMemoryRule.Match fuseScheduling = false ∧
      (WorkerPendingMemoryRule.Hypothesis fuseScheduling).Evidence = Slice.nil) :=
  ⟨⟨rfl, rfl, (evidence_from_accepted_signals shortfallOtherCondition).2.2.2.2.1.trans rfl⟩,
   ⟨rfl, ((evidence_from_accepted_signals nonReadyCondition).2.2.2.2.2.2.2.1 rfl).trans rfl⟩,
   ⟨rfl, (evidence_from_accepted_signals fuseScheduling).1.1.trans rfl⟩,
   ⟨rfl, (evidence_from_accepted_signals fuseScheduling).2.1.2.2 rfl⟩⟩

/-- C20: the evidence of the claim rule is one line for each storage claim of
status `Pending` or `Lost`, in traversal order, followed by one line for each
matching event, in the order of the event list; its length is the number of
those claims plus the number of those events. -/
theorem claim_rule_evidence_lines (ctx : DiagnosticContext) :
    (PVCUnboundRule.Hypothesis ctx).Evidence.toList
      = ctx.Graph.PVCs.flatMap PVCUnboundRule.claimLines
        ++ (ctx.Events.filter PVCUnboundRule.eventMatches).map PVCUnboundRule.eventLine ∧
    (ctx.Graph.PVCs.flatMap PVCUnboundRule.claimLines).length
      = ctx.Graph.PVCs.countP PVCUnboundRule.claimMatches ∧
    (PVCUnboundRule.Hypothesis ctx).Evidence.len
      = ctx.Graph.PVCs.countP PVCUnboundRule.claimMatches
        + ctx.Events.countP PVCUnboundRule.eventMatches := by
  have h1 := PVCUnboundRule.pvc_scan_evidence_eq ctx
  have h2 := PVCUnboundRule.pvc_flatMap_claimLines_length ctx.Graph.PVCs
  refine ⟨h1, h2, ?_⟩
  show (PVCUnboundRule.scan ctx).evidence.toList.length = _
  rw [h1, List.length_append, h2, List.length_map]
  simp only [List.countP_eq_length_filter]

/-- C21, evaluated on the code: the snapshot `cpuShortage` has no events and its
only condition message, `Insufficient cpu`, does not mention memory, yet the
worker rule matches it and the result is the single hypothesis `Worker pod
cannot be scheduled due to insufficient memory`, citing the cpu message. -/
theorem worker_rule_matches_cpu_shortage :
    cpuShortage.Events = [] ∧
    strContains (strToLower "Insufficient cpu") "memory" = false ∧
    WorkerPendingMemoryRule.Match cpuShortage = true ∧
    (Analyze 0 cpuShortage).1.Hypotheses.toList.map
        (fun h => (h.Component, h.Issue, h.Evidence.toList))
      = [("Worker", "Worker pod cannot be scheduled due to insufficient memory",
          ["Pod default/mydata-worker-0: Insufficient cpu"])] :=
  ⟨rfl, rfl, rfl, rfl⟩

/-- C22: a result has at most five hypotheses, no two of them share a
component, and every component is one of `Fuse`, `Worker`, `Runtime`, `Storage`,
`Dataset`.  On any two of the hypotheses handed to the sort the comparator is
decided by confidence and component alone, so the issue key never decides. -/
theorem components_pairwise_distinct (now : Nat) (ctx : DiagnosticContext) :
    (Analyze now ctx).1.Hypotheses.len ≤ 5 ∧
    ((Analyze now ctx).1.Hypotheses.toList.map (fun h => h.Component)).Nodup ∧
    (∀ h ∈ (Analyze now ctx).1.Hypotheses.toList,
      h.Component ∈ ["Fuse", "Worker", "Runtime", "Storage", "Dataset"]) ∧
    (collect ctx).toList.Pairwise (fun a b =>
      a.Component ≠ b.Component ∧
      less a b = (if a.Confidence ≠ b.Confidence then decide (a.Confidence > b.Confidence)
        else decide (a.Component < b.Component)) ∧
      less b a = (if b.Confidence ≠ a.Confidence then decide (b.Confidence > a.Confidence)
        else decide (b.Component < a.Component))) := by
  refine ⟨?_, Analyze_components_nodup now ctx, ?_, ?_⟩
  · have h := (Analyze_withoutRank_perm now ctx).length_eq
    simp only [List.length_map] at h
    unfold Slice.len
    rw [h]
    exact List.length_filter_le _ _
  · intro h hh
    obtain ⟨r, hr, _, he⟩ := Analyze_mem now ctx h hh
    have hcomp : (withoutRank h).Component = (withoutRank (r.Hypothesis ctx)).Component := by
      rw [he]
    change h.Component = (r.Hypothesis ctx).Component at hcomp
    rw [hcomp]
    simp only [allRules, List.mem_cons, List.mem_singleton, List.not_mem_nil, or_false] at hr
    rcases hr with rfl | rfl | rfl | rfl | rfl <;>
      simp [FuseUnschedulableRule.Hypothesis, WorkerPendingMemoryRule.Hypothesis,
        RuntimePartiallyReadyRule.Hypothesis, PVCUnboundRule.Hypothesis,
        DatasetNotBoundRule.Hypothesis]
  · rw [collect_toList]
    refine (matching_components ctx allRules (List.Perm.refl _)).imp ?_
    intro a b hab
    refine ⟨hab, ?_, ?_⟩
    · unfold less
      simp [hab]
    · unfold less
      simp [Ne.symm hab]

/-- C22 at the snapshot `lostFirst`, whose result has the two components
`Dataset` and `Storage`. -/
theorem components_pairwise_distinct_witness :
    (Analyze 0 lostFirst).1.Hypotheses.len ≤ 5 ∧
    ((Analyze 0 lostFirst).1.Hypotheses.toList.map (fun h => h.Component)).Nodup :=
  ⟨(components_pairwise_distinct 0 lostFirst).1, (components_pairwise_distinct 0 lostFirst).2.1⟩

/-- C23, evaluated on the code: `pendingFirstDecorated` and `lostFirst` hold the
same pod, claim, dataset and runtime maps and the same event list, and differ
in summary, nodes, findings, logs and metadata.  Those fields change nothing:
the result on `pendingFirstDecorated` is the result on `pendingFirst`.  But its
claim map is traversed `Pending` claim first and the result is `Storage` at 0.8
before `Dataset`, where `lostFirst` gives `Dataset` before `Storage`, both at
0.6. -/
theorem agreeing_snapshots_result_varies :
    pendingFirstDecorated.Graph.Pods.map withoutPodEvents
      = lostFirst.Graph.Pods.map withoutPodEvents ∧
    pendingFirstDecorated.Graph.PVCs.Perm lostFirst.Graph.PVCs ∧
    pendingFirstDecorated.Graph.Datasets = lostFirst.Graph.Datasets ∧
    pendingFirstDecorated.Graph.Runtimes = lostFirst.Graph.Runtimes ∧
    pendingFirstDecorated.Events = lostFirst.Events ∧
    pendingFirstDecorated.Summary ≠ lostFirst.Summary ∧
    pendingFirstDecorated.Graph.Nodes ≠ lostFirst.Graph.Nodes ∧
    pendingFirstDecorated.Findings ≠ lostFirst.Findings ∧
    pendingFirstDecorated.Logs ≠ lostFirst.Logs ∧
    pendingFirstDecorated.Metadata ≠ lostFirst.Metadata ∧
    Analyze 0 pendingFirstDecorated = Analyze 0 pendingFirst ∧
    (Analyze 0 lostFirst).1.Hypotheses.toList.map
        (fun h => (h.Component, h.Confidence, h.Evidence.toList, h.Rank))
      = [("Dataset", ConfidencePodStatusOnly, ["Dataset ns/d: Status=NotBound"], 1),
         ("Storage", ConfidencePodStatusOnly,
           ["PVC ns/a: Status=Lost", "PVC ns/b: Status=Pending"], 2)] ∧
    (Analyze 0 pendingFirstDecorated).1.Hypotheses.toList.map
        (fun h => (h.Component, h.Confidence, h.Evidence.toList, h.Rank))
      = [("Storage", ConfidenceEventAndStatus,
           ["PVC ns/b: Status=Pending", "PVC ns/a: Status=Lost"], 1),
         ("Dataset", ConfidencePodStatusOnly, ["Dataset ns/d: Status=NotBound"], 2)] ∧
    ConfidenceEventAndStatus ≠ ConfidencePodStatusOnly := by
  have hd : Analyze 0 pendingFirstDecorated = Analyze 0 pendingFirst :=
    Analyze_congr 0 _ _ (allRules_congr _ _ rfl rfl rfl rfl rfl)
  refine ⟨rfl, ?_, rfl, rfl, rfl, by decide, by decide, by decide, by decide, by decide, hd,
    ?_, ?_, eventAndStatus_ne_podStatusOnly⟩
  · exact List.reverse_perm lostFirst.Graph.PVCs
  · rw [Analyze_lostFirst]
    rfl
  · rw [hd, Analyze_pendingFirst]
    rfl

end FluidDiagnoser
